import Mathlib

/-!
# Game-site backend: session actor, seat bookkeeping, tic-tac-toe and registry

A shallow embedding of the Go backend (`backend/internal/app`,
`backend/internal/domain/...`, `backend/protocol`).

* Go maps are association lists behind `GoMap` (lookup, store, delete).
* A Go panic is an explicit failure: functions that index an array or a
  slice, or dereference a pointer, return in `Go α := Except GoPanic α`.
* A channel send `s.outgoingChan <- m` is recorded as an emitted message:
  a handler returns the list of the messages it sends, in sending order.
* The outside world a call reads (clock, entropy, user service, the AI
  name table) is passed explicitly as a `World`.
-/

namespace GameSite

/-! ## Go runtime -/

/-- The run-time panics of the Go code under study. -/
inductive GoPanic where
  | indexOutOfRange
  | nilDereference
  | typeAssertion
  | invalidArgument
  | closeOfClosedChannel
  deriving DecidableEq

/-- A Go computation: it either panics or returns a value. -/
abbrev Go (α : Type) : Type := Except GoPanic α

/-- A Go `map[K]V`, as an association list; the first entry of a key is the live one. -/
structure GoMap (κ : Type) (ν : Type) where
  entries : List (κ × ν)

namespace GoMap

variable {κ ν : Type} [DecidableEq κ]

/-- The map `make(map[K]V)`. -/
def empty : GoMap κ ν := ⟨[]⟩

/-- Lookup in an entry list. -/
def lookup (k : κ) : List (κ × ν) → Option ν
  | [] => none
  | e :: rest => if e.1 = k then some e.2 else lookup k rest

/-- The comma-ok read `v, ok := m[k]` (`none` when `ok` is false). -/
def get? (m : GoMap κ ν) (k : κ) : Option ν := lookup k m.entries

/-- The builtin `delete(m, k)`. -/
def delete (m : GoMap κ ν) (k : κ) : GoMap κ ν :=
  ⟨m.entries.filter (fun e => decide (e.1 ≠ k))⟩

/-- The store `m[k] = v`. -/
def set (m : GoMap κ ν) (k : κ) (v : ν) : GoMap κ ν :=
  ⟨(k, v) :: (m.delete k).entries⟩

/-- The test `_, ok := m[k]`. -/
def contains (m : GoMap κ ν) (k : κ) : Bool := (m.get? k).isSome

end GoMap

/-- The slice index `xs[i]`, panicking out of range. -/
def sliceAt {α : Type} (xs : List α) (i : Int) : Go α :=
  if i < 0 then throw GoPanic.indexOutOfRange
  else match xs[i.toNat]? with
    | some x => pure x
    | none => throw GoPanic.indexOutOfRange

/-- The pointer dereference `*p`, panicking on nil. -/
def deref {α : Type} (p : Option α) : Go α :=
  match p with
  | some x => pure x
  | none => throw GoPanic.nilDereference

/-- A finite `float64`, the value `mant * 2 ^ exp`. JSON decoding yields only finite numbers. -/
structure Float64 where
  mant : Int
  exp : Int

namespace Float64

/-- The float64 holding an integer. -/
def ofInt (i : Int) : Float64 := ⟨i, 0⟩

/-- Truncation toward zero of `mant * 2 ^ exp`. -/
def trunc (v : Float64) : Int :=
  if 0 ≤ v.exp then v.mant * 2 ^ v.exp.toNat else v.mant.tdiv (2 ^ (-v.exp).toNat)

/-- Go's conversion `int(v)`: truncation toward zero. Outside the `int64` range the result is
implementation-specific and never a panic; amd64 yields the least `int64`. -/
def toInt (v : Float64) : Int :=
  let t := v.trunc
  if -(2 ^ 63 : Int) ≤ t ∧ t < 2 ^ 63 then t else -(2 ^ 63 : Int)

end Float64

/-- A value of Go's `interface{}` as found in request parameters: what `encoding/json`
decodes (nil, bool, float64, string, slice, map), and a Go `int`, which callers other than
the JSON decoder may store. -/
inductive JVal where
  | null
  | bool (b : Bool)
  | float64 (v : Float64)
  | int (i : Int)
  | string (s : String)
  | array (xs : List JVal)
  | object (kvs : List (String × JVal))

/-- The formatting verb `%d`. -/
def fmtInt (i : Int) : String := toString i

namespace strings

/-- The function `strings.HasPrefix`. -/
def HasPrefix (s p : String) : Bool := p.data.isPrefixOf s.data

/-- The function `strings.TrimPrefix`. -/
def TrimPrefix (s p : String) : String :=
  if HasPrefix s p then ⟨s.data.drop p.data.length⟩ else s

end strings

/-! ## protocol/common.go -/

abbrev MessageType := String

def MessageTypeSessionState : MessageType := "session_state"
def MessageTypeGameState : MessageType := "game_state"
def MessageTypeError : MessageType := "error"
def MessageTypeSimple : MessageType := "simple"
def MessageTypeAIState : MessageType := "ai_state"

abbrev RequestType := String

def RequestTypeSession : RequestType := "session"
def RequestTypeGame : RequestType := "game"
def RequestTypeAI : RequestType := "ai"

/-- The method `RequestType.IsValid`. -/
def RequestType.IsValid (r : RequestType) : Bool :=
  if r = RequestTypeSession ∨ r = RequestTypeGame ∨ r = RequestTypeAI then true else false

/-- The struct `protocol.Request`; a nil `Parameters` map reads like the empty map. -/
structure Request where
  RequestType : RequestType
  FunctionName : String
  Parameters : GoMap String JVal

/-- The comma-ok type assertion `request.Parameters[key].(float64)`; a missing key reads as
the nil interface value, on which the assertion fails. -/
def Request.float64Param (request : Request) (key : String) : Option Float64 :=
  match request.Parameters.get? key with
  | some (JVal.float64 v) => some v
  | _ => none

/-- The comma-ok type assertion `request.Parameters[key].(string)`. -/
def Request.stringParam (request : Request) (key : String) : Option String :=
  match request.Parameters.get? key with
  | some (JVal.string v) => some v
  | _ => none

structure ErrorParameters where
  ErrorMessage : String
  deriving DecidableEq

structure ErrorResponse where
  MessageType : MessageType
  Parameters : ErrorParameters
  deriving DecidableEq

structure PlayerInfo where
  UserID : String
  DisplayName : String
  IsAI : Bool
  deriving DecidableEq

/-- The struct `protocol.SessionStateParameters`: position to player info, nil when empty. -/
structure SessionStateParameters where
  PlayerPositions : GoMap Int (Option PlayerInfo)

/-- The struct `protocol.TicTacToeGameStateParameters` as `GetStateForAll` fills it. -/
structure TicTacToeGameStateParameters where
  Board : Fin 9 → Int
  Winner : Option Int
  WinningLine : List Int

/-- The dynamic value of `Response.Parameters`, by the concrete types the backend stores. -/
inductive ResponseParameters where
  | error (p : ErrorParameters)
  | sessionState (p : SessionStateParameters)
  | ticTacToeState (p : TicTacToeGameStateParameters)

structure Response where
  MessageType : MessageType
  Parameters : ResponseParameters

/-! ## internal/domain -/

structure ActionMessage where
  PlayerID : String
  Request : Request

/-- The struct `domain.StateMessage`; an empty `PlayerID` is a broadcast. -/
structure StateMessage where
  PlayerID : String
  Response : Response

/-- What a call observes of the world outside the session. -/
structure World where
  /-- The call `userService.GetDisplayName`; `none` is its error. -/
  GetDisplayName : String → Option String
  /-- The table `constants.AINames`, which is not among the sources: a parameter. -/
  AINames : List String
  /-- The reading of `time.Now()`. -/
  now : Nat
  /-- The entropy `rand.Reader` delivers; `none` when reading it fails. -/
  entropy : Option Nat

/-- The interface `domain.Game` over a state type. A method with a pointer receiver that may
mutate returns the new state; a nil `*ErrorResponse` is `none`. -/
structure Game (σ : Type) where
  HandleAction : σ → Int → Request → Go (σ × Option ErrorResponse)
  GetStateForAll : σ → List StateMessage
  IsComplete : σ → Bool
  GameType : σ → String
  AITypes : σ → GoMap String String

/-- The interface `domain.PlayerMapping` over a state type; a nil `error` is `none`, and an
error carries its `Error()` text. -/
structure PlayerMapping (μ : Type) where
  HandleSessionEvent : World → μ → String → Request → Go (μ × Option String)
  GetPlayerPosition : μ → String → Int × Bool
  GetSessionStateForAll : μ → List StateMessage

/-! ## internal/domain/games/tictactoe -/

/-- The array read `board[i]` on a `[9]int`, panicking out of range. -/
def boardAt (board : Fin 9 → Int) (i : Int) : Go Int :=
  if h : 0 ≤ i ∧ i < 9 then pure (board ⟨i.toNat, by omega⟩)
  else throw GoPanic.indexOutOfRange

/-- The array store `board[i] = v` on a `[9]int`, panicking out of range. -/
def boardStore (board : Fin 9 → Int) (i : Int) (v : Int) : Go (Fin 9 → Int) :=
  if h : 0 ≤ i ∧ i < 9 then pure (Function.update board ⟨i.toNat, by omega⟩ v)
  else throw GoPanic.indexOutOfRange

/-- The table `WinningLines` of utils.go; each entry is a `[3]int`. -/
def WinningLines : List (Int × Int × Int) :=
  [(0, 1, 2), (3, 4, 5), (6, 7, 8), (0, 3, 6), (1, 4, 7), (2, 5, 8), (0, 4, 8), (2, 4, 6)]

/-- The body of the `for _, line := range WinningLines` loop of `CheckWinner`; Go's `%` is
the truncating remainder, and `||` evaluates left to right and stops early. -/
def CheckWinner.loop (board : Fin 9 → Int) : List (Int × Int × Int) → Go (Option (List Int))
  | [] => pure none
  | line :: rest => do
    let c0 ← boardAt board line.1
    if c0 = -1 then CheckWinner.loop board rest else do
      let c1 ← boardAt board line.2.1
      if c1 = -1 then CheckWinner.loop board rest else do
        let c2 ← boardAt board line.2.2
        if c2 = -1 then CheckWinner.loop board rest else do
          let player0 := (← boardAt board line.1).tmod 2
          let player1 := (← boardAt board line.2.1).tmod 2
          let player2 := (← boardAt board line.2.2).tmod 2
          if player0 = player1 ∧ player1 = player2 then
            pure (some [line.1, line.2.1, line.2.2])
          else CheckWinner.loop board rest

/-- The function `CheckWinner` of utils.go; `none` is the nil slice. -/
def CheckWinner (board : Fin 9 → Int) : Go (Option (List Int)) :=
  CheckWinner.loop board WinningLines

/-- The struct `TicTacToeGame` (the logger apart). `moveNumber` is a Go `int`; it stays within
0..9 on the states reachable from `NewTicTacToeGame`, so its increment never wraps. -/
structure TicTacToeGame where
  board : Fin 9 → Int
  moveNumber : Int
  winner : Option Int
  winningLine : List Int

namespace TicTacToeGame

/-- The constructor `NewTicTacToeGame`. -/
def NewTicTacToeGame : TicTacToeGame :=
  { board := fun _ => -1, moveNumber := 0, winner := none, winningLine := [] }

/-- The literal `&protocol.ErrorResponse{MessageType: MessageTypeError, ...}`. -/
def errorResponse (text : String) : ErrorResponse :=
  { MessageType := MessageTypeError, Parameters := { ErrorMessage := text } }

/-- The method `checkWinner`. -/
def checkWinner (g : TicTacToeGame) : Go TicTacToeGame := do
  let winningLine ← CheckWinner g.board
  match winningLine with
  | some line => do
    let first ← sliceAt line 0
    let cell ← boardAt g.board first
    let winnerPosition := cell.tmod 2
    pure { g with winningLine := line, winner := some winnerPosition }
  | none => pure g

/-- The method `makeMove`. -/
def makeMove (g : TicTacToeGame) (playerPosition : Int) (position : Int) :
    Go (TicTacToeGame × Option ErrorResponse) :=
  if position < 0 ∨ position > 8 then
    pure (g, some (errorResponse
      ("Position " ++ fmtInt position ++ " out of range (must be 0-8)")))
  else if g.winner.isSome then do
    let w ← deref g.winner
    pure (g, some (errorResponse ("Game already has a winner: player " ++ fmtInt w)))
  else
    let currentPlayer := g.moveNumber.tmod 2
    if currentPlayer ≠ playerPosition then
      pure (g, some (errorResponse
        ("Player " ++ fmtInt playerPosition ++ " is not the current player")))
    else do
      let cell ← boardAt g.board position
      if cell ≠ -1 then
        pure (g, some (errorResponse ("Position " ++ fmtInt position ++ " is already taken")))
      else do
        let board ← boardStore g.board position g.moveNumber
        let g1 := { g with board := board, moveNumber := g.moveNumber + 1 }
        let g2 ← checkWinner g1
        pure (g2, none)

/-- The method `HandleAction`. -/
def HandleAction (g : TicTacToeGame) (playerPosition : Int) (message : Request) :
    Go (TicTacToeGame × Option ErrorResponse) :=
  if message.FunctionName ≠ "make_move" then
    pure (g, some (errorResponse ("Function " ++ message.FunctionName ++ " not supported")))
  else
    match message.Parameters.get? "position" with
    | none => pure (g, some (errorResponse "Missing position parameter"))
    | some (JVal.float64 v) => makeMove g playerPosition v.toInt
    | some (JVal.int v) => makeMove g playerPosition v
    | some _ => pure (g, some (errorResponse "Invalid position parameter type"))

/-- The method `GetStateForAll`. -/
def GetStateForAll (g : TicTacToeGame) : List StateMessage :=
  [{ PlayerID := "",
     Response :=
      { MessageType := MessageTypeGameState,
        Parameters := ResponseParameters.ticTacToeState
          { Board := g.board, Winner := g.winner, WinningLine := g.winningLine } } }]

/-- The method `IsComplete`. -/
def IsComplete (g : TicTacToeGame) : Bool :=
  if g.winner.isSome then true
  else if ∃ i : Fin 9, g.board i = -1 then false
  else true

/-- The method `GameType`. -/
def GameType (_g : TicTacToeGame) : String := "tictactoe"

/-- The method `AITypes`. -/
def AITypes (_g : TicTacToeGame) : GoMap String String :=
  ⟨[("random", "Easy"), ("blocker", "Medium"), ("unbeatable", "Hard")]⟩

/-- The type `*TicTacToeGame` as an implementation of `domain.Game`. -/
def asGame : Game TicTacToeGame :=
  { HandleAction := HandleAction
    GetStateForAll := GetStateForAll
    IsComplete := IsComplete
    GameType := GameType
    AITypes := AITypes }

end TicTacToeGame

/-! ## internal/domain/player_mappings -/

/-- The struct `PlayerSlot`; `LastSeen` is a clock reading. -/
structure PlayerSlot where
  UserID : String
  DisplayName : String
  Connected : Bool
  LastSeen : Nat
  IsAI : Bool
  AIType : String
  deriving DecidableEq

/-- The struct `PlayerPositionMapping`. The maps hold `*PlayerSlot` values that are never nil
(each store writes `&PlayerSlot{...}`), so a slot is stored by value; the `userService`
handle is read through the `World` of each call. -/
structure PlayerPositionMapping where
  maxPlayers : Int
  slots : GoMap Int PlayerSlot
  userToPos : GoMap String Int

/-- The call `rand.Int(rand.Reader, max)`: a draw below `max`, `none` on a read error; it
panics when `max` is not positive. -/
def randInt (w : World) (max : Nat) : Go (Option Nat) :=
  if max = 0 then throw GoPanic.invalidArgument
  else pure (w.entropy.map (fun r => r % max))

namespace PlayerPositionMapping

/-- The constructor `NewPlayerPositionMapping`. -/
def NewPlayerPositionMapping (maxPlayers : Int) : PlayerPositionMapping :=
  { maxPlayers := maxPlayers, slots := GoMap.empty, userToPos := GoMap.empty }

/-- The text of `fmt.Errorf("invalid position %d (must be 0-%d)", position, m.maxPlayers-1)`. -/
def invalidPosition (m : PlayerPositionMapping) (position : Int) : String :=
  "invalid position " ++ fmtInt position ++ " (must be 0-" ++ fmtInt (m.maxPlayers - 1) ++ ")"

/-- The method `GetPlayerPosition`; a missing key reads as `(0, false)`. -/
def GetPlayerPosition (m : PlayerPositionMapping) (userID : String) : Int × Bool :=
  match m.userToPos.get? userID with
  | some pos => (pos, true)
  | none => (0, false)

/-- One round of the loop of `buildSessionState`, at position `pos`. -/
def buildSessionState.step (m : PlayerPositionMapping)
    (playerPositions : GoMap Int (Option PlayerInfo)) (pos : Int) :
    GoMap Int (Option PlayerInfo) :=
  match m.slots.get? pos with
  | some slot =>
    let userID := if slot.IsAI then slot.AIType else slot.UserID
    playerPositions.set pos
      (some { UserID := userID, DisplayName := slot.DisplayName, IsAI := slot.IsAI })
  | none => playerPositions.set pos none

/-- The method `buildSessionState`: the loop `for pos := 0; pos < m.maxPlayers; pos++`. -/
def buildSessionState (m : PlayerPositionMapping) : SessionStateParameters :=
  { PlayerPositions :=
      (List.range m.maxPlayers.toNat).foldl
        (fun playerPositions (n : Nat) => buildSessionState.step m playerPositions (n : Int))
        GoMap.empty }

/-- The method `GetSessionStateForAll`. -/
def GetSessionStateForAll (m : PlayerPositionMapping) : List StateMessage :=
  [{ PlayerID := "",
     Response :=
      { MessageType := MessageTypeSessionState,
        Parameters := ResponseParameters.sessionState (buildSessionState m) } }]

/-- The method `joinPosition`. -/
def joinPosition (w : World) (m : PlayerPositionMapping) (userID : String) (position : Int) :
    PlayerPositionMapping × Option String :=
  if position < 0 ∨ position ≥ m.maxPlayers then
    (m, some (invalidPosition m position))
  else
    match m.userToPos.get? userID with
    | some existingPos =>
      if existingPos = position then (m, none)
      else (m, some ("user already in position " ++ fmtInt existingPos))
    | none =>
      if (m.slots.get? position).isSome then
        (m, some ("position " ++ fmtInt position ++ " is already occupied"))
      else
        let displayName :=
          match w.GetDisplayName userID with
          | some name => name
          | none => userID
        ({ m with
            slots := m.slots.set position
              { UserID := userID, DisplayName := displayName, Connected := true,
                LastSeen := w.now, IsAI := false, AIType := "" }
            userToPos := m.userToPos.set userID position },
         none)

/-- The method `leavePosition`. -/
def leavePosition (m : PlayerPositionMapping) (userID : String) :
    PlayerPositionMapping × Option String :=
  match m.userToPos.get? userID with
  | none => (m, some "user is not in any position")
  | some position =>
    ({ m with slots := m.slots.delete position, userToPos := m.userToPos.delete userID }, none)

/-- The method `generateAIName`. -/
def generateAIName (w : World) (m : PlayerPositionMapping) : Go String := do
  let usedNames : List String :=
    m.slots.entries.filterMap (fun e =>
      if e.2.IsAI ∧ strings.HasPrefix e.2.DisplayName "AI-" then
        some (strings.TrimPrefix e.2.DisplayName "AI-")
      else none)
  let availableNames := w.AINames.filter (fun name => decide (name ∉ usedNames))
  let availableNames :=
    if availableNames.length = 0 then availableNames ++ ["alfred"] else availableNames
  match ← randInt w availableNames.length with
  | none => do
    let first ← sliceAt availableNames 0
    pure ("AI-" ++ first)
  | some n => do
    let randomName ← sliceAt availableNames n
    pure ("AI-" ++ randomName)

/-- The method `addAI`. -/
def addAI (w : World) (m : PlayerPositionMapping) (position : Int) (aiType : String) :
    Go (PlayerPositionMapping × Option String) :=
  if position < 0 ∨ position ≥ m.maxPlayers then
    pure (m, some (invalidPosition m position))
  else if (m.slots.get? position).isSome then
    pure (m, some ("position " ++ fmtInt position ++ " is already occupied"))
  else do
    let aiUserID := "ai_" ++ aiType ++ "_" ++ fmtInt position
    let aiDisplayName ← generateAIName w m
    pure ({ m with
            slots := m.slots.set position
              { UserID := aiUserID, DisplayName := aiDisplayName, Connected := true,
                LastSeen := w.now, IsAI := true, AIType := aiType }
            userToPos := m.userToPos.set aiUserID position },
          none)

/-- The method `removeAI`. -/
def removeAI (m : PlayerPositionMapping) (position : Int) :
    PlayerPositionMapping × Option String :=
  if position < 0 ∨ position ≥ m.maxPlayers then
    (m, some (invalidPosition m position))
  else
    match m.slots.get? position with
    | none => (m, some ("position " ++ fmtInt position ++ " is not occupied"))
    | some slot =>
      if ¬ slot.IsAI then
        (m, some ("position " ++ fmtInt position ++ " is occupied by a human player, not AI"))
      else
        ({ m with
            userToPos := m.userToPos.delete slot.UserID
            slots := m.slots.delete position },
         none)

/-- The method `HandleSessionEvent`. -/
def HandleSessionEvent (w : World) (m : PlayerPositionMapping) (userID : String)
    (request : Request) : Go (PlayerPositionMapping × Option String) :=
  if request.FunctionName = "join_position" then
    match request.float64Param "position" with
    | none => pure (m, some "missing or invalid position parameter")
    | some position => pure (joinPosition w m userID position.toInt)
  else if request.FunctionName = "leave_position" then
    pure (leavePosition m userID)
  else if request.FunctionName = "add_ai" then
    match request.float64Param "position" with
    | none => pure (m, some "missing or invalid position parameter")
    | some position =>
      match request.stringParam "ai_type" with
      | none => pure (m, some "missing or invalid ai_type parameter")
      | some aiType => addAI w m position.toInt aiType
  else if request.FunctionName = "remove_ai" then
    match request.float64Param "position" with
    | none => pure (m, some "missing or invalid position parameter")
    | some position => pure (removeAI m position.toInt)
  else
    pure (m, some ("unknown session function: " ++ request.FunctionName))

/-- The type `*PlayerPositionMapping` as an implementation of `domain.PlayerMapping`. -/
def asPlayerMapping : PlayerMapping PlayerPositionMapping :=
  { HandleSessionEvent := HandleSessionEvent
    GetPlayerPosition := GetPlayerPosition
    GetSessionStateForAll := GetSessionStateForAll }

end PlayerPositionMapping

/-! ## internal/app/game_session.go -/

/-- The state a `GameSession` owns: its game and its player mapping. The channels are the
emitted-message lists of the handlers. -/
structure GameSession (σ : Type) (μ : Type) where
  gameID : String
  game : σ
  playerMapping : μ

namespace GameSession

variable {σ μ : Type}

/-- The method `sendError`: the one message it sends on the outgoing channel. -/
def sendError (playerID : String) (errorMessage : String) : StateMessage :=
  { PlayerID := playerID,
    Response :=
      { MessageType := MessageTypeError,
        Parameters := ResponseParameters.error { ErrorMessage := errorMessage } } }

/-- The method `handleSessionMessage`. -/
def handleSessionMessage (P : PlayerMapping μ) (w : World) (s : GameSession σ μ)
    (msg : ActionMessage) : Go (GameSession σ μ × List StateMessage) := do
  let (pm, err) ← P.HandleSessionEvent w s.playerMapping msg.PlayerID msg.Request
  match err with
  | some e => pure ({ s with playerMapping := pm }, [sendError msg.PlayerID e])
  | none => pure ({ s with playerMapping := pm }, P.GetSessionStateForAll pm)

/-- The method `handleAIMessage`. -/
def handleAIMessage (G : Game σ) (P : PlayerMapping μ) (w : World) (s : GameSession σ μ)
    (msg : ActionMessage) : Go (GameSession σ μ × List StateMessage) :=
  match msg.Request.stringParam "ai_type" with
  | none => pure (s, [sendError msg.PlayerID "Missing or invalid ai_type parameter"])
  | some AIType =>
    if ¬ (G.AITypes s.game).contains AIType then
      pure (s, [sendError msg.PlayerID "AI type not supported"])
    else do
      let (pm, err) ← P.HandleSessionEvent w s.playerMapping msg.PlayerID msg.Request
      match err with
      | some e => pure ({ s with playerMapping := pm }, [sendError msg.PlayerID e])
      | none => pure ({ s with playerMapping := pm }, P.GetSessionStateForAll pm)

/-- The method `handleGameMessage`. -/
def handleGameMessage (G : Game σ) (P : PlayerMapping μ) (s : GameSession σ μ)
    (msg : ActionMessage) : Go (GameSession σ μ × List StateMessage) :=
  match P.GetPlayerPosition s.playerMapping msg.PlayerID with
  | (_, false) => pure (s, [sendError msg.PlayerID "You are not in a playing position"])
  | (position, true) => do
    let (g, errResponse) ← G.HandleAction s.game position msg.Request
    match errResponse with
    | some e =>
      pure ({ s with game := g },
        [{ PlayerID := msg.PlayerID,
           Response :=
            { MessageType := MessageTypeError,
              Parameters := ResponseParameters.error e.Parameters } }])
    | none => pure ({ s with game := g }, G.GetStateForAll g)

/-- The method `handleAction`: the new session state and the messages sent, in order. -/
def handleAction (G : Game σ) (P : PlayerMapping μ) (w : World) (s : GameSession σ μ)
    (msg : ActionMessage) : Go (GameSession σ μ × List StateMessage) :=
  if msg.Request.RequestType = RequestTypeSession then handleSessionMessage P w s msg
  else if msg.Request.RequestType = RequestTypeAI then handleAIMessage G P w s msg
  else if msg.Request.RequestType = RequestTypeGame then handleGameMessage G P s msg
  else pure (s, [sendError msg.PlayerID "Unknown request type"])

end GameSession

/-! ## internal/app/registry.go -/

/-- A `sync.RWMutex`: whether a writer holds it, and how many readers do. -/
structure RWMutex where
  writer : Bool
  readers : Nat
  deriving DecidableEq

namespace RWMutex

/-- The mutex nobody holds. -/
def free : RWMutex := { writer := false, readers := 0 }

/-- The method `Lock`; `none` when it cannot be acquired in this state. -/
def Lock (mu : RWMutex) : Option RWMutex :=
  if mu.writer = false ∧ mu.readers = 0 then some { mu with writer := true } else none

/-- The method `Unlock`. -/
def Unlock (mu : RWMutex) : RWMutex := { mu with writer := false }

/-- The method `RLock`; `none` when it cannot be acquired in this state. -/
def RLock (mu : RWMutex) : Option RWMutex :=
  if mu.writer = false then some { mu with readers := mu.readers + 1 } else none

/-- The method `RUnlock`. -/
def RUnlock (mu : RWMutex) : RWMutex := { mu with readers := mu.readers - 1 }

end RWMutex

/-- The outcome of a call that takes a lock: it returns, or it cannot proceed. -/
inductive Blocking (α : Type) where
  | returns (a : α)
  | blocks

/-- The struct `Registry`, over the type of `*GameSession` handles. -/
structure Registry (S : Type) where
  sessions : GoMap String S
  mu : RWMutex

namespace Registry

variable {S : Type}

/-- The constructor `NewRegistry`. -/
def NewRegistry : Registry S := { sessions := GoMap.empty, mu := RWMutex.free }

/-- The method `Create`. `session` is the handle `NewGameSession` returns, whose loop
`go session.Run()` starts; the result pairs the registry after the deferred `Unlock` with the
returned `(*GameSession, error)`. -/
def Create (r : Registry S) (gameID : String) (session : S) :
    Blocking (Registry S × Except String S) :=
  match r.mu.Lock with
  | none => Blocking.blocks
  | some mu =>
    if r.sessions.contains gameID then
      Blocking.returns ({ r with mu := mu.Unlock },
        Except.error ("session " ++ gameID ++ " already exists"))
    else
      Blocking.returns ({ sessions := r.sessions.set gameID session, mu := mu.Unlock },
        Except.ok session)

/-- The method `Get`; the registry after the deferred `RUnlock` and the returned
`(*GameSession, error)`. -/
def Get (r : Registry S) (gameID : String) : Blocking (Registry S × Except String S) :=
  match r.mu.RLock with
  | none => Blocking.blocks
  | some mu =>
    match r.sessions.get? gameID with
    | none =>
      Blocking.returns ({ r with mu := mu.RUnlock },
        Except.error ("session " ++ gameID ++ " not found"))
    | some session => Blocking.returns ({ r with mu := mu.RUnlock }, Except.ok session)

/-- The method `Remove`: `r.mu.Lock()`, then `r.Get(gameID)` on the registry whose lock this
call now holds, then `game.Shutdown()` and `delete(r.sessions, gameID)`, then the deferred
`Unlock`. The result pairs the registry with the sessions `Shutdown` was called on. A
`sync.RWMutex` is not reentrant: the `RLock` inside `Get` waits for the writer, which is the
caller itself. -/
def Remove (r : Registry S) (gameID : String) : Blocking (Registry S × List S) :=
  match r.mu.Lock with
  | none => Blocking.blocks
  | some mu =>
    match Get { r with mu := mu } gameID with
    | Blocking.blocks => Blocking.blocks
    | Blocking.returns (r1, Except.error _) =>
      Blocking.returns ({ r1 with mu := r1.mu.Unlock }, [])
    | Blocking.returns (r1, Except.ok game) =>
      Blocking.returns ({ sessions := r1.sessions.delete gameID, mu := r1.mu.Unlock }, [game])

/-- The constant `letters` of `GenerateUniqueGameID`. -/
def letters : String := "ABCDEFGHIJKLMNOPQRSTUVWXYZ"

/-- The constant `idLength` of `GenerateUniqueGameID`. -/
def idLength : Nat := 5

/-- The index `bytes[i]%26` of a byte into `letters`. -/
def letterIndex (b : Nat) : Nat := b % 26

/-- The byte `letters[bytes[i]%26]`; the index is below `len(letters)`. -/
def letterOf (b : Nat) : Char :=
  letters.data.get ⟨letterIndex b, by
    have h : letters.data.length = 26 := by decide
    rw [h]
    exact Nat.mod_lt b (by decide)⟩

/-- The id built in round `k` of the loop: `rand.Read` fills the five bytes
`rand (5k) .. rand (5k+4)`, each reduced to a byte. -/
def candidate (rand : Nat → Nat) (k : Nat) : String :=
  String.mk ((List.range idLength).map (fun i => letterOf (rand (idLength * k + i) % 256)))

/-- The `for` loop of `GenerateUniqueGameID` from round `k` on, for at most `fuel` rounds;
`none` when the loop is still running after them. -/
def GenerateUniqueGameID.loop (sessions : GoMap String S) (rand : Nat → Nat) :
    Nat → Nat → Option String
  | 0, _ => none
  | fuel + 1, k =>
    let id := candidate rand k
    if sessions.contains id then GenerateUniqueGameID.loop sessions rand fuel (k + 1)
    else some id

/-- The method `GenerateUniqueGameID` on the byte stream `rand`, run for at most `fuel`
rounds; the registry after the deferred `RUnlock` and the id returned, if any. -/
def GenerateUniqueGameID (r : Registry S) (rand : Nat → Nat) (fuel : Nat) :
    Blocking (Registry S × Option String) :=
  match r.mu.RLock with
  | none => Blocking.blocks
  | some mu =>
    Blocking.returns ({ r with mu := mu.RUnlock },
      GenerateUniqueGameID.loop r.sessions rand fuel 0)

/-- The byte values `0..255` that select the letter of index `k`. -/
def bytesFor (k : Nat) : List Nat := (List.range 256).filter (fun b => letterIndex b = k)

end Registry

/-! ## internal/infra/api/websocket.go -/

namespace WebSocketHandler

/-- One round of `writeLoop` on the message it received from `OutgoingChannel()`: the JSON
text it passes to `conn.Write`, or `none` when it skips the message (addressed to another
user) or `json.Marshal` fails (`continue`). `Marshal` is `json.Marshal` on responses. -/
def writeLoop.round (Marshal : Response → Except String String) (userID : String)
    (stateMsg : StateMessage) : Option String :=
  if stateMsg.PlayerID = "" ∨ stateMsg.PlayerID = userID then
    match Marshal stateMsg.Response with
    | Except.error _ => none
    | Except.ok responseJSON => some responseJSON
  else none

end WebSocketHandler

/-- A connected adapter: the identity of its connection and the texts its write loop has
passed to `conn.Write`, oldest first. -/
structure Connection where
  userID : String
  written : List String

/-- The write loop of a connection has received `m`. -/
def Connection.receive (Marshal : Response → Except String String) (c : Connection)
    (m : StateMessage) : Connection :=
  match WebSocketHandler.writeLoop.round Marshal c.userID m with
  | some responseJSON => { c with written := c.written ++ [responseJSON] }
  | none => c

/-- The one `outgoingChan` of a session, oldest message first, and the connections whose
write loops receive from it: `OutgoingChannel()` returns the same channel to each of them. -/
structure Outgoing where
  outgoingChan : List StateMessage
  connections : List Connection

namespace Outgoing

/-- The message `m` goes to the connection of index `i`, and to no other. -/
def handTo (Marshal : Response → Except String String) (m : StateMessage) :
    Nat → List Connection → List Connection
  | _, [] => []
  | 0, c :: rest => c.receive Marshal m :: rest
  | i + 1, c :: rest => c :: handTo Marshal m i rest

/-- One receive `stateMsg := <-gameSession.OutgoingChannel()` by the write loop of the
connection of index `i`: a Go channel hands each value to exactly one receiver, so the message
leaves the channel; on an empty channel the receive waits. -/
def step (Marshal : Response → Except String String) (o : Outgoing) (i : Nat) : Outgoing :=
  match o.outgoingChan with
  | [] => o
  | m :: rest =>
    if i < o.connections.length then
      { outgoingChan := rest, connections := handTo Marshal m i o.connections }
    else o

/-- The receives of a schedule, which names the connection whose write loop runs next. -/
def run (Marshal : Response → Except String String) (o : Outgoing) (schedule : List Nat) :
    Outgoing :=
  schedule.foldl (step Marshal) o

/-- The number of texts the connections have written, all together. -/
def totalWritten (o : Outgoing) : Nat :=
  (o.connections.map (fun c => c.written.length)).sum

end Outgoing

/-! ## The session loop on a sequence of actions -/

/-- The loop of `Run` on the actions it dequeues, each handled in the world of its time: the
final session and all messages sent, in order. -/
def GameSession.runActions {σ μ : Type} (G : Game σ) (P : PlayerMapping μ) :
    GameSession σ μ → List (World × ActionMessage) → Go (GameSession σ μ × List StateMessage)
  | s, [] => pure (s, [])
  | s, (w, msg) :: rest => do
    let (s1, out1) ← GameSession.handleAction G P w s msg
    let (s2, out2) ← GameSession.runActions G P s1 rest
    pure (s2, out1 ++ out2)

/-- The broadcast messages (empty `PlayerID`) among the messages sent. -/
def broadcasts (out : List StateMessage) : List StateMessage :=
  out.filter (fun m => m.PlayerID = "")

/-! ## The session actor: `Run`, `Shutdown` and the channels -/

/-- The capacity of `actionChan`: `make(chan domain.ActionMessage, 16)`. -/
def actionChanCapacity : Nat := 16

/-- A session with its channels and loop. `actionChan` holds the buffered actions, oldest
first; `outgoing` lists every message sent on `outgoingChan` so far; `quitClosed` and
`doneClosed` say whether `close(s.quit)` has run and whether `Run` has returned (its deferred
`close(s.done)`); `panicked` holds the panic that ended the process, if any. `submitted` and
`handled` are history: the actions whose send on `actionChan` has completed, and the actions
`Run` has passed to `handleAction`, both in order. -/
structure SessionActor (σ : Type) (μ : Type) where
  session : GameSession σ μ
  actionChan : List ActionMessage
  outgoing : List StateMessage
  quitClosed : Bool
  doneClosed : Bool
  panicked : Option GoPanic
  submitted : List ActionMessage
  handled : List ActionMessage

/-- What a goroutine does next to a session. -/
inductive ActorEvent where
  /-- A send `gameSession.ActionChannel() <- a`, as in `readLoop`. -/
  | submit (a : ActionMessage)
  /-- The `select` of `Run` takes `action := <-s.actionChan` and handles it, in world `w`. -/
  | receive (w : World)
  /-- The `close(s.quit)` of `Shutdown`. -/
  | closeQuit
  /-- The `select` of `Run` takes `<-s.quit`: `Run` returns and `done` is closed. -/
  | quit

namespace SessionActor

variable {σ μ : Type}

/-- The constructor `NewGameSession`, before `go session.Run()` has handled anything. -/
def NewGameSession (gameID : String) (game : σ) (playerMapping : μ) : SessionActor σ μ :=
  { session := { gameID := gameID, game := game, playerMapping := playerMapping }
    actionChan := []
    outgoing := []
    quitClosed := false
    doneClosed := false
    panicked := none
    submitted := []
    handled := [] }

/-- One event, or `none` when it cannot happen in this state and its goroutine waits: a send
on the full `actionChan`, a receive from the empty one, a `select` case after `Run` has
returned. After a panic nothing happens any more. A round of the loop is one event: it ends
when `handleAction` has sent its messages. -/
def step (G : Game σ) (P : PlayerMapping μ) (x : SessionActor σ μ) :
    ActorEvent → Option (SessionActor σ μ)
  | ActorEvent.submit a =>
    if x.panicked.isSome then none
    else if x.actionChan.length < actionChanCapacity then
      some { x with actionChan := x.actionChan ++ [a], submitted := x.submitted ++ [a] }
    else none
  | ActorEvent.receive w =>
    if x.panicked.isSome ∨ x.doneClosed then none
    else
      match x.actionChan with
      | [] => none
      | action :: rest =>
        match GameSession.handleAction G P w x.session action with
        | Except.ok (s, out) =>
          some { x with session := s, actionChan := rest, outgoing := x.outgoing ++ out,
                        handled := x.handled ++ [action] }
        | Except.error e =>
          some { x with actionChan := rest, handled := x.handled ++ [action],
                        panicked := some e }
  | ActorEvent.closeQuit =>
    if x.panicked.isSome then none
    else if x.quitClosed then some { x with panicked := some GoPanic.closeOfClosedChannel }
    else some { x with quitClosed := true }
  | ActorEvent.quit =>
    if x.panicked.isSome ∨ x.doneClosed then none
    else if x.quitClosed then some { x with doneClosed := true }
    else none

/-- The events of a schedule, one after the other; an event that cannot happen leaves the
state as it is. -/
def run (G : Game σ) (P : PlayerMapping μ) (x : SessionActor σ μ)
    (events : List ActorEvent) : SessionActor σ μ :=
  events.foldl (fun y e => (step G P y e).getD y) x

/-- Whether `Shutdown` has returned: it has closed `quit` and its `<-s.done` has completed. -/
def ShutdownReturned (x : SessionActor σ μ) : Prop :=
  x.quitClosed = true ∧ x.doneClosed = true

end SessionActor

/-! ## internal/infra/auth/service.go -/

/-- The struct `User`. -/
structure User where
  ID : String
  Username : String
  PasswordHash : String
  deriving DecidableEq

/-- The struct `WSTokenData`; `ExpiresAt` is a time in nanoseconds. -/
structure WSTokenData where
  UserID : String
  GameID : String
  ExpiresAt : Nat
  Used : Bool
  deriving DecidableEq

/-- The struct `Service`, the mutex apart: every method runs under `s.mu`, and the model of
a method is its body. The maps hold pointers that are never nil, stored by value. -/
structure Service where
  usersByUsername : GoMap String User
  usersByID : GoMap String User
  sessions : GoMap String String
  wsTokens : GoMap String WSTokenData

/-- The duration `time.Second`, in nanoseconds. -/
def Second : Nat := 1000000000

namespace Service

/-- The constructor `NewService`. -/
def NewService : Service :=
  { usersByUsername := GoMap.empty, usersByID := GoMap.empty, sessions := GoMap.empty,
    wsTokens := GoMap.empty }

/-- One round of the loop `for exists { ... }` of `GenerateWSToken`, with `generated` the
result of `generateToken()`: the values after the round of the variable `exists` of the loop
condition, of `token`, and of `s.wsTokens`. The statement
`currentToken, exists := s.wsTokens[token]` stands in the block of the loop body, so it
declares a new `exists` there (`existsInBody`); `exists = false` assigns that one, and the
`exists` the loop tests, declared before the loop, is left as it was. -/
def GenerateWSToken.round (now : Nat) (generated : String) (existsOuter : Bool)
    (wsTokens : GoMap String WSTokenData) : Bool × String × GoMap String WSTokenData :=
  let token := "ws-" ++ generated
  let existsInBody := wsTokens.contains token
  match wsTokens.get? token with
  | some currentToken =>
    if existsInBody ∧ (currentToken.Used ∨ currentToken.ExpiresAt < now) then
      (existsOuter, token, wsTokens.delete token)
    else (existsOuter, token, wsTokens)
  | none => (existsOuter, token, wsTokens)

/-- The loop `for exists { ... }` of `GenerateWSToken` from its round `k` on, for at most
`fuel` rounds: the `token` and the `s.wsTokens` it ends with, or `none` when it is still
running after them. `tokens k` is the result of the `k`-th call of `generateToken()`. -/
def GenerateWSToken.loop (now : Nat) (tokens : Nat → String) :
    Nat → Nat → Bool → String → GoMap String WSTokenData →
      Option (String × GoMap String WSTokenData)
  | 0, _, existsOuter, token, wsTokens =>
    if existsOuter then none else some (token, wsTokens)
  | fuel + 1, k, existsOuter, token, wsTokens =>
    if existsOuter then
      GenerateWSToken.loop now tokens fuel (k + 1)
        (GenerateWSToken.round now (tokens k) existsOuter wsTokens).1
        (GenerateWSToken.round now (tokens k) existsOuter wsTokens).2.1
        (GenerateWSToken.round now (tokens k) existsOuter wsTokens).2.2
    else some (token, wsTokens)

/-- The statements of `GenerateWSToken` after its loop, with `token` and `wsTokens` as the
loop leaves them: the store of the token with its 10 second expiry, and the return. -/
def GenerateWSToken.store (s : Service) (userID : String) (gameID : String) (now : Nat)
    (token : String) (wsTokens : GoMap String WSTokenData) : Service × Except String String :=
  ({ s with
      wsTokens := wsTokens.set token
        { UserID := userID, GameID := gameID, ExpiresAt := now + 10 * Second, Used := false } },
    Except.ok token)

/-- The method `GenerateWSToken` at time `now`, its loop run for at most `fuel` rounds: the
service afterwards and the returned `(string, error)`, or `none` when it has not returned. -/
def GenerateWSToken (s : Service) (userID : String) (gameID : String) (now : Nat)
    (tokens : Nat → String) (fuel : Nat) : Option (Service × Except String String) :=
  if ¬ s.usersByID.contains userID then some (s, Except.error "user not found")
  else
    match GenerateWSToken.loop now tokens fuel 0 true "" s.wsTokens with
    | none => none
    | some (token, wsTokens) => some (GenerateWSToken.store s userID gameID now token wsTokens)

/-- The method `ValidateWSToken` at time `now`: the service afterwards and the returned
`(userID, error)`. On success `wsToken.Used = true` is followed by the deferred delete. -/
def ValidateWSToken (s : Service) (token : String) (expectedGameID : String) (now : Nat) :
    Service × Except String String :=
  match s.wsTokens.get? token with
  | none => (s, Except.error "invalid or expired WebSocket token")
  | some wsToken =>
    if wsToken.Used then
      ({ s with wsTokens := s.wsTokens.delete token },
        Except.error "WebSocket token already used")
    else if now > wsToken.ExpiresAt then
      ({ s with wsTokens := s.wsTokens.delete token }, Except.error "WebSocket token expired")
    else if wsToken.GameID ≠ expectedGameID then
      ({ s with wsTokens := s.wsTokens.delete token },
        Except.error
          ("WebSocket token is for game " ++ wsToken.GameID ++ ", not " ++ expectedGameID))
    else ({ s with wsTokens := s.wsTokens.delete token }, Except.ok wsToken.UserID)

/-- The service after a sequence of `ValidateWSToken` calls, each a token, a game id and
the time of the call. -/
def validations (s : Service) (calls : List (String × String × Nat)) : Service :=
  calls.foldl (fun t call => (ValidateWSToken t call.1 call.2.1 call.2.2).1) s

end Service

/-- The package `bcrypt`, which is not among the sources: `GenerateFromPassword`, whose
error is its text, and `CompareHashAndPassword`, true for a nil error. -/
structure Bcrypt where
  GenerateFromPassword : String → Except String String
  CompareHashAndPassword : String → String → Bool

/-- The function `generateID`, on the hex text of its sixteen random bytes. -/
def generateID (hex : String) : String := "user-" ++ hex

namespace Service

/-- The loop `for exists { userID = generateID(); _, exists = s.usersByID[userID] }` of
`Register` from its round `k` on, for at most `fuel` rounds; `none` when it is still running
after them. `hexes k` is the random text of the `k`-th call of `generateID()`. -/
def Register.loop (usersByID : GoMap String User) (hexes : Nat → String) :
    Nat → Nat → Option String
  | 0, _ => none
  | fuel + 1, k =>
    let userID := generateID (hexes k)
    if usersByID.contains userID then Register.loop usersByID hexes fuel (k + 1)
    else some userID

/-- The method `Register`, its loop run for at most `fuel` rounds: the service afterwards
and the returned `(userID, err)`, a nil `err` being `none`; `none` when it has not returned. -/
def Register (b : Bcrypt) (s : Service) (username : String) (password : String)
    (hexes : Nat → String) (fuel : Nat) : Option (Service × String × Option String) :=
  if username = "" ∨ password = "" then some (s, "", some "username and password required")
  else if s.usersByUsername.contains username then some (s, "", some "username already taken")
  else
    match b.GenerateFromPassword password with
    | Except.error e => some (s, "", some ("failed to hash password: " ++ e))
    | Except.ok passwordHash =>
      match Register.loop s.usersByID hexes fuel 0 with
      | none => none
      | some userID =>
        let user : User := { ID := userID, Username := username, PasswordHash := passwordHash }
        some ({ s with
                usersByUsername := s.usersByUsername.set username user
                usersByID := s.usersByID.set userID user },
          userID, none)

/-- The loop `for exists { token = generateToken(); _, exists = s.sessions[token] }` of
`Login` from its round `k` on, for at most `fuel` rounds; `none` when it is still running
after them. `tokens k` is the result of the `k`-th call of `generateToken()`. -/
def Login.loop (sessions : GoMap String String) (tokens : Nat → String) :
    Nat → Nat → Option String
  | 0, _ => none
  | fuel + 1, k =>
    let token := tokens k
    if sessions.contains token then Login.loop sessions tokens fuel (k + 1)
    else some token

/-- The method `Login`, its loop run for at most `fuel` rounds: the service afterwards and
the returned `(token, userID, err)`, a nil `err` being `none`; `none` when it has not
returned. -/
def Login (b : Bcrypt) (s : Service) (username : String) (password : String)
    (tokens : Nat → String) (fuel : Nat) : Option (Service × String × String × Option String) :=
  match s.usersByUsername.get? username with
  | none => some (s, "", "", some "invalid credentials")
  | some user =>
    if ¬ b.CompareHashAndPassword user.PasswordHash password then
      some (s, "", "", some "invalid credentials")
    else
      match Login.loop s.sessions tokens fuel 0 with
      | none => none
      | some token =>
        some ({ s with sessions := s.sessions.set token user.ID }, token, user.ID, none)

end Service

/-! ## internal/infra/api/auth_handler.go -/

/-- The struct `protocol.RegisterRequestParams`. -/
structure RegisterRequestParams where
  Username : String
  Password : String
  deriving DecidableEq

/-- The struct `protocol.AuthResponseParams`. -/
structure AuthResponseParams where
  Token : String
  UserID : String
  deriving DecidableEq

/-- The body a handler of `AuthHandler` writes: the text of `http.Error`, an encoded
`protocol.ErrorResponse`, or an encoded `protocol.Response` with `AuthResponseParams`. -/
inductive HTTPBody where
  | text (s : String)
  | error (e : ErrorResponse)
  | auth (messageType : MessageType) (p : AuthResponseParams)
  deriving DecidableEq

/-- What a handler leaves in its `http.ResponseWriter`: the status code (200 when the body
is written without a call of `WriteHeader`), the headers set, and the body. -/
structure HTTPResponse where
  StatusCode : Nat
  Header : List (String × String)
  Body : HTTPBody
  deriving DecidableEq

/-- The request as `HandleRegister` reads it: the method, and the outcome of
`json.NewDecoder(r.Body).Decode(&req)`, `none` for its error. -/
structure RegisterHTTPRequest where
  Method : String
  Body : Option RegisterRequestParams

/-- The constant `http.StatusOK`. -/
def StatusOK : Nat := 200

/-- The constant `http.StatusBadRequest`. -/
def StatusBadRequest : Nat := 400

/-- The constant `http.StatusMethodNotAllowed`. -/
def StatusMethodNotAllowed : Nat := 405

/-- The function `http.Error`. -/
def httpError (error : String) (code : Nat) : HTTPResponse :=
  { StatusCode := code
    Header := [("Content-Type", "text/plain; charset=utf-8"),
      ("X-Content-Type-Options", "nosniff")]
    Body := HTTPBody.text (error ++ "\n") }

namespace AuthHandler

/-- The method `HandleRegister`: the service afterwards and the response written, or `none`
when a call of the service has not returned within `fuel` rounds of its loop. The `err` of
`Register` is assigned again by `token, _, err := h.authService.Login(...)` before it is
read. -/
def HandleRegister (b : Bcrypt) (s : Service) (r : RegisterHTTPRequest) (hexes : Nat → String)
    (tokens : Nat → String) (fuel : Nat) : Option (Service × HTTPResponse) :=
  if r.Method ≠ "POST" then some (s, httpError "Method not allowed" StatusMethodNotAllowed)
  else
    match r.Body with
    | none =>
      some (s, { StatusCode := StatusBadRequest, Header := [],
                 Body := HTTPBody.error
                  { MessageType := MessageTypeError,
                    Parameters := { ErrorMessage := "Invalid request body" } } })
    | some req =>
      match Service.Register b s req.Username req.Password hexes fuel with
      | none => none
      | some (s1, userID, _) =>
        match Service.Login b s1 req.Username req.Password tokens fuel with
        | none => none
        | some (s2, token, _, err) =>
          match err with
          | some e =>
            some (s2, { StatusCode := StatusBadRequest, Header := [],
                        Body := HTTPBody.error
                          { MessageType := MessageTypeError,
                            Parameters := { ErrorMessage := e } } })
          | none =>
            some (s2, { StatusCode := StatusOK,
                        Header := [("Content-Type", "application/json")],
                        Body := HTTPBody.auth MessageTypeSimple
                          { Token := token, UserID := userID } })

end AuthHandler

/-! ## Sequences of calls on the game and on the player mapping -/

/-- The game after a sequence of `HandleAction` calls, each a seat and a request. -/
def TicTacToeGame.play : TicTacToeGame → List (Int × Request) → Go TicTacToeGame
  | g, [] => pure g
  | g, call :: rest => do
    let (g2, _) ← TicTacToeGame.HandleAction g call.1 call.2
    TicTacToeGame.play g2 rest

/-- The mapping after a sequence of `HandleSessionEvent` calls, each in the world of its
time, with the user and the request. -/
def PlayerPositionMapping.runEvents :
    PlayerPositionMapping → List (World × String × Request) → Go PlayerPositionMapping
  | m, [] => pure m
  | m, event :: rest => do
    let (m2, _) ← PlayerPositionMapping.HandleSessionEvent event.1 m event.2.1 event.2.2
    PlayerPositionMapping.runEvents m2 rest

/-! ## Predicates of the verification -/

/-- A line whose three cells are board indices. -/
def LineInRange (line : Int × Int × Int) : Prop :=
  (0 ≤ line.1 ∧ line.1 < 9) ∧ (0 ≤ line.2.1 ∧ line.2.1 < 9) ∧ (0 ≤ line.2.2 ∧ line.2.2 < 9)

/-- The entry the loop of `buildSessionState` stores for a position. -/
def PlayerPositionMapping.infoAt (m : PlayerPositionMapping) (pos : Int) : Option PlayerInfo :=
  match m.slots.get? pos with
  | some slot =>
    some { UserID := if slot.IsAI then slot.AIType else slot.UserID,
           DisplayName := slot.DisplayName, IsAI := slot.IsAI }
  | none => none

/-- Whether `handleAction` rejects the action, by the branch of the source that sends the
error: the `default` case of `handleAction` (unknown category), a non-nil error of
`HandleSessionEvent` in `handleSessionMessage`, a failed `ai_type` assertion, an unadvertised
AI type or a non-nil error of `HandleSessionEvent` in `handleAIMessage`, and a sender without
a seat or a non-nil `*ErrorResponse` of `HandleAction` in `handleGameMessage`. -/
def GameSession.rejects {σ μ : Type} (G : Game σ) (P : PlayerMapping μ) (w : World)
    (s : GameSession σ μ) (msg : ActionMessage) : Bool :=
  if msg.Request.RequestType = RequestTypeSession then
    match P.HandleSessionEvent w s.playerMapping msg.PlayerID msg.Request with
    | Except.ok (_, some _) => true
    | _ => false
  else if msg.Request.RequestType = RequestTypeAI then
    match msg.Request.stringParam "ai_type" with
    | none => true
    | some AIType =>
      if ¬ (G.AITypes s.game).contains AIType then true
      else
        match P.HandleSessionEvent w s.playerMapping msg.PlayerID msg.Request with
        | Except.ok (_, some _) => true
        | _ => false
  else if msg.Request.RequestType = RequestTypeGame then
    match P.GetPlayerPosition s.playerMapping msg.PlayerID with
    | (_, false) => true
    | (position, true) =>
      match G.HandleAction s.game position msg.Request with
      | Except.ok (_, some _) => true
      | _ => false
  else true

/-- The error text a message carries, when its parameters are `ErrorParameters`. -/
def StateMessage.errorText (m : StateMessage) : Option String :=
  match m.Response.Parameters with
  | ResponseParameters.error p => some p.ErrorMessage
  | _ => none

/-- The map with `f` applied to each value. -/
def GoMap.mapValues {κ ν ρ : Type} (f : ν → ρ) (m : GoMap κ ν) : GoMap κ ρ :=
  ⟨m.entries.map (fun e => (e.1, f e.2))⟩

/-- The world with its clock reading put to 0. -/
def World.noClock (w : World) : World := { w with now := 0 }

/-- The slot with its `LastSeen` put to 0. -/
def PlayerSlot.noClock (slot : PlayerSlot) : PlayerSlot := { slot with LastSeen := 0 }

/-- The mapping with the `LastSeen` of every slot put to 0. -/
def PlayerPositionMapping.noClock (m : PlayerPositionMapping) : PlayerPositionMapping :=
  { m with slots := m.slots.mapValues PlayerSlot.noClock }

/-- The session with the `LastSeen` of every slot put to 0. -/
def GameSession.noClock {σ : Type} (s : GameSession σ PlayerPositionMapping) :
    GameSession σ PlayerPositionMapping :=
  { s with playerMapping := s.playerMapping.noClock }

/-- The action and the world it is handled in, the clock reading put to 0. -/
def noClockAction (a : World × ActionMessage) : World × ActionMessage := (a.1.noClock, a.2)

/-- The messages a run has sent, if it returned. -/
def sentBy {σ μ : Type} (r : Go (GameSession σ μ × List StateMessage)) :
    Option (List StateMessage) :=
  match r with
  | Except.ok (_, out) => some out
  | Except.error _ => none

/-- The cell of a board at an index, read as empty outside the board. -/
def cellOf (board : Fin 9 → Int) (i : Int) : Int :=
  match boardAt board i with
  | Except.ok v => v
  | Except.error _ => -1

/-- The words of the specification of `CheckWinner`: the three cells of the line are not
empty and their move numbers have the same parity. -/
def lineWon (board : Fin 9 → Int) (line : Int × Int × Int) : Bool :=
  decide (cellOf board line.1 ≠ -1 ∧ cellOf board line.2.1 ≠ -1 ∧ cellOf board line.2.2 ≠ -1 ∧
    cellOf board line.1 % 2 = cellOf board line.2.1 % 2 ∧
    cellOf board line.2.1 % 2 = cellOf board line.2.2 % 2)

/-- The specification of `CheckWinner`: the first line of `WinningLines` that is won, as
the list of its three cells, and nil when there is none. -/
def CheckWinner.spec (board : Fin 9 → Int) : Option (List Int) :=
  (WinningLines.find? (lineWon board)).map (fun line => [line.1, line.2.1, line.2.2])

/-- The moves on the board are numbered: the move number is not negative, a cell is empty
or holds a number below the move number, and each number below it stands in exactly one
cell. -/
def TicTacToeGame.Numbered (g : TicTacToeGame) : Prop :=
  0 ≤ g.moveNumber ∧
  (∀ i, g.board i = -1 ∨ (0 ≤ g.board i ∧ g.board i < g.moveNumber)) ∧
  ∀ k, 0 ≤ k → k < g.moveNumber → ∃ i, g.board i = k ∧ ∀ j, g.board j = k → j = i

/-- One call `HandleAction(p, message)` on a game with a record of the seat that played
each cell: the call of seat `p` is recorded at every cell it changes. -/
def TicTacToeGame.moveLog (x : TicTacToeGame × (Fin 9 → Option Int)) (p : Int)
    (message : Request) : Go (TicTacToeGame × (Fin 9 → Option Int)) := do
  let (g2, _) ← TicTacToeGame.HandleAction x.1 p message
  pure (g2, fun i => if g2.board i ≠ x.1.board i then some p else x.2 i)

/-- A sequence of `HandleAction` calls with the record of the seat that played each cell. -/
def TicTacToeGame.playLog :
    TicTacToeGame × (Fin 9 → Option Int) → List (Int × Request) →
      Go (TicTacToeGame × (Fin 9 → Option Int))
  | x, [] => pure x
  | x, call :: rest => do
    let y ← TicTacToeGame.moveLog x call.1 call.2
    TicTacToeGame.playLog y rest

/-- The seat recorded for the cell of an index, none outside the board. -/
def playerAt (log : Fin 9 → Option Int) (i : Int) : Option Int :=
  if h : 0 ≤ i ∧ i < 9 then log ⟨i.toNat, by omega⟩ else none

/-- The record of the seats agrees with the board: a cell is empty and has no seat, or
holds a move number and the seat of its parity; and while no winner is recorded no line of
`WinningLines` is won. -/
def TicTacToeGame.Recorded (x : TicTacToeGame × (Fin 9 → Option Int)) : Prop :=
  0 ≤ x.1.moveNumber ∧
  (x.1.winner = none → ∀ line ∈ WinningLines, lineWon x.1.board line = false) ∧
  ∀ i, (x.1.board i = -1 ∧ x.2 i = none) ∨
    (0 ≤ x.1.board i ∧ x.2 i = some (x.1.board i % 2))

/-- The two maps of a mapping are inverse to each other: `userToPos[u] = p` exactly when
`slots[p]` exists with the user id `u`. -/
def PlayerPositionMapping.MutuallyInverse (m : PlayerPositionMapping) : Prop :=
  ∀ (u : String) (p : Int),
    m.userToPos.get? u = some p ↔ ∃ slot, m.slots.get? p = some slot ∧ slot.UserID = u

/-- The two maps are inverse to each other, every occupied seat is in range, the user id of
an AI is the `ai_<type>_<position>` of its seat, and the user id of a human does not start
with `ai_`. -/
def PlayerPositionMapping.WellSeated (m : PlayerPositionMapping) : Prop :=
  m.MutuallyInverse ∧
  ∀ (p : Int) (slot : PlayerSlot), m.slots.get? p = some slot →
    0 ≤ p ∧ p < m.maxPlayers ∧
    ((slot.IsAI = true ∧ slot.UserID = "ai_" ++ slot.AIType ++ "_" ++ fmtInt p) ∨
      (slot.IsAI = false ∧ strings.HasPrefix slot.UserID "ai_" = false))

/-! ## Fixtures: a two-seat tic-tac-toe session -/

/-- A world with one registered user and two AI names. -/
def demoWorld : World :=
  { GetDisplayName := fun u => if u = "user-a" then some "alice" else none
    AINames := ["bob", "carol"]
    now := 7
    entropy := some 5 }

/-- The session `Registry.Create` builds for tic-tac-toe: a new game and two empty seats. -/
def demoSession : GameSession TicTacToeGame PlayerPositionMapping :=
  { gameID := "ABCDE"
    game := TicTacToeGame.NewTicTacToeGame
    playerMapping := PlayerPositionMapping.NewPlayerPositionMapping 2 }

/-- A request with the given category, function name and parameters. -/
def demoRequest (category : String) (function : String) (parameters : List (String × JVal)) :
    Request :=
  { RequestType := category, FunctionName := function, Parameters := ⟨parameters⟩ }

/-- The parameters `{"position": n}`. -/
def positionOnly (n : Int) : List (String × JVal) :=
  [("position", JVal.float64 (Float64.ofInt n))]

/-- The parameters `{"position": n, "ai_type": t}`. -/
def positionAndAI (n : Int) (t : String) : List (String × JVal) :=
  [("position", JVal.float64 (Float64.ofInt n)), ("ai_type", JVal.string t)]

/-- The demo session after `user-a` has joined seat 0. -/
def seatedSession : GameSession TicTacToeGame PlayerPositionMapping :=
  { demoSession with
    playerMapping :=
      { maxPlayers := 2
        slots := ⟨[(0, { UserID := "user-a", DisplayName := "alice", Connected := true,
                         LastSeen := 7, IsAI := false, AIType := "" })]⟩
        userToPos := ⟨[("user-a", 0)]⟩ } }

/-- The new game after seat 0 has played the centre cell. -/
def afterCentreMove : TicTacToeGame :=
  { board := Function.update (fun _ => -1) 4 0, moveNumber := 1, winner := none,
    winningLine := [] }

/-! ## Fixtures: two connections on one session -/

/-- A stand-in for `json.Marshal` that never fails; the text is the message type. -/
def demoMarshal : Response → Except String String :=
  fun response => Except.ok response.MessageType

/-- The broadcast of the session state of `seatedSession`. -/
def demoBroadcast : StateMessage :=
  { PlayerID := "",
    Response :=
      { MessageType := MessageTypeSessionState,
        Parameters := ResponseParameters.sessionState
          (PlayerPositionMapping.buildSessionState seatedSession.playerMapping) } }

/-- An error addressed to `user-b`. -/
def demoErrorForB : StateMessage :=
  GameSession.sendError "user-b" "Player 1 is not the current player"

/-- The connections of `user-a` and `user-b`, nothing written yet. -/
def twoConnections : List Connection :=
  [{ userID := "user-a", written := [] }, { userID := "user-b", written := [] }]

/-- A move to the centre cell sent with an empty `PlayerID`. -/
def anonymousMove : ActionMessage :=
  { PlayerID := "", Request := demoRequest "game" "make_move" (positionOnly 4) }

/-! ## Fixtures: two runs of one action sequence -/

/-- The demo world with another random draw. -/
def otherDrawWorld : World := { demoWorld with entropy := some 0 }

/-- The demo world at a later time. -/
def laterWorld : World := { demoWorld with now := 99 }

/-- The action of `user-a` adding an AI of type `random` at seat 0. -/
def addAIAction : ActionMessage :=
  { PlayerID := "user-a", Request := demoRequest "ai" "add_ai" (positionAndAI 0 "random") }

/-- The display name a session-state message shows at a seat. -/
def seatName (seat : Int) (m : StateMessage) : Option String :=
  match m.Response.Parameters with
  | ResponseParameters.sessionState p =>
    match p.PlayerPositions.get? seat with
    | some (some info) => some info.DisplayName
    | _ => none
  | _ => none

/-! ## Fixtures: a session that is shut down -/

/-- A move of `user-a` to the centre cell. -/
def centreMove : ActionMessage :=
  { PlayerID := "user-a", Request := demoRequest "game" "make_move" (positionOnly 4) }

/-- A new tic-tac-toe session whose `Shutdown` has returned. -/
def shutDownActor : SessionActor TicTacToeGame PlayerPositionMapping :=
  SessionActor.run TicTacToeGame.asGame PlayerPositionMapping.asPlayerMapping
    (SessionActor.NewGameSession "ABCDE" TicTacToeGame.NewTicTacToeGame
      (PlayerPositionMapping.NewPlayerPositionMapping 2))
    [ActorEvent.closeQuit, ActorEvent.quit]

/-- The shut-down session after sixteen submissions. -/
def fullActor : SessionActor TicTacToeGame PlayerPositionMapping :=
  SessionActor.run TicTacToeGame.asGame PlayerPositionMapping.asPlayerMapping shutDownActor
    (List.replicate 16 (ActorEvent.submit centreMove))

/-! ## Fixtures: an auth service -/

/-- A service with the one user `user-a`, and a WebSocket token for game `ABCDE` that expires
at time 50. -/
def demoService : Service :=
  { usersByUsername := ⟨[("alice", { ID := "user-a", Username := "alice", PasswordHash := "h" })]⟩
    usersByID := ⟨[("user-a", { ID := "user-a", Username := "alice", PasswordHash := "h" })]⟩
    sessions := GoMap.empty
    wsTokens := ⟨[("ws-t1", { UserID := "user-a", GameID := "ABCDE", ExpiresAt := 50,
                               Used := false })]⟩ }

/-! ## Fixtures: a game of tic-tac-toe -/

/-- The request `make_move` at a position. -/
def moveTo (n : Int) : Request := demoRequest "game" "make_move" (positionOnly n)

/-- Four calls that seat 0 and seat 1 make in turn: cells 0, 3, 1, 4. -/
def openingCalls : List (Int × Request) :=
  [(0, moveTo 0), (1, moveTo 3), (0, moveTo 1), (1, moveTo 4)]

/-- The game after the opening calls and the move of seat 0 to cell 2, which completes the
top row. -/
def wonGame : TicTacToeGame :=
  match TicTacToeGame.play TicTacToeGame.NewTicTacToeGame (openingCalls ++ [(0, moveTo 2)]) with
  | Except.ok g => g
  | Except.error _ => TicTacToeGame.NewTicTacToeGame

/-- The game and the record after the opening calls. -/
def openingLogged : TicTacToeGame × (Fin 9 → Option Int) :=
  match TicTacToeGame.playLog (TicTacToeGame.NewTicTacToeGame, fun _ => none) openingCalls with
  | Except.ok x => x
  | Except.error _ => (TicTacToeGame.NewTicTacToeGame, fun _ => none)

/-- The game and the record after seat 0 then moves to cell 2. -/
def wonLogged : TicTacToeGame × (Fin 9 → Option Int) :=
  match TicTacToeGame.moveLog openingLogged 0 (moveTo 2) with
  | Except.ok x => x
  | Except.error _ => openingLogged

/-! ## Fixtures: seats and AI players -/

/-- A request of the session category. -/
def sessionRequest (function : String) (parameters : List (String × JVal)) : Request :=
  demoRequest "session" function parameters

/-- Four session events of `user-a` and `user-b`: a join, an AI added, the AI removed, and
a leave. -/
def demoEvents : List (World × String × Request) :=
  [(demoWorld, "user-a", sessionRequest "join_position" (positionOnly 0)),
   (demoWorld, "user-b", sessionRequest "add_ai" (positionAndAI 1 "random")),
   (demoWorld, "user-b", sessionRequest "remove_ai" (positionOnly 1)),
   (demoWorld, "user-a", sessionRequest "leave_position" [])]

/-- A two-seat mapping in which a user whose id is `ai_random_0` has joined seat 1. -/
def impostorMapping : PlayerPositionMapping :=
  (PlayerPositionMapping.joinPosition demoWorld
    (PlayerPositionMapping.NewPlayerPositionMapping 2) "ai_random_0" 1).1

/-- The action of `user-a` in the session category that adds an AI of the type `bogus`,
which tic-tac-toe does not offer, at seat 1. -/
def bogusAIAction : ActionMessage :=
  { PlayerID := "user-a", Request := sessionRequest "add_ai" (positionAndAI 1 "bogus") }

/-! ## Fixtures: registration over HTTP -/

/-- A stand-in for `bcrypt`: the hash of a password is the password in brackets. -/
def demoBcrypt : Bcrypt :=
  { GenerateFromPassword := fun password => Except.ok ("hash(" ++ password ++ ")")
    CompareHashAndPassword := fun hash password => decide (hash = "hash(" ++ password ++ ")") }

/-- The random texts that `generateID` and `generateToken` draw: the `k`-th is `k + 1`
letters `a`. -/
def demoRandom : Nat → String := fun k => String.mk (List.replicate (k + 1) 'a')

/-- The request `POST /auth/register` of `alice` with the password `secret`. -/
def registerAlice : RegisterHTTPRequest :=
  { Method := "POST", Body := some { Username := "alice", Password := "secret" } }

/-- The service after `alice` has registered through `HandleRegister`. -/
def aliceRegistered : Service :=
  match AuthHandler.HandleRegister demoBcrypt Service.NewService registerAlice demoRandom
      demoRandom 1 with
  | some (s, _) => s
  | none => Service.NewService

/-! # Theorems -/

/-! ## The Go runtime and the tic-tac-toe game -/

theorem boardAt_ok (board : Fin 9 → Int) (i : Int) (h : 0 ≤ i ∧ i < 9) :
    boardAt board i = Except.ok (board ⟨i.toNat, by omega⟩) := by
  simp [boardAt, h, pure, Except.pure]

theorem boardStore_ok (board : Fin 9 → Int) (i v : Int) (h : 0 ≤ i ∧ i < 9) :
    boardStore board i v = Except.ok (Function.update board ⟨i.toNat, by omega⟩ v) := by
  simp [boardStore, h, pure, Except.pure]

theorem Go.exists_ok {α : Type} {x : Go α} (h : ∀ e, x ≠ Except.error e) :
    ∃ r, x = Except.ok r := by
  cases x with
  | error e => exact absurd rfl (h e)
  | ok r => exact ⟨r, rfl⟩

theorem CheckWinner_loop_step (a b c : Int) (L R : Go (Option (List Int))) :
    (if a = -1 then L else if b = -1 then L else if c = -1 then L
      else if a.tmod 2 = b.tmod 2 ∧ b.tmod 2 = c.tmod 2 then R else L) = L ∨
    (if a = -1 then L else if b = -1 then L else if c = -1 then L
      else if a.tmod 2 = b.tmod 2 ∧ b.tmod 2 = c.tmod 2 then R else L) = R := by
  split_ifs <;> simp

theorem CheckWinner_loop_ok (board : Fin 9 → Int) (lines : List (Int × Int × Int))
    (h : ∀ line ∈ lines, LineInRange line) :
    CheckWinner.loop board lines = Except.ok none ∨
      ∃ line ∈ lines, CheckWinner.loop board lines = Except.ok (some [line.1, line.2.1, line.2.2]) := by
  induction lines with
  | nil => left; rfl
  | cons line rest ih =>
    have hl : LineInRange line := h line (List.mem_cons_self _ _)
    have ih2 := ih (fun l hl2 => h l (List.mem_cons_of_mem _ hl2))
    obtain ⟨h0, h1, h2⟩ := hl
    have step : CheckWinner.loop board (line :: rest) = CheckWinner.loop board rest ∨
        CheckWinner.loop board (line :: rest) = Except.ok (some [line.1, line.2.1, line.2.2]) := by
      simp only [CheckWinner.loop, boardAt_ok board _ h0, boardAt_ok board _ h1,
        boardAt_ok board _ h2, bind, Except.bind, pure, Except.pure]
      exact CheckWinner_loop_step _ _ _ _ _
    rcases step with e | e
    · rw [e]
      rcases ih2 with h1 | ⟨l, hm, h2⟩
      · exact Or.inl h1
      · exact Or.inr ⟨l, List.mem_cons_of_mem _ hm, h2⟩
    · exact Or.inr ⟨line, List.mem_cons_self _ _, e⟩

theorem WinningLines_inRange : ∀ line ∈ WinningLines, LineInRange line := by
  simp [WinningLines, LineInRange]

theorem CheckWinner_ok (board : Fin 9 → Int) :
    CheckWinner board = Except.ok none ∨
      ∃ line ∈ WinningLines, CheckWinner board = Except.ok (some [line.1, line.2.1, line.2.2]) :=
  CheckWinner_loop_ok board WinningLines WinningLines_inRange

theorem TicTacToeGame.checkWinner_ok (g : TicTacToeGame) (e : GoPanic) :
    TicTacToeGame.checkWinner g ≠ Except.error e := by
  rcases CheckWinner_ok g.board with h | ⟨line, hm, h⟩
  · simp [TicTacToeGame.checkWinner, h, bind, Except.bind, pure, Except.pure]
  · have hr := (WinningLines_inRange line hm).1
    simp only [TicTacToeGame.checkWinner, h, bind, Except.bind, sliceAt]
    simp [boardAt_ok g.board _ hr, pure, Except.pure]

theorem TicTacToeGame.makeMove_ok (g : TicTacToeGame) (playerPosition position : Int)
    (e : GoPanic) : TicTacToeGame.makeMove g playerPosition position ≠ Except.error e := by
  by_cases h1 : position < 0 ∨ position > 8
  · simp [TicTacToeGame.makeMove, h1, pure, Except.pure]
  · cases hw : g.winner with
    | some v => simp [TicTacToeGame.makeMove, h1, hw, deref, bind, Except.bind, pure, Except.pure]
    | none =>
      have hr : 0 ≤ position ∧ position < 9 := by omega
      by_cases h3 : g.moveNumber.tmod 2 = playerPosition
      · by_cases h4 : g.board ⟨position.toNat, by omega⟩ = -1
        · have hs : g.winner.isSome = false := by simp [hw]
          simp only [TicTacToeGame.makeMove, if_neg h1, hs, boardAt_ok g.board _ hr,
            boardStore_ok g.board _ _ hr, bind, Except.bind, h3, h4]
          simp only [Bool.false_eq_true, if_false, ne_eq, not_true_eq_false]
          cases hc : TicTacToeGame.checkWinner
              { g with board := Function.update g.board ⟨position.toNat, by omega⟩ g.moveNumber,
                       moveNumber := g.moveNumber + 1 } with
          | error e2 => exact absurd hc (TicTacToeGame.checkWinner_ok _ _)
          | ok g2 => simp [pure, Except.pure]
        · simp [TicTacToeGame.makeMove, h1, hw, boardAt_ok g.board _ hr, bind, Except.bind,
            h3, h4, pure, Except.pure]
      · simp [TicTacToeGame.makeMove, h1, hw, h3, pure, Except.pure]


/-- A refused move leaves the game as it was. -/
theorem TicTacToeGame.makeMove_refused (g g2 : TicTacToeGame) (playerPosition position : Int)
    (e : ErrorResponse)
    (h : TicTacToeGame.makeMove g playerPosition position = Except.ok (g2, some e)) : g2 = g := by
  by_cases h1 : position < 0 ∨ position > 8
  · simp [TicTacToeGame.makeMove, h1, pure, Except.pure] at h
    exact h.1.symm
  · cases hw : g.winner with
    | some v =>
      simp [TicTacToeGame.makeMove, h1, hw, deref, bind, Except.bind, pure, Except.pure] at h
      exact h.1.symm
    | none =>
      have hr : 0 ≤ position ∧ position < 9 := by omega
      by_cases h3 : g.moveNumber.tmod 2 = playerPosition
      · by_cases h4 : g.board ⟨position.toNat, by omega⟩ = -1
        · have hs : g.winner.isSome = false := by simp [hw]
          simp only [TicTacToeGame.makeMove, if_neg h1, hs, boardAt_ok g.board _ hr,
            boardStore_ok g.board _ _ hr, bind, Except.bind, h3, h4] at h
          simp only [Bool.false_eq_true, if_false, ne_eq, not_true_eq_false] at h
          cases hc : TicTacToeGame.checkWinner
              { g with board := Function.update g.board ⟨position.toNat, by omega⟩ g.moveNumber,
                       moveNumber := g.moveNumber + 1 } with
          | error e2 => exact absurd hc (TicTacToeGame.checkWinner_ok _ _)
          | ok g3 => simp [hc, pure, Except.pure] at h
        · simp [TicTacToeGame.makeMove, h1, hw, boardAt_ok g.board _ hr, bind, Except.bind,
            h3, h4, pure, Except.pure] at h
          exact h.1.symm
      · simp [TicTacToeGame.makeMove, h1, hw, h3, pure, Except.pure] at h
        exact h.1.symm

theorem TicTacToeGame.HandleAction_ok (g : TicTacToeGame) (playerPosition : Int)
    (message : Request) (e : GoPanic) :
    TicTacToeGame.HandleAction g playerPosition message ≠ Except.error e := by
  unfold TicTacToeGame.HandleAction
  split_ifs
  · simp [pure, Except.pure]
  · split
    · simp [pure, Except.pure]
    · exact TicTacToeGame.makeMove_ok _ _ _ _
    · exact TicTacToeGame.makeMove_ok _ _ _ _
    · simp [pure, Except.pure]

theorem TicTacToeGame.HandleAction_refused (g g2 : TicTacToeGame) (playerPosition : Int)
    (message : Request) (e : ErrorResponse)
    (h : TicTacToeGame.HandleAction g playerPosition message = Except.ok (g2, some e)) :
    g2 = g := by
  unfold TicTacToeGame.HandleAction at h
  split_ifs at h
  · simp [pure, Except.pure] at h; exact h.1.symm
  · split at h
    · simp [pure, Except.pure] at h; exact h.1.symm
    · exact TicTacToeGame.makeMove_refused _ _ _ _ _ h
    · exact TicTacToeGame.makeMove_refused _ _ _ _ _ h
    · simp [pure, Except.pure] at h; exact h.1.symm

/-! ## The player position mapping -/

theorem sliceAt_ok {α : Type} (xs : List α) (n : Nat) (h : n < xs.length) (e : GoPanic) :
    sliceAt xs (n : Int) ≠ Except.error e := by
  have h2 : xs[n]? = some xs[n] := List.getElem?_eq_getElem h
  have h3 : ¬ ((n : Int) < 0) := by omega
  simp [sliceAt, h2, h3, pure, Except.pure]

theorem PlayerPositionMapping.generateAIName_ok (w : World) (m : PlayerPositionMapping)
    (e : GoPanic) : PlayerPositionMapping.generateAIName w m ≠ Except.error e := by
  unfold PlayerPositionMapping.generateAIName
  simp only []
  generalize (List.filter _ w.AINames) = names
  have hpos : ∀ xs : List String,
      0 < (if xs.length = 0 then xs ++ ["alfred"] else xs).length := by
    intro xs
    split_ifs with h
    · simp
    · omega
  generalize hav : (if names.length = 0 then names ++ ["alfred"] else names) = avail
  have hlen : 0 < avail.length := hav ▸ hpos names
  have hne : avail.length ≠ 0 := by omega
  simp only [randInt, hne, if_false, bind, Except.bind, pure, Except.pure]
  cases hent : w.entropy with
  | none =>
    simp only [Option.map]
    cases hs : sliceAt avail 0 with
    | error e2 => exact absurd hs (by simpa using sliceAt_ok avail 0 hlen e2)
    | ok v => simp
  | some r =>
    simp only [Option.map]
    cases hs : sliceAt avail ((r % avail.length : Nat) : Int) with
    | error e2 => exact absurd hs (sliceAt_ok avail _ (Nat.mod_lt _ hlen) e2)
    | ok v => simp

theorem PlayerPositionMapping.addAI_ok (w : World) (m : PlayerPositionMapping) (position : Int)
    (aiType : String) (e : GoPanic) :
    PlayerPositionMapping.addAI w m position aiType ≠ Except.error e := by
  unfold PlayerPositionMapping.addAI
  split_ifs
  · simp [pure, Except.pure]
  · simp [pure, Except.pure]
  · cases hn : PlayerPositionMapping.generateAIName w m with
    | error e2 => exact absurd hn (PlayerPositionMapping.generateAIName_ok w m e2)
    | ok name => simp [bind, Except.bind, pure, Except.pure]

theorem PlayerPositionMapping.addAI_refused (w : World) (m m2 : PlayerPositionMapping)
    (position : Int) (aiType : String) (e : String)
    (h : PlayerPositionMapping.addAI w m position aiType = Except.ok (m2, some e)) : m2 = m := by
  unfold PlayerPositionMapping.addAI at h
  split_ifs at h
  · simp [pure, Except.pure] at h; exact h.1.symm
  · simp [pure, Except.pure] at h; exact h.1.symm
  · cases hn : PlayerPositionMapping.generateAIName w m with
    | error e2 => exact absurd hn (PlayerPositionMapping.generateAIName_ok w m e2)
    | ok name => simp [hn, bind, Except.bind, pure, Except.pure] at h

theorem PlayerPositionMapping.joinPosition_refused (w : World) (m : PlayerPositionMapping)
    (userID : String) (position : Int) (e : String)
    (h : (PlayerPositionMapping.joinPosition w m userID position).2 = some e) :
    (PlayerPositionMapping.joinPosition w m userID position).1 = m := by
  by_cases h1 : position < 0 ∨ position ≥ m.maxPlayers
  · simp [PlayerPositionMapping.joinPosition, h1]
  · cases hu : m.userToPos.get? userID with
    | some ex =>
      by_cases h2 : ex = position <;> simp [PlayerPositionMapping.joinPosition, h1, hu, h2]
    | none =>
      by_cases h3 : (m.slots.get? position).isSome
      · simp [PlayerPositionMapping.joinPosition, h1, hu, h3]
      · simp [PlayerPositionMapping.joinPosition, h1, hu, h3] at h

theorem PlayerPositionMapping.leavePosition_refused (m : PlayerPositionMapping)
    (userID : String) (e : String)
    (h : (PlayerPositionMapping.leavePosition m userID).2 = some e) :
    (PlayerPositionMapping.leavePosition m userID).1 = m := by
  cases hu : m.userToPos.get? userID with
  | none => simp [PlayerPositionMapping.leavePosition, hu]
  | some p => simp [PlayerPositionMapping.leavePosition, hu] at h

theorem PlayerPositionMapping.removeAI_refused (m : PlayerPositionMapping)
    (position : Int) (e : String)
    (h : (PlayerPositionMapping.removeAI m position).2 = some e) :
    (PlayerPositionMapping.removeAI m position).1 = m := by
  by_cases h1 : position < 0 ∨ position ≥ m.maxPlayers
  · simp [PlayerPositionMapping.removeAI, h1]
  · cases hs : m.slots.get? position with
    | none => simp [PlayerPositionMapping.removeAI, h1, hs]
    | some slot =>
      by_cases h2 : slot.IsAI
      · simp [PlayerPositionMapping.removeAI, h1, hs, h2] at h
      · simp [PlayerPositionMapping.removeAI, h1, hs, h2]

theorem PlayerPositionMapping.HandleSessionEvent_ok (w : World) (m : PlayerPositionMapping)
    (userID : String) (request : Request) (e : GoPanic) :
    PlayerPositionMapping.HandleSessionEvent w m userID request ≠ Except.error e := by
  unfold PlayerPositionMapping.HandleSessionEvent
  split_ifs
  · split <;> simp [pure, Except.pure]
  · simp [pure, Except.pure]
  · split
    · simp [pure, Except.pure]
    · split
      · simp [pure, Except.pure]
      · exact PlayerPositionMapping.addAI_ok _ _ _ _ _
  · split <;> simp [pure, Except.pure]
  · simp [pure, Except.pure]

theorem PlayerPositionMapping.HandleSessionEvent_refused (w : World)
    (m m2 : PlayerPositionMapping) (userID : String) (request : Request) (e : String)
    (h : PlayerPositionMapping.HandleSessionEvent w m userID request = Except.ok (m2, some e)) :
    m2 = m := by
  unfold PlayerPositionMapping.HandleSessionEvent at h
  have pair : ∀ (x : PlayerPositionMapping × Option String),
      (pure x : Go (PlayerPositionMapping × Option String)) = Except.ok (m2, some e) →
      x.1 = m2 ∧ x.2 = some e := by
    intro x hx
    simp [pure, Except.pure] at hx
    simp [hx]
  split_ifs at h
  · split at h
    · exact (pair _ h).1.symm
    · obtain ⟨a, b⟩ := pair _ h
      rw [← a]; exact PlayerPositionMapping.joinPosition_refused _ _ _ _ _ b
  · obtain ⟨a, b⟩ := pair _ h
    rw [← a]; exact PlayerPositionMapping.leavePosition_refused _ _ _ b
  · split at h
    · exact (pair _ h).1.symm
    · split at h
      · exact (pair _ h).1.symm
      · exact PlayerPositionMapping.addAI_refused _ _ _ _ _ _ h
  · split at h
    · exact (pair _ h).1.symm
    · obtain ⟨a, b⟩ := pair _ h
      rw [← a]; exact PlayerPositionMapping.removeAI_refused _ _ _ b
  · exact (pair _ h).1.symm

/-! ## Maps and the session state -/

namespace GoMap
variable {κ ν : Type} [DecidableEq κ]

theorem lookup_filter_ne (k j : κ) (l : List (κ × ν)) (h : j ≠ k) :
    lookup j (l.filter (fun e => decide (e.1 ≠ k))) = lookup j l := by
  induction l with
  | nil => rfl
  | cons e rest ih =>
    rw [List.filter_cons]
    by_cases he : e.1 = k
    · have hj : ¬ e.1 = j := fun c => h (c ▸ he)
      have hd : decide (e.1 ≠ k) = false := by simp [he]
      rw [hd]
      simp only [Bool.false_eq_true, if_false, lookup, if_neg hj]
      exact ih
    · have hd : decide (e.1 ≠ k) = true := by simp [he]
      rw [hd]
      simp only [if_true, lookup]
      rw [ih]

theorem get?_set_self (m : GoMap κ ν) (k : κ) (v : ν) : (m.set k v).get? k = some v := by
  simp [get?, set, lookup]

theorem get?_set_ne (m : GoMap κ ν) (k j : κ) (v : ν) (h : j ≠ k) :
    (m.set k v).get? j = m.get? j := by
  have hk : ¬ k = j := fun c => h c.symm
  simp only [get?, set, lookup, if_neg hk, delete]
  exact lookup_filter_ne k j m.entries h

end GoMap

theorem buildSessionState_step_self (m : PlayerPositionMapping)
    (acc : GoMap Int (Option PlayerInfo)) (p : Int) :
    (PlayerPositionMapping.buildSessionState.step m acc p).get? p = some (m.infoAt p) := by
  unfold PlayerPositionMapping.buildSessionState.step PlayerPositionMapping.infoAt
  cases m.slots.get? p <;> simp [GoMap.get?_set_self]

theorem buildSessionState_step_ne (m : PlayerPositionMapping)
    (acc : GoMap Int (Option PlayerInfo)) (p q : Int) (h : p ≠ q) :
    (PlayerPositionMapping.buildSessionState.step m acc q).get? p = acc.get? p := by
  unfold PlayerPositionMapping.buildSessionState.step
  cases m.slots.get? q <;> simp [GoMap.get?_set_ne _ _ _ _ h]

theorem buildSessionState_fold (m : PlayerPositionMapping) (l : List Nat)
    (acc : GoMap Int (Option PlayerInfo)) (p : Int) :
    (l.foldl (fun playerPositions (n : Nat) =>
        PlayerPositionMapping.buildSessionState.step m playerPositions (n : Int)) acc).get? p =
      if ∃ n ∈ l, (n : Int) = p then some (m.infoAt p) else acc.get? p := by
  induction l generalizing acc with
  | nil => simp
  | cons n rest ih =>
    rw [List.foldl_cons, ih]
    by_cases hr : ∃ k ∈ rest, (k : Int) = p
    · have : ∃ k ∈ n :: rest, (k : Int) = p := by
        obtain ⟨k, hk, e⟩ := hr
        exact ⟨k, List.mem_cons_of_mem _ hk, e⟩
      simp only [if_pos hr, if_pos this]
    · simp only [if_neg hr]
      by_cases hn : (n : Int) = p
      · have : ∃ k ∈ n :: rest, (k : Int) = p := ⟨n, List.mem_cons_self _ _, hn⟩
        simp only [if_pos this]
        subst hn
        exact buildSessionState_step_self m acc _
      · have : ¬ ∃ k ∈ n :: rest, (k : Int) = p := by
          rintro ⟨k, hk, e⟩
          rcases List.mem_cons.mp hk with h1 | h1
          · exact hn (h1 ▸ e)
          · exact hr ⟨k, h1, e⟩
        simp only [if_neg this]
        exact buildSessionState_step_ne m acc p _ (fun c => hn c.symm)

theorem buildSessionState_get? (m : PlayerPositionMapping) (p : Int) :
    (PlayerPositionMapping.buildSessionState m).PlayerPositions.get? p =
      if 0 ≤ p ∧ p < m.maxPlayers then some (m.infoAt p) else none := by
  unfold PlayerPositionMapping.buildSessionState
  simp only []
  rw [buildSessionState_fold]
  have hiff : (∃ n ∈ List.range m.maxPlayers.toNat, (n : Int) = p) ↔ (0 ≤ p ∧ p < m.maxPlayers) := by
    constructor
    · rintro ⟨n, hn, e⟩
      have := List.mem_range.mp hn
      omega
    · rintro ⟨h0, h1⟩
      exact ⟨p.toNat, List.mem_range.mpr (by omega), by omega⟩
  by_cases h : 0 ≤ p ∧ p < m.maxPlayers
  · rw [if_pos (hiff.mpr h), if_pos h]
  · rw [if_neg (fun c => h (hiff.mp c)), if_neg h]
    rfl

/-! ## The session: the branches of `handleAction` -/

namespace GameSession
variable {σ μ : Type}

theorem ai_ne_session : ¬ RequestTypeAI = RequestTypeSession := by decide
theorem game_ne_session : ¬ RequestTypeGame = RequestTypeSession := by decide
theorem game_ne_ai : ¬ RequestTypeGame = RequestTypeAI := by decide

theorem handleAction_session (G : Game σ) (P : PlayerMapping μ) (w : World)
    (s : GameSession σ μ) (msg : ActionMessage)
    (hcat : msg.Request.RequestType = RequestTypeSession) :
    handleAction G P w s msg =
      match P.HandleSessionEvent w s.playerMapping msg.PlayerID msg.Request with
      | Except.error e => Except.error e
      | Except.ok (pm, some e) =>
        Except.ok ({ s with playerMapping := pm }, [sendError msg.PlayerID e])
      | Except.ok (pm, none) =>
        Except.ok ({ s with playerMapping := pm }, P.GetSessionStateForAll pm) := by
  simp only [handleAction, if_pos hcat, handleSessionMessage, bind, Except.bind]
  cases P.HandleSessionEvent w s.playerMapping msg.PlayerID msg.Request with
  | error e => rfl
  | ok r =>
    obtain ⟨pm, err⟩ := r
    cases err <;> rfl

theorem handleAction_ai (G : Game σ) (P : PlayerMapping μ) (w : World)
    (s : GameSession σ μ) (msg : ActionMessage)
    (hcat : msg.Request.RequestType = RequestTypeAI) :
    handleAction G P w s msg =
      match msg.Request.stringParam "ai_type" with
      | none => Except.ok (s, [sendError msg.PlayerID "Missing or invalid ai_type parameter"])
      | some AIType =>
        if (G.AITypes s.game).contains AIType = false then
          Except.ok (s, [sendError msg.PlayerID "AI type not supported"])
        else
          match P.HandleSessionEvent w s.playerMapping msg.PlayerID msg.Request with
          | Except.error e => Except.error e
          | Except.ok (pm, some e) =>
            Except.ok ({ s with playerMapping := pm }, [sendError msg.PlayerID e])
          | Except.ok (pm, none) =>
            Except.ok ({ s with playerMapping := pm }, P.GetSessionStateForAll pm) := by
  have h1 : ¬ msg.Request.RequestType = RequestTypeSession := hcat ▸ ai_ne_session
  simp only [handleAction, if_neg h1, if_pos hcat, handleAIMessage]
  cases msg.Request.stringParam "ai_type" with
  | none => rfl
  | some t =>
    simp only []
    by_cases hc : (G.AITypes s.game).contains t = true
    · simp only [hc, not_true_eq_false, if_false, Bool.true_eq_false, bind, Except.bind]
      cases P.HandleSessionEvent w s.playerMapping msg.PlayerID msg.Request with
      | error e => rfl
      | ok r =>
        obtain ⟨pm, err⟩ := r
        cases err <;> rfl
    · have hf : (G.AITypes s.game).contains t = false := by simpa using hc
      simp only [hf, Bool.false_eq_true, not_false_eq_true, if_true]
      rfl

theorem handleAction_game (G : Game σ) (P : PlayerMapping μ) (w : World)
    (s : GameSession σ μ) (msg : ActionMessage)
    (hcat : msg.Request.RequestType = RequestTypeGame) :
    handleAction G P w s msg =
      match P.GetPlayerPosition s.playerMapping msg.PlayerID with
      | (_, false) => Except.ok (s, [sendError msg.PlayerID "You are not in a playing position"])
      | (position, true) =>
        match G.HandleAction s.game position msg.Request with
        | Except.error e => Except.error e
        | Except.ok (g, some e) =>
          Except.ok ({ s with game := g },
            [{ PlayerID := msg.PlayerID,
               Response :=
                { MessageType := MessageTypeError,
                  Parameters := ResponseParameters.error e.Parameters } }])
        | Except.ok (g, none) => Except.ok ({ s with game := g }, G.GetStateForAll g) := by
  have h1 : ¬ msg.Request.RequestType = RequestTypeSession := hcat ▸ game_ne_session
  have h2 : ¬ msg.Request.RequestType = RequestTypeAI := hcat ▸ game_ne_ai
  simp only [handleAction, if_neg h1, if_neg h2, if_pos hcat, handleGameMessage]
  cases P.GetPlayerPosition s.playerMapping msg.PlayerID with
  | mk pos ok =>
    cases ok with
    | false => rfl
    | true =>
      simp only [bind, Except.bind]
      cases G.HandleAction s.game pos msg.Request with
      | error e => rfl
      | ok r =>
        obtain ⟨g, err⟩ := r
        cases err <;> rfl

theorem handleAction_unknown (G : Game σ) (P : PlayerMapping μ) (w : World)
    (s : GameSession σ μ) (msg : ActionMessage)
    (hcat : RequestType.IsValid msg.Request.RequestType = false) :
    handleAction G P w s msg = Except.ok (s, [sendError msg.PlayerID "Unknown request type"]) := by
  have h : ¬ (msg.Request.RequestType = RequestTypeSession ∨
      msg.Request.RequestType = RequestTypeGame ∨ msg.Request.RequestType = RequestTypeAI) := by
    intro c
    simp [RequestType.IsValid, c] at hcat
  have h1 : ¬ msg.Request.RequestType = RequestTypeSession := fun c => h (Or.inl c)
  have h2 : ¬ msg.Request.RequestType = RequestTypeAI := fun c => h (Or.inr (Or.inr c))
  have h3 : ¬ msg.Request.RequestType = RequestTypeGame := fun c => h (Or.inr (Or.inl c))
  simp only [handleAction, if_neg h1, if_neg h2, if_neg h3]
  rfl

theorem isValid_false_iff (r : RequestType) :
    RequestType.IsValid r = false ↔
      (¬ r = RequestTypeSession ∧ ¬ r = RequestTypeAI ∧ ¬ r = RequestTypeGame) := by
  unfold RequestType.IsValid
  constructor
  · intro h
    refine ⟨fun c => ?_, fun c => ?_, fun c => ?_⟩ <;> simp [c] at h
  · rintro ⟨a, b, c⟩
    simp [a, b, c]

end GameSession

/-- Every action that `handleAction` rejects makes the session emit exactly one message,
of type `error`, with the `PlayerID` of the sender. -/
theorem GameSession.rejected_one_error {σ μ : Type} (G : Game σ) (P : PlayerMapping μ)
    (w : World) (s : GameSession σ μ) (msg : ActionMessage)
    (h : GameSession.rejects G P w s msg = true) :
    ∃ s2 m, GameSession.handleAction G P w s msg = Except.ok (s2, [m]) ∧
      m.Response.MessageType = MessageTypeError ∧
      m.PlayerID = msg.PlayerID := by
  unfold GameSession.rejects at h
  by_cases h1 : msg.Request.RequestType = RequestTypeSession
  · rw [GameSession.handleAction_session G P w s msg h1]
    simp only [if_pos h1] at h
    cases hp : P.HandleSessionEvent w s.playerMapping msg.PlayerID msg.Request with
    | error e => simp [hp] at h
    | ok r =>
      obtain ⟨pm, err⟩ := r
      cases err with
      | none => simp [hp] at h
      | some e => exact ⟨_, _, rfl, rfl, rfl⟩
  · by_cases h2 : msg.Request.RequestType = RequestTypeAI
    · rw [GameSession.handleAction_ai G P w s msg h2]
      simp only [if_neg h1, if_pos h2] at h
      cases ht : msg.Request.stringParam "ai_type" with
      | none => exact ⟨_, _, rfl, rfl, rfl⟩
      | some t =>
        simp only [ht] at h
        by_cases hc : (G.AITypes s.game).contains t = false
        · simp only [if_pos hc]
          exact ⟨_, _, rfl, rfl, rfl⟩
        · simp only [if_neg hc]
          have hc2 : (G.AITypes s.game).contains t = true := by simpa using hc
          cases hp : P.HandleSessionEvent w s.playerMapping msg.PlayerID msg.Request with
          | error e => simp [hp, hc2] at h
          | ok r =>
            obtain ⟨pm, err⟩ := r
            cases err with
            | none => simp [hp, hc2] at h
            | some e => exact ⟨_, _, rfl, rfl, rfl⟩
    · by_cases h3 : msg.Request.RequestType = RequestTypeGame
      · rw [GameSession.handleAction_game G P w s msg h3]
        simp only [if_neg h1, if_neg h2, if_pos h3] at h
        cases hq : P.GetPlayerPosition s.playerMapping msg.PlayerID with
        | mk pos ok =>
          cases ok with
          | false => exact ⟨_, _, rfl, rfl, rfl⟩
          | true =>
            simp only [hq] at h
            cases hp : G.HandleAction s.game pos msg.Request with
            | error e => simp [hp] at h
            | ok r =>
              obtain ⟨g, err⟩ := r
              cases err with
              | none => simp [hp] at h
              | some e =>
                simp only [hp]
                exact ⟨_, _, rfl, rfl, rfl⟩
      · rw [GameSession.handleAction_unknown G P w s msg
          ((GameSession.isValid_false_iff _).mpr ⟨h1, h2, h3⟩)]
        exact ⟨_, _, rfl, rfl, rfl⟩

/-! ## Error texts -/

/-- C1 (amended). Every action that `handleAction` rejects makes the session emit exactly one
message; that message has type `error` and carries the sender's `PlayerID`. It is a broadcast
(empty `PlayerID`) exactly when the sender's `PlayerID` is empty; when it is not empty, the
write loop of every other user skips the message. -/
theorem C1_rejected_action_one_error_to_sender {σ μ : Type} (G : Game σ) (P : PlayerMapping μ)
    (w : World) (s : GameSession σ μ) (msg : ActionMessage)
    (h : GameSession.rejects G P w s msg = true) :
    ∃ s2 m, GameSession.handleAction G P w s msg = Except.ok (s2, [m]) ∧
      m.Response.MessageType = MessageTypeError ∧
      m.PlayerID = msg.PlayerID ∧
      (m.PlayerID = "" ↔ msg.PlayerID = "") ∧
      (msg.PlayerID ≠ "" →
        ∀ (Marshal : Response → Except String String) (u : String), u ≠ msg.PlayerID →
          WebSocketHandler.writeLoop.round Marshal u m = none) := by
  obtain ⟨s2, m, h1, h2, h3⟩ := GameSession.rejected_one_error G P w s msg h
  refine ⟨s2, m, h1, h2, h3, by rw [h3], ?_⟩
  intro hne Marshal u hu
  unfold WebSocketHandler.writeLoop.round
  rw [h3, if_neg (by rintro (k | k); exact hne k; exact hu k.symm)]

theorem head_append (a b : String) (c : Char) (h : a.data.head? = some c) :
    (a ++ b).data.head? = some c := by
  rw [String.data_append]
  cases ha : a.data with
  | nil => simp [ha] at h
  | cons x xs =>
    rw [ha] at h
    simpa using h

/-- A text that starts with another character than `U` is not "Unknown request type". -/
theorem ne_unknown_of_head (s : String) (c : Char) (h : s.data.head? = some c)
    (hc : c ≠ 'U') : s ≠ "Unknown request type" := by
  intro e
  rw [e] at h
  have h2 : ("Unknown request type" : String).data.head? = some 'U' := by decide
  rw [h2] at h
  exact hc (Option.some.inj h).symm

theorem TicTacToeGame.makeMove_text (g g2 : TicTacToeGame) (playerPosition position : Int)
    (e : ErrorResponse)
    (h : TicTacToeGame.makeMove g playerPosition position = Except.ok (g2, some e)) :
    e.Parameters.ErrorMessage ≠ "Unknown request type" := by
  by_cases h1 : position < 0 ∨ position > 8
  · simp [TicTacToeGame.makeMove, h1, pure, Except.pure] at h
    rw [← h.2]
    exact ne_unknown_of_head _ 'P' (head_append _ _ _ (head_append _ _ _ (by decide))) (by decide)
  · cases hw : g.winner with
    | some v =>
      simp [TicTacToeGame.makeMove, h1, hw, deref, bind, Except.bind, pure, Except.pure] at h
      rw [← h.2]
      exact ne_unknown_of_head _ 'G' (head_append _ _ _ (by decide)) (by decide)
    | none =>
      have hr : 0 ≤ position ∧ position < 9 := by omega
      by_cases h3 : g.moveNumber.tmod 2 = playerPosition
      · by_cases h4 : g.board ⟨position.toNat, by omega⟩ = -1
        · have := TicTacToeGame.makeMove_refused g g2 playerPosition position e h
          subst this
          have hs : g2.winner.isSome = false := by simp [hw]
          simp only [TicTacToeGame.makeMove, if_neg h1, hs, boardAt_ok g2.board _ hr,
            boardStore_ok g2.board _ _ hr, bind, Except.bind, h3, h4] at h
          simp only [Bool.false_eq_true, if_false, ne_eq, not_true_eq_false] at h
          cases hc : TicTacToeGame.checkWinner
              { g2 with board := Function.update g2.board ⟨position.toNat, by omega⟩ g2.moveNumber,
                        moveNumber := g2.moveNumber + 1 } with
          | error e2 => exact absurd hc (TicTacToeGame.checkWinner_ok _ _)
          | ok g3 => simp [hc, pure, Except.pure] at h
        · simp [TicTacToeGame.makeMove, h1, hw, boardAt_ok g.board _ hr, bind, Except.bind,
            h3, h4, pure, Except.pure] at h
          rw [← h.2]
          exact ne_unknown_of_head _ 'P' (head_append _ _ _ (head_append _ _ _ (by decide)))
            (by decide)
      · simp [TicTacToeGame.makeMove, h1, hw, h3, pure, Except.pure] at h
        rw [← h.2]
        exact ne_unknown_of_head _ 'P' (head_append _ _ _ (head_append _ _ _ (by decide)))
          (by decide)

theorem TicTacToeGame.HandleAction_text (g g2 : TicTacToeGame) (playerPosition : Int)
    (message : Request) (e : ErrorResponse)
    (h : TicTacToeGame.HandleAction g playerPosition message = Except.ok (g2, some e)) :
    e.Parameters.ErrorMessage ≠ "Unknown request type" := by
  unfold TicTacToeGame.HandleAction at h
  split_ifs at h
  · simp [pure, Except.pure] at h
    rw [← h.2]
    exact ne_unknown_of_head _ 'F' (head_append _ _ _ (head_append _ _ _ (by decide)))
      (by decide)
  · split at h
    · simp [pure, Except.pure] at h
      rw [← h.2]
      decide
    · exact TicTacToeGame.makeMove_text _ _ _ _ _ h
    · exact TicTacToeGame.makeMove_text _ _ _ _ _ h
    · simp [pure, Except.pure] at h
      rw [← h.2]
      decide

theorem PlayerPositionMapping.invalidPosition_text (m : PlayerPositionMapping) (position : Int) :
    PlayerPositionMapping.invalidPosition m position ≠ "Unknown request type" :=
  ne_unknown_of_head _ 'i'
    (head_append _ _ _ (head_append _ _ _ (head_append _ _ _ (head_append _ _ _ (by decide)))))
    (by decide)

theorem PlayerPositionMapping.occupied_text (position : Int) :
    "position " ++ fmtInt position ++ " is already occupied" ≠ "Unknown request type" :=
  ne_unknown_of_head _ 'p' (head_append _ _ _ (head_append _ _ _ (by decide))) (by decide)

theorem PlayerPositionMapping.joinPosition_text (w : World) (m : PlayerPositionMapping)
    (userID : String) (position : Int) (e : String)
    (h : (PlayerPositionMapping.joinPosition w m userID position).2 = some e) :
    e ≠ "Unknown request type" := by
  by_cases h1 : position < 0 ∨ position ≥ m.maxPlayers
  · simp [PlayerPositionMapping.joinPosition, h1] at h
    rw [← h]
    exact PlayerPositionMapping.invalidPosition_text m position
  · cases hu : m.userToPos.get? userID with
    | some ex =>
      by_cases h2 : ex = position
      · simp [PlayerPositionMapping.joinPosition, h1, hu, h2] at h
      · simp [PlayerPositionMapping.joinPosition, h1, hu, h2] at h
        rw [← h]
        exact ne_unknown_of_head _ 'u' (head_append _ _ _ (by decide)) (by decide)
    | none =>
      by_cases h3 : (m.slots.get? position).isSome
      · simp [PlayerPositionMapping.joinPosition, h1, hu, h3] at h
        rw [← h]
        exact PlayerPositionMapping.occupied_text position
      · simp [PlayerPositionMapping.joinPosition, h1, hu, h3] at h

theorem PlayerPositionMapping.leavePosition_text (m : PlayerPositionMapping)
    (userID : String) (e : String)
    (h : (PlayerPositionMapping.leavePosition m userID).2 = some e) :
    e ≠ "Unknown request type" := by
  cases hu : m.userToPos.get? userID with
  | none =>
    simp [PlayerPositionMapping.leavePosition, hu] at h
    rw [← h]
    decide
  | some p => simp [PlayerPositionMapping.leavePosition, hu] at h

theorem PlayerPositionMapping.removeAI_text (m : PlayerPositionMapping)
    (position : Int) (e : String)
    (h : (PlayerPositionMapping.removeAI m position).2 = some e) :
    e ≠ "Unknown request type" := by
  by_cases h1 : position < 0 ∨ position ≥ m.maxPlayers
  · simp [PlayerPositionMapping.removeAI, h1] at h
    rw [← h]
    exact PlayerPositionMapping.invalidPosition_text m position
  · cases hs : m.slots.get? position with
    | none =>
      simp [PlayerPositionMapping.removeAI, h1, hs] at h
      rw [← h]
      exact ne_unknown_of_head _ 'p' (head_append _ _ _ (head_append _ _ _ (by decide)))
        (by decide)
    | some slot =>
      by_cases h2 : slot.IsAI
      · simp [PlayerPositionMapping.removeAI, h1, hs, h2] at h
      · simp [PlayerPositionMapping.removeAI, h1, hs, h2] at h
        rw [← h]
        exact ne_unknown_of_head _ 'p' (head_append _ _ _ (head_append _ _ _ (by decide)))
          (by decide)

theorem PlayerPositionMapping.addAI_text (w : World) (m m2 : PlayerPositionMapping)
    (position : Int) (aiType : String) (e : String)
    (h : PlayerPositionMapping.addAI w m position aiType = Except.ok (m2, some e)) :
    e ≠ "Unknown request type" := by
  unfold PlayerPositionMapping.addAI at h
  split_ifs at h
  · simp [pure, Except.pure] at h
    rw [← h.2]
    exact PlayerPositionMapping.invalidPosition_text m position
  · simp [pure, Except.pure] at h
    rw [← h.2]
    exact PlayerPositionMapping.occupied_text position
  · cases hn : PlayerPositionMapping.generateAIName w m with
    | error e2 => exact absurd hn (PlayerPositionMapping.generateAIName_ok w m e2)
    | ok name => simp [hn, bind, Except.bind, pure, Except.pure] at h

theorem PlayerPositionMapping.HandleSessionEvent_text (w : World)
    (m m2 : PlayerPositionMapping) (userID : String) (request : Request) (e : String)
    (h : PlayerPositionMapping.HandleSessionEvent w m userID request = Except.ok (m2, some e)) :
    e ≠ "Unknown request type" := by
  unfold PlayerPositionMapping.HandleSessionEvent at h
  have pair : ∀ (x : PlayerPositionMapping × Option String),
      (pure x : Go (PlayerPositionMapping × Option String)) = Except.ok (m2, some e) →
      x.1 = m2 ∧ x.2 = some e := by
    intro x hx
    simp [pure, Except.pure] at hx
    simp [hx]
  have lit : ∀ t : String, t ≠ "Unknown request type" →
      (pure (m, some t) : Go (PlayerPositionMapping × Option String)) = Except.ok (m2, some e) →
      e ≠ "Unknown request type" := by
    intro t ht hx
    have := (pair _ hx).2
    simp at this
    rw [← this]
    exact ht
  split_ifs at h
  · split at h
    · exact lit _ (by decide) h
    · exact PlayerPositionMapping.joinPosition_text _ _ _ _ _ (pair _ h).2
  · exact PlayerPositionMapping.leavePosition_text _ _ _ (pair _ h).2
  · split at h
    · exact lit _ (by decide) h
    · split at h
      · exact lit _ (by decide) h
      · exact PlayerPositionMapping.addAI_text _ _ _ _ _ _ h
  · split at h
    · exact lit _ (by decide) h
    · exact PlayerPositionMapping.removeAI_text _ _ _ (pair _ h).2
  · exact lit _ (ne_unknown_of_head _ 'u' (head_append _ _ _ (by decide)) (by decide)) h

/-! ## The claims on the session -/

/-- Witness of C1: a move sent by a user without a seat is rejected with one error to that
user, which the write loop of `user-a` skips. -/
theorem C1_witness :
    GameSession.rejects TicTacToeGame.asGame PlayerPositionMapping.asPlayerMapping demoWorld
        demoSession ⟨"user-b", demoRequest "game" "make_move" (positionOnly 4)⟩ = true ∧
      ∃ s2 m, GameSession.handleAction TicTacToeGame.asGame
          PlayerPositionMapping.asPlayerMapping demoWorld demoSession
          ⟨"user-b", demoRequest "game" "make_move" (positionOnly 4)⟩ = Except.ok (s2, [m]) ∧
        m.Response.MessageType = MessageTypeError ∧
        m.PlayerID = "user-b" ∧
        (m.PlayerID = "" ↔ ("user-b" : String) = "") ∧
        (("user-b" : String) ≠ "" →
          ∀ (Marshal : Response → Except String String) (u : String), u ≠ "user-b" →
            WebSocketHandler.writeLoop.round Marshal u m = none) :=
  ⟨by decide, C1_rejected_action_one_error_to_sender _ _ _ _ _ (by decide)⟩

/-- C1 (counterexample). A move sent with an empty `PlayerID` to the fresh session is
rejected, the sender having no seat; the one error message then has an empty `PlayerID`, so it
is a broadcast, and the write loop of `user-a` writes it. Hence not every rejected action
yields a message that is no broadcast. -/
theorem C1_counterexample :
    GameSession.rejects TicTacToeGame.asGame PlayerPositionMapping.asPlayerMapping demoWorld
        demoSession anonymousMove = true ∧
    (∃ s2 m, GameSession.handleAction TicTacToeGame.asGame
        PlayerPositionMapping.asPlayerMapping demoWorld demoSession anonymousMove
          = Except.ok (s2, [m]) ∧
      m.Response.MessageType = MessageTypeError ∧ m.PlayerID = "" ∧
      WebSocketHandler.writeLoop.round demoMarshal "user-a" m = some "error") ∧
    ¬ (∀ msg : ActionMessage,
        GameSession.rejects TicTacToeGame.asGame PlayerPositionMapping.asPlayerMapping
          demoWorld demoSession msg = true →
        ∃ s2 m, GameSession.handleAction TicTacToeGame.asGame
            PlayerPositionMapping.asPlayerMapping demoWorld demoSession msg
              = Except.ok (s2, [m]) ∧
          m.Response.MessageType = MessageTypeError ∧ m.PlayerID = msg.PlayerID ∧
          m.PlayerID ≠ "") := by
  refine ⟨by decide, ⟨_, _, rfl, rfl, rfl, rfl⟩, ?_⟩
  intro hall
  obtain ⟨s2, m, _, _, h3, h4⟩ := hall anonymousMove (by decide)
  exact h4 h3

/-- C2. With `TicTacToeGame` and `PlayerPositionMapping` as collaborators, every action that
`handleAction` rejects leaves the game (board, moveNumber, winner, winningLine) and the seat
mapping (slots, userToPos) equal to what they were before the call. -/
theorem C2_rejected_action_state_unchanged (w : World)
    (s : GameSession TicTacToeGame PlayerPositionMapping) (msg : ActionMessage)
    (h : GameSession.rejects TicTacToeGame.asGame PlayerPositionMapping.asPlayerMapping w s msg
      = true) :
    ∃ s2 out, GameSession.handleAction TicTacToeGame.asGame
        PlayerPositionMapping.asPlayerMapping w s msg = Except.ok (s2, out) ∧
      s2.game.board = s.game.board ∧ s2.game.moveNumber = s.game.moveNumber ∧
      s2.game.winner = s.game.winner ∧ s2.game.winningLine = s.game.winningLine ∧
      s2.playerMapping.slots = s.playerMapping.slots ∧
      s2.playerMapping.userToPos = s.playerMapping.userToPos := by
  suffices hs : ∃ out, GameSession.handleAction TicTacToeGame.asGame
      PlayerPositionMapping.asPlayerMapping w s msg = Except.ok (s, out) by
    obtain ⟨out, ho⟩ := hs
    exact ⟨s, out, ho, rfl, rfl, rfl, rfl, rfl, rfl⟩
  unfold GameSession.rejects at h
  by_cases h1 : msg.Request.RequestType = RequestTypeSession
  · rw [GameSession.handleAction_session _ _ w s msg h1]
    simp only [if_pos h1] at h
    cases hp : PlayerPositionMapping.asPlayerMapping.HandleSessionEvent w s.playerMapping
        msg.PlayerID msg.Request with
    | error e => simp [hp] at h
    | ok r =>
      obtain ⟨pm, err⟩ := r
      cases err with
      | none => simp [hp] at h
      | some e =>
        have := PlayerPositionMapping.HandleSessionEvent_refused _ _ _ _ _ _ hp
        subst this
        exact ⟨_, rfl⟩
  · by_cases h2 : msg.Request.RequestType = RequestTypeAI
    · rw [GameSession.handleAction_ai _ _ w s msg h2]
      simp only [if_neg h1, if_pos h2] at h
      cases ht : msg.Request.stringParam "ai_type" with
      | none => exact ⟨_, rfl⟩
      | some t =>
        simp only [ht] at h
        by_cases hc : (TicTacToeGame.asGame.AITypes s.game).contains t = false
        · simp only [if_pos hc]
          exact ⟨_, rfl⟩
        · simp only [if_neg hc]
          have hc2 : (TicTacToeGame.asGame.AITypes s.game).contains t = true := by simpa using hc
          cases hp : PlayerPositionMapping.asPlayerMapping.HandleSessionEvent w s.playerMapping
              msg.PlayerID msg.Request with
          | error e => simp [hp, hc2] at h
          | ok r =>
            obtain ⟨pm, err⟩ := r
            cases err with
            | none => simp [hp, hc2] at h
            | some e =>
              have := PlayerPositionMapping.HandleSessionEvent_refused _ _ _ _ _ _ hp
              subst this
              exact ⟨_, rfl⟩
    · by_cases h3 : msg.Request.RequestType = RequestTypeGame
      · rw [GameSession.handleAction_game _ _ w s msg h3]
        simp only [if_neg h1, if_neg h2, if_pos h3] at h
        cases hq : PlayerPositionMapping.asPlayerMapping.GetPlayerPosition s.playerMapping
            msg.PlayerID with
        | mk pos ok =>
          cases ok with
          | false => exact ⟨_, rfl⟩
          | true =>
            simp only [hq] at h
            cases hp : TicTacToeGame.asGame.HandleAction s.game pos msg.Request with
            | error e => simp [hp] at h
            | ok r =>
              obtain ⟨g, err⟩ := r
              cases err with
              | none => simp [hp] at h
              | some e =>
                simp only [hp]
                have := TicTacToeGame.HandleAction_refused _ _ _ _ _ hp
                subst this
                exact ⟨_, rfl⟩
      · rw [GameSession.handleAction_unknown _ _ w s msg
          ((GameSession.isValid_false_iff _).mpr ⟨h1, h2, h3⟩)]
        exact ⟨_, rfl⟩

/-- Witness of C2: a seated player's move to cell 9 is rejected and changes nothing. -/
theorem C2_witness :
    GameSession.rejects TicTacToeGame.asGame PlayerPositionMapping.asPlayerMapping demoWorld
        seatedSession ⟨"user-a", demoRequest "game" "make_move" (positionOnly 9)⟩ = true ∧
      ∃ s2 out, GameSession.handleAction TicTacToeGame.asGame
          PlayerPositionMapping.asPlayerMapping demoWorld seatedSession
          ⟨"user-a", demoRequest "game" "make_move" (positionOnly 9)⟩ = Except.ok (s2, out) ∧
        s2.game.board = seatedSession.game.board ∧
        s2.game.moveNumber = seatedSession.game.moveNumber ∧
        s2.game.winner = seatedSession.game.winner ∧
        s2.game.winningLine = seatedSession.game.winningLine ∧
        s2.playerMapping.slots = seatedSession.playerMapping.slots ∧
        s2.playerMapping.userToPos = seatedSession.playerMapping.userToPos :=
  ⟨by decide, C2_rejected_action_state_unchanged _ _ _ (by decide)⟩

/-- C3. For a game-category action whose sender holds a seat and which `Game.HandleAction`
accepts (nil result), `handleAction` emits exactly the list `Game.GetStateForAll()` returns on
the state after the action, in that order, and nothing else: the session sends no error of its
own. With `TicTacToeGame` that list holds no message of type `error`. -/
theorem C3_accepted_game_action_emits_game_state {σ μ : Type} (G : Game σ)
    (P : PlayerMapping μ) (w : World) (s : GameSession σ μ) (msg : ActionMessage)
    (pos : Int) (g2 : σ)
    (hcat : msg.Request.RequestType = RequestTypeGame)
    (hseat : P.GetPlayerPosition s.playerMapping msg.PlayerID = (pos, true))
    (hok : G.HandleAction s.game pos msg.Request = Except.ok (g2, none)) :
    GameSession.handleAction G P w s msg
        = Except.ok ({ s with game := g2 }, G.GetStateForAll g2) ∧
      ∀ g : TicTacToeGame, ∀ m ∈ TicTacToeGame.asGame.GetStateForAll g,
        m.Response.MessageType ≠ MessageTypeError := by
  constructor
  · rw [GameSession.handleAction_game G P w s msg hcat, hseat]
    simp only [hok]
  · intro g m hm
    simp only [TicTacToeGame.asGame, TicTacToeGame.GetStateForAll, List.mem_singleton] at hm
    subst hm
    show MessageTypeGameState ≠ MessageTypeError
    decide

/-- Witness of C3: the seated first player plays the centre cell. -/
theorem C3_witness :
    (demoRequest "game" "make_move" (positionOnly 4)).RequestType = RequestTypeGame ∧
    PlayerPositionMapping.asPlayerMapping.GetPlayerPosition seatedSession.playerMapping "user-a"
      = (0, true) ∧
    (GameSession.handleAction TicTacToeGame.asGame PlayerPositionMapping.asPlayerMapping
        demoWorld seatedSession ⟨"user-a", demoRequest "game" "make_move" (positionOnly 4)⟩
      = Except.ok ({ seatedSession with game := afterCentreMove },
          TicTacToeGame.asGame.GetStateForAll afterCentreMove) ∧
      ∀ g : TicTacToeGame, ∀ m ∈ TicTacToeGame.asGame.GetStateForAll g,
        m.Response.MessageType ≠ MessageTypeError) :=
  ⟨rfl, rfl, C3_accepted_game_action_emits_game_state TicTacToeGame.asGame
    PlayerPositionMapping.asPlayerMapping demoWorld seatedSession
    ⟨"user-a", demoRequest "game" "make_move" (positionOnly 4)⟩ 0 afterCentreMove rfl rfl
    (by rfl)⟩


/-- C5. For a game-category action whose sender has no seat in the `PlayerMapping`,
`handleAction` returns the session unchanged whatever the `Game` is (it is not called) and
emits one error addressed to the sender, saying that the sender is not in a playing
position. -/
theorem C5_game_action_without_seat {σ μ : Type} (G : Game σ) (P : PlayerMapping μ)
    (w : World) (s : GameSession σ μ) (msg : ActionMessage) (pos : Int)
    (hcat : msg.Request.RequestType = RequestTypeGame)
    (hseat : P.GetPlayerPosition s.playerMapping msg.PlayerID = (pos, false)) :
    GameSession.handleAction G P w s msg
        = Except.ok (s, [GameSession.sendError msg.PlayerID "You are not in a playing position"]) ∧
      (GameSession.sendError msg.PlayerID "You are not in a playing position").PlayerID
        = msg.PlayerID ∧
      (GameSession.sendError msg.PlayerID "You are not in a playing position").Response.MessageType
        = MessageTypeError ∧
      ∀ G2 : Game σ, GameSession.handleAction G2 P w s msg = GameSession.handleAction G P w s msg := by
  have key : ∀ G1 : Game σ, GameSession.handleAction G1 P w s msg
      = Except.ok (s, [GameSession.sendError msg.PlayerID "You are not in a playing position"]) := by
    intro G1
    rw [GameSession.handleAction_game G1 P w s msg hcat, hseat]
  exact ⟨key G, rfl, rfl, fun G2 => by rw [key G2, key G]⟩

/-- Witness of C5: a move sent by a user without a seat. -/
theorem C5_witness :
    (demoRequest "game" "make_move" (positionOnly 4)).RequestType = RequestTypeGame ∧
    PlayerPositionMapping.asPlayerMapping.GetPlayerPosition demoSession.playerMapping "user-b"
      = (0, false) ∧
    GameSession.handleAction TicTacToeGame.asGame PlayerPositionMapping.asPlayerMapping
        demoWorld demoSession ⟨"user-b", demoRequest "game" "make_move" (positionOnly 4)⟩
      = Except.ok (demoSession,
          [GameSession.sendError "user-b" "You are not in a playing position"]) :=
  ⟨rfl, rfl, (C5_game_action_without_seat TicTacToeGame.asGame
    PlayerPositionMapping.asPlayerMapping demoWorld demoSession
    ⟨"user-b", demoRequest "game" "make_move" (positionOnly 4)⟩ 0 rfl rfl).1⟩

/-- With the tic-tac-toe game and the position mapping, `handleAction` returns a result. -/
theorem GameSession.handleAction_total (w : World)
    (s : GameSession TicTacToeGame PlayerPositionMapping) (msg : ActionMessage) :
    ∃ s2 out, GameSession.handleAction TicTacToeGame.asGame
      PlayerPositionMapping.asPlayerMapping w s msg = Except.ok (s2, out) := by
  suffices h : ∀ e, GameSession.handleAction TicTacToeGame.asGame
      PlayerPositionMapping.asPlayerMapping w s msg ≠ Except.error e by
    obtain ⟨r, hr⟩ := Go.exists_ok h
    exact ⟨r.1, r.2, hr⟩
  intro e
  have hP : ∀ e2, PlayerPositionMapping.asPlayerMapping.HandleSessionEvent w s.playerMapping
      msg.PlayerID msg.Request ≠ Except.error e2 :=
    fun e2 => PlayerPositionMapping.HandleSessionEvent_ok _ _ _ _ e2
  by_cases h1 : msg.Request.RequestType = RequestTypeSession
  · rw [GameSession.handleAction_session _ _ w s msg h1]
    cases hp : PlayerPositionMapping.asPlayerMapping.HandleSessionEvent w s.playerMapping
        msg.PlayerID msg.Request with
    | error e2 => exact absurd hp (hP e2)
    | ok r =>
      obtain ⟨pm, err⟩ := r
      cases err <;> simp
  · by_cases h2 : msg.Request.RequestType = RequestTypeAI
    · rw [GameSession.handleAction_ai _ _ w s msg h2]
      cases ht : msg.Request.stringParam "ai_type" with
      | none => simp
      | some t =>
        simp only []
        split_ifs
        · simp
        · cases hp : PlayerPositionMapping.asPlayerMapping.HandleSessionEvent w s.playerMapping
              msg.PlayerID msg.Request with
          | error e2 => exact absurd hp (hP e2)
          | ok r =>
            obtain ⟨pm, err⟩ := r
            cases err <;> simp
    · by_cases h3 : msg.Request.RequestType = RequestTypeGame
      · rw [GameSession.handleAction_game _ _ w s msg h3]
        cases hq : PlayerPositionMapping.asPlayerMapping.GetPlayerPosition s.playerMapping
            msg.PlayerID with
        | mk pos ok =>
          cases ok with
          | false => simp
          | true =>
            simp only []
            cases hp : TicTacToeGame.asGame.HandleAction s.game pos msg.Request with
            | error e2 => exact absurd hp (TicTacToeGame.HandleAction_ok _ _ _ e2)
            | ok r =>
              obtain ⟨g, err⟩ := r
              cases err <;> simp
      · rw [GameSession.handleAction_unknown _ _ w s msg
          ((GameSession.isValid_false_iff _).mpr ⟨h1, h2, h3⟩)]
        simp

/-- C9. With `TicTacToeGame` and `PlayerPositionMapping` as collaborators, `handleAction`
returns normally on every action (any category, function name and parameter map, any
position) in every state: no board index out of range, no nil dereference, no failing type
assertion. -/
theorem C9_handleAction_never_panics (w : World)
    (s : GameSession TicTacToeGame PlayerPositionMapping) (msg : ActionMessage) :
    (∃ s2 out, GameSession.handleAction TicTacToeGame.asGame
      PlayerPositionMapping.asPlayerMapping w s msg = Except.ok (s2, out)) ∧
    ∀ e : GoPanic, GameSession.handleAction TicTacToeGame.asGame
      PlayerPositionMapping.asPlayerMapping w s msg ≠ Except.error e := by
  obtain ⟨s2, out, h⟩ := GameSession.handleAction_total w s msg
  refine ⟨⟨s2, out, h⟩, fun e c => ?_⟩
  rw [h] at c
  exact Except.noConfusion c

/-- C8 (the code at the failing input). An ai-category request named `join_position` with an
advertised `ai_type` is accepted: the sender, who held no seat, is seated at seat 0 as a
human player. -/
theorem C8_ai_category_join_position_seats_sender :
    ∃ s2 out, GameSession.handleAction TicTacToeGame.asGame
        PlayerPositionMapping.asPlayerMapping demoWorld demoSession
        ⟨"user-a", demoRequest "ai" "join_position" (positionAndAI 0 "random")⟩
        = Except.ok (s2, out) ∧
      GameSession.rejects TicTacToeGame.asGame PlayerPositionMapping.asPlayerMapping demoWorld
        demoSession ⟨"user-a", demoRequest "ai" "join_position" (positionAndAI 0 "random")⟩
        = false ∧
      PlayerPositionMapping.GetPlayerPosition demoSession.playerMapping "user-a" = (0, false) ∧
      PlayerPositionMapping.GetPlayerPosition s2.playerMapping "user-a" = (0, true) ∧
      (s2.playerMapping.slots.get? 0).map (fun slot => (slot.UserID, slot.IsAI))
        = some ("user-a", false) ∧
      out.map (fun m => (m.PlayerID, m.Response.MessageType)) = [("", MessageTypeSessionState)] :=
  ⟨_, _, rfl, by decide, by decide, by decide, by decide, by decide⟩

theorem not_mem_of_errorText (u : String) (out : List StateMessage)
    (h : ∀ m ∈ out, m.errorText ≠ some "Unknown request type") :
    GameSession.sendError u "Unknown request type" ∉ out := by
  intro hm
  exact h _ hm rfl

/-- With the tic-tac-toe game and the position mapping, an action of a valid category never
makes the session emit an error whose text is "Unknown request type". -/
theorem GameSession.valid_category_no_unknown (w : World)
    (s : GameSession TicTacToeGame PlayerPositionMapping) (msg : ActionMessage)
    (hv : RequestType.IsValid msg.Request.RequestType = true)
    (s2 : GameSession TicTacToeGame PlayerPositionMapping) (out : List StateMessage)
    (h : GameSession.handleAction TicTacToeGame.asGame PlayerPositionMapping.asPlayerMapping
      w s msg = Except.ok (s2, out)) :
    ∀ m ∈ out, m.errorText ≠ some "Unknown request type" := by
  have one : ∀ (t : String), t ≠ "Unknown request type" →
      ∀ m ∈ [GameSession.sendError msg.PlayerID t], m.errorText ≠ some "Unknown request type" := by
    intro t ht m hm
    rw [List.mem_singleton] at hm
    subst hm
    intro c
    exact ht (Option.some.inj c)
  have sess : ∀ pm : PlayerPositionMapping,
      ∀ m ∈ PlayerPositionMapping.asPlayerMapping.GetSessionStateForAll pm,
        m.errorText ≠ some "Unknown request type" := by
    intro pm m hm
    simp only [PlayerPositionMapping.asPlayerMapping, PlayerPositionMapping.GetSessionStateForAll,
      List.mem_singleton] at hm
    subst hm
    intro c
    exact Option.noConfusion c
  have inj : ∀ (a : GameSession TicTacToeGame PlayerPositionMapping) (o : List StateMessage),
      (Except.ok (a, o) : Go _) = Except.ok (s2, out) → o = out := by
    intro a o e
    cases e
    rfl
  by_cases h1 : msg.Request.RequestType = RequestTypeSession
  · rw [GameSession.handleAction_session _ _ w s msg h1] at h
    cases hp : PlayerPositionMapping.asPlayerMapping.HandleSessionEvent w s.playerMapping
        msg.PlayerID msg.Request with
    | error e => rw [hp] at h; exact Except.noConfusion h
    | ok r =>
      obtain ⟨pm, err⟩ := r
      rw [hp] at h
      cases err with
      | none => rw [← inj _ _ h]; exact sess pm
      | some e =>
        rw [← inj _ _ h]
        exact one e (PlayerPositionMapping.HandleSessionEvent_text _ _ _ _ _ _ hp)
  · by_cases h2 : msg.Request.RequestType = RequestTypeAI
    · rw [GameSession.handleAction_ai _ _ w s msg h2] at h
      cases ht : msg.Request.stringParam "ai_type" with
      | none =>
        rw [ht] at h
        rw [← inj _ _ h]
        exact one _ (by decide)
      | some t =>
        rw [ht] at h
        simp only [] at h
        split_ifs at h
        · rw [← inj _ _ h]
          exact one _ (by decide)
        · cases hp : PlayerPositionMapping.asPlayerMapping.HandleSessionEvent w s.playerMapping
              msg.PlayerID msg.Request with
          | error e => rw [hp] at h; exact Except.noConfusion h
          | ok r =>
            obtain ⟨pm, err⟩ := r
            rw [hp] at h
            cases err with
            | none => rw [← inj _ _ h]; exact sess pm
            | some e =>
              rw [← inj _ _ h]
              exact one e (PlayerPositionMapping.HandleSessionEvent_text _ _ _ _ _ _ hp)
    · by_cases h3 : msg.Request.RequestType = RequestTypeGame
      · rw [GameSession.handleAction_game _ _ w s msg h3] at h
        cases hq : PlayerPositionMapping.asPlayerMapping.GetPlayerPosition s.playerMapping
            msg.PlayerID with
        | mk pos ok =>
          rw [hq] at h
          cases ok with
          | false =>
            rw [← inj _ _ h]
            exact one _ (by decide)
          | true =>
            simp only [] at h
            cases hp : TicTacToeGame.asGame.HandleAction s.game pos msg.Request with
            | error e => rw [hp] at h; exact Except.noConfusion h
            | ok r =>
              obtain ⟨g, err⟩ := r
              rw [hp] at h
              cases err with
              | none =>
                rw [← inj _ _ h]
                intro m hm
                simp only [TicTacToeGame.asGame, TicTacToeGame.GetStateForAll,
                  List.mem_singleton] at hm
                subst hm
                intro c
                exact Option.noConfusion c
              | some e =>
                rw [← inj _ _ h]
                intro m hm
                rw [List.mem_singleton] at hm
                subst hm
                intro c
                exact TicTacToeGame.HandleAction_text _ _ _ _ _ hp (Option.some.inj c)
      · have := (GameSession.isValid_false_iff _).mpr ⟨h1, h2, h3⟩
        rw [this] at hv
        exact Bool.noConfusion hv

/-- C6. With `TicTacToeGame` and `PlayerPositionMapping`, `handleAction` emits the error
"Unknown request type" addressed to the sender exactly when the category is none of session,
ai, game, that is when `RequestType.IsValid` is false; and then, whatever the Game and the
PlayerMapping are, the session is returned unchanged with that single error: neither
collaborator is called. -/
theorem C6_unknown_request_type_iff_invalid (w : World)
    (s : GameSession TicTacToeGame PlayerPositionMapping) (msg : ActionMessage) :
    (∃ s2 out, GameSession.handleAction TicTacToeGame.asGame
        PlayerPositionMapping.asPlayerMapping w s msg = Except.ok (s2, out) ∧
      (GameSession.sendError msg.PlayerID "Unknown request type" ∈ out ↔
        RequestType.IsValid msg.Request.RequestType = false)) ∧
    (RequestType.IsValid msg.Request.RequestType = false ↔
      (msg.Request.RequestType ≠ RequestTypeSession ∧ msg.Request.RequestType ≠ RequestTypeAI ∧
        msg.Request.RequestType ≠ RequestTypeGame)) ∧
    (RequestType.IsValid msg.Request.RequestType = false →
      ∀ (σ μ : Type) (G : Game σ) (P : PlayerMapping μ) (t : GameSession σ μ),
        GameSession.handleAction G P w t msg
          = Except.ok (t, [GameSession.sendError msg.PlayerID "Unknown request type"])) := by
  refine ⟨?_, GameSession.isValid_false_iff _, fun hv σ μ G P t =>
    GameSession.handleAction_unknown G P w t msg hv⟩
  obtain ⟨s2, out, ho⟩ := GameSession.handleAction_total w s msg
  refine ⟨s2, out, ho, ?_⟩
  cases hv : RequestType.IsValid msg.Request.RequestType with
  | false =>
    rw [GameSession.handleAction_unknown _ _ w s msg hv] at ho
    have := Except.ok.inj ho
    have h2 : out = [GameSession.sendError msg.PlayerID "Unknown request type"] :=
      (congrArg Prod.snd this).symm
    simp [h2]
  | true =>
    have := not_mem_of_errorText msg.PlayerID out
      (GameSession.valid_category_no_unknown w s msg hv s2 out ho)
    simp [this]

/-- C4. For a session-category action on which `HandleSessionEvent` of the
`PlayerPositionMapping` succeeds, `handleAction` emits exactly one message: a broadcast (empty
`PlayerID`) of type `session_state` whose `PlayerPositions` map has exactly the keys
0..maxPlayers-1, with nil at each empty seat and, at each occupied seat, the display name and
the AI flag the seat holds after the event. -/
theorem C4_session_event_broadcasts_session_state {σ : Type} (G : Game σ) (w : World)
    (s : GameSession σ PlayerPositionMapping) (msg : ActionMessage)
    (m2 : PlayerPositionMapping)
    (hcat : msg.Request.RequestType = RequestTypeSession)
    (hok : PlayerPositionMapping.HandleSessionEvent w s.playerMapping msg.PlayerID msg.Request
      = Except.ok (m2, none)) :
    ∃ positions : GoMap Int (Option PlayerInfo),
      GameSession.handleAction G PlayerPositionMapping.asPlayerMapping w s msg
        = Except.ok ({ s with playerMapping := m2 },
            [{ PlayerID := "",
               Response :=
                { MessageType := MessageTypeSessionState,
                  Parameters := ResponseParameters.sessionState
                    { PlayerPositions := positions } } }]) ∧
      (∀ p : Int, positions.contains p = true ↔ (0 ≤ p ∧ p < m2.maxPlayers)) ∧
      (∀ p : Int, 0 ≤ p → p < m2.maxPlayers → m2.slots.get? p = none →
        positions.get? p = some none) ∧
      (∀ (p : Int) (slot : PlayerSlot), 0 ≤ p → p < m2.maxPlayers →
        m2.slots.get? p = some slot →
        ∃ info, positions.get? p = some (some info) ∧
          info.DisplayName = slot.DisplayName ∧ info.IsAI = slot.IsAI) := by
  refine ⟨(PlayerPositionMapping.buildSessionState m2).PlayerPositions, ?_, ?_, ?_, ?_⟩
  · rw [GameSession.handleAction_session G _ w s msg hcat]
    have : PlayerPositionMapping.asPlayerMapping.HandleSessionEvent w s.playerMapping
        msg.PlayerID msg.Request = Except.ok (m2, none) := hok
    rw [this]
    rfl
  · intro p
    unfold GoMap.contains
    rw [buildSessionState_get?]
    by_cases h : 0 ≤ p ∧ p < m2.maxPlayers <;> simp [h]
  · intro p h0 h1 hs
    rw [buildSessionState_get?, if_pos ⟨h0, h1⟩]
    simp [PlayerPositionMapping.infoAt, hs]
  · intro p slot h0 h1 hs
    rw [buildSessionState_get?, if_pos ⟨h0, h1⟩]
    simp only [PlayerPositionMapping.infoAt, hs]
    exact ⟨_, rfl, rfl, rfl⟩

/-- Witness of C4: a user joins seat 0 of the two-seat session. -/
theorem C4_witness :
    (demoRequest "session" "join_position" (positionOnly 0)).RequestType = RequestTypeSession ∧
    PlayerPositionMapping.HandleSessionEvent demoWorld demoSession.playerMapping "user-a"
        (demoRequest "session" "join_position" (positionOnly 0))
      = Except.ok (seatedSession.playerMapping, none) ∧
    ∃ positions : GoMap Int (Option PlayerInfo),
      GameSession.handleAction TicTacToeGame.asGame PlayerPositionMapping.asPlayerMapping
          demoWorld demoSession
          ⟨"user-a", demoRequest "session" "join_position" (positionOnly 0)⟩
        = Except.ok ({ demoSession with playerMapping := seatedSession.playerMapping },
            [{ PlayerID := "",
               Response :=
                { MessageType := MessageTypeSessionState,
                  Parameters := ResponseParameters.sessionState
                    { PlayerPositions := positions } } }]) ∧
      (∀ p : Int, positions.contains p = true ↔
        (0 ≤ p ∧ p < seatedSession.playerMapping.maxPlayers)) ∧
      (∀ p : Int, 0 ≤ p → p < seatedSession.playerMapping.maxPlayers →
        seatedSession.playerMapping.slots.get? p = none → positions.get? p = some none) ∧
      (∀ (p : Int) (slot : PlayerSlot), 0 ≤ p → p < seatedSession.playerMapping.maxPlayers →
        seatedSession.playerMapping.slots.get? p = some slot →
        ∃ info, positions.get? p = some (some info) ∧
          info.DisplayName = slot.DisplayName ∧ info.IsAI = slot.IsAI) :=
  ⟨rfl, rfl, C4_session_event_broadcasts_session_state TicTacToeGame.asGame demoWorld
    demoSession ⟨"user-a", demoRequest "session" "join_position" (positionOnly 0)⟩
    seatedSession.playerMapping rfl rfl⟩

/-- C7. An ai-category action whose `ai_type` parameter is missing, is no string, or is no key
of `Game.AITypes()` returns the session unchanged whatever the `PlayerMapping` is
(`HandleSessionEvent` is not called) and emits one error addressed to the sender; and an
ai-category `add_ai` whose target seat is occupied, handled by the `PlayerPositionMapping`,
likewise emits one error addressed to the sender and leaves the session unchanged. -/
theorem C7_invalid_ai_action_rejected {σ : Type} (G : Game σ) (w : World)
    (msg : ActionMessage) (hcat : msg.Request.RequestType = RequestTypeAI) :
    (∀ (μ : Type) (P : PlayerMapping μ) (s : GameSession σ μ),
      (msg.Request.stringParam "ai_type" = none ∨
        ∃ t, msg.Request.stringParam "ai_type" = some t ∧
          (G.AITypes s.game).contains t = false) →
      ∃ text, GameSession.handleAction G P w s msg
        = Except.ok (s, [GameSession.sendError msg.PlayerID text])) ∧
    (∀ (s : GameSession σ PlayerPositionMapping) (v : Float64),
      msg.Request.FunctionName = "add_ai" →
      msg.Request.float64Param "position" = some v →
      (s.playerMapping.slots.get? v.toInt).isSome = true →
      ∃ text, GameSession.handleAction G PlayerPositionMapping.asPlayerMapping w s msg
        = Except.ok (s, [GameSession.sendError msg.PlayerID text])) := by
  constructor
  · intro μ P s h
    rw [GameSession.handleAction_ai G P w s msg hcat]
    rcases h with h | ⟨t, ht, hc⟩
    · rw [h]
      exact ⟨_, rfl⟩
    · rw [ht]
      simp only [if_pos hc]
      exact ⟨_, rfl⟩
  · intro s v hf hp hocc
    rw [GameSession.handleAction_ai G _ w s msg hcat]
    cases ht : msg.Request.stringParam "ai_type" with
    | none => exact ⟨_, rfl⟩
    | some t =>
      simp only []
      split_ifs with hc
      · exact ⟨_, rfl⟩
      · have hne1 : ¬ msg.Request.FunctionName = "join_position" := by rw [hf]; decide
        have hne2 : ¬ msg.Request.FunctionName = "leave_position" := by rw [hf]; decide
        have hev : PlayerPositionMapping.asPlayerMapping.HandleSessionEvent w s.playerMapping
            msg.PlayerID msg.Request = PlayerPositionMapping.addAI w s.playerMapping v.toInt t := by
          show PlayerPositionMapping.HandleSessionEvent w s.playerMapping msg.PlayerID
            msg.Request = _
          simp only [PlayerPositionMapping.HandleSessionEvent, if_neg hne1, if_neg hne2,
            if_pos hf, hp, ht]
        rw [hev]
        by_cases hr : v.toInt < 0 ∨ v.toInt ≥ s.playerMapping.maxPlayers
        · simp only [PlayerPositionMapping.addAI, if_pos hr, pure, Except.pure]
          exact ⟨_, rfl⟩
        · simp only [PlayerPositionMapping.addAI, if_neg hr, if_pos hocc, pure, Except.pure]
          exact ⟨_, rfl⟩

/-- Witness of C7: an `add_ai` without `ai_type`, and an `add_ai` onto an occupied seat. -/
theorem C7_witness :
    (demoRequest "ai" "add_ai" (positionAndAI 0 "random")).RequestType = RequestTypeAI ∧
    (∃ text, GameSession.handleAction TicTacToeGame.asGame
        PlayerPositionMapping.asPlayerMapping demoWorld demoSession
        ⟨"user-b", demoRequest "ai" "add_ai" (positionOnly 1)⟩
      = Except.ok (demoSession, [GameSession.sendError "user-b" text])) ∧
    (∃ text, GameSession.handleAction TicTacToeGame.asGame
        PlayerPositionMapping.asPlayerMapping demoWorld seatedSession
        ⟨"user-b", demoRequest "ai" "add_ai" (positionAndAI 0 "random")⟩
      = Except.ok (seatedSession, [GameSession.sendError "user-b" text])) :=
  ⟨rfl,
   (C7_invalid_ai_action_rejected TicTacToeGame.asGame demoWorld
      ⟨"user-b", demoRequest "ai" "add_ai" (positionOnly 1)⟩ rfl).1
      PlayerPositionMapping PlayerPositionMapping.asPlayerMapping demoSession (Or.inl rfl),
   (C7_invalid_ai_action_rejected TicTacToeGame.asGame demoWorld
      ⟨"user-b", demoRequest "ai" "add_ai" (positionAndAI 0 "random")⟩ rfl).2
      seatedSession (Float64.ofInt 0) rfl rfl rfl⟩

/-- C10. `Registry.Create` on an id that is already present fails: when the lock is free it
returns an error, and whenever it returns, the result is an error and the session map is the
one before the call, so the id still maps to the same session and no entry is added. -/
theorem C10_create_duplicate_fails {S : Type} (r : Registry S) (gameID : String)
    (session old : S) (hpresent : r.sessions.get? gameID = some old) :
    (r.mu = RWMutex.free →
      Registry.Create r gameID session
        = Blocking.returns (r, Except.error ("session " ++ gameID ++ " already exists"))) ∧
    (∀ (r2 : Registry S) (res : Except String S),
      Registry.Create r gameID session = Blocking.returns (r2, res) →
      r2.sessions = r.sessions ∧ r2.sessions.get? gameID = some old ∧
        res = Except.error ("session " ++ gameID ++ " already exists")) := by
  have hc : r.sessions.contains gameID = true := by simp [GoMap.contains, hpresent]
  constructor
  · intro hfree
    obtain ⟨sessions, mu⟩ := r
    simp only at hfree
    subst hfree
    simp only [Registry.Create, RWMutex.Lock, RWMutex.free, RWMutex.Unlock]
    simp [hc]
  · intro r2 res h
    unfold Registry.Create at h
    cases hl : r.mu.Lock with
    | none => rw [hl] at h; exact Blocking.noConfusion h
    | some mu =>
      rw [hl] at h
      simp only [hc, if_true] at h
      injection h with h
      injection h with h1 h2
      subst h1
      subst h2
      exact ⟨rfl, hpresent, rfl⟩

/-- Witness of C10: creating the id of the one registered session. -/
theorem C10_witness :
    (⟨⟨[("ABCDE", 1)]⟩, RWMutex.free⟩ : Registry Nat).sessions.get? "ABCDE" = some 1 ∧
    Registry.Create (⟨⟨[("ABCDE", 1)]⟩, RWMutex.free⟩ : Registry Nat) "ABCDE" 2
      = Blocking.returns (⟨⟨[("ABCDE", 1)]⟩, RWMutex.free⟩,
          Except.error ("session " ++ "ABCDE" ++ " already exists")) :=
  ⟨rfl, (C10_create_duplicate_fails (⟨⟨[("ABCDE", 1)]⟩, RWMutex.free⟩ : Registry Nat)
    "ABCDE" 2 1 rfl).1 rfl⟩

/-! ## The registry -/

namespace Registry
variable {S : Type}

theorem lock_eq_some (mu mu2 : RWMutex) (h : mu.Lock = some mu2) :
    mu = RWMutex.free ∧ mu2 = { writer := true, readers := 0 } := by
  obtain ⟨w, n⟩ := mu
  unfold RWMutex.Lock at h
  split_ifs at h with hc
  simp only at hc
  obtain ⟨hw, hn⟩ := hc
  subst hw
  subst hn
  simp only [Option.some.injEq] at h
  exact ⟨rfl, h.symm⟩

theorem rlock_runlock (mu mu2 : RWMutex) (h : mu.RLock = some mu2) : mu2.RUnlock = mu := by
  obtain ⟨w, n⟩ := mu
  unfold RWMutex.RLock at h
  split_ifs at h
  simp only [Option.some.injEq] at h
  subst h
  simp [RWMutex.RUnlock]

theorem rlock_of_reader (mu : RWMutex) (h : mu.writer = false) :
    mu.RLock = some { mu with readers := mu.readers + 1 } := by
  simp [RWMutex.RLock, h]

/-- Whenever `Get` returns, the registry is the one before the call and the result is read
off the map. -/
theorem Get_returns (r r2 : Registry S) (gameID : String) (res : Except String S)
    (h : Get r gameID = Blocking.returns (r2, res)) :
    r2 = r ∧
      ((r.sessions.get? gameID = none ∧
          res = Except.error ("session " ++ gameID ++ " not found")) ∨
        ∃ session, r.sessions.get? gameID = some session ∧ res = Except.ok session) := by
  unfold Get at h
  cases hl : r.mu.RLock with
  | none => rw [hl] at h; exact Blocking.noConfusion h
  | some mu =>
    rw [hl] at h
    have hmu := rlock_runlock _ _ hl
    cases hg : r.sessions.get? gameID with
    | none =>
      rw [hg] at h
      simp only [hmu] at h
      injection h with h
      injection h with h1 h2
      exact ⟨h1.symm, Or.inl ⟨rfl, h2.symm⟩⟩
    | some session =>
      rw [hg] at h
      simp only [hmu] at h
      injection h with h
      injection h with h1 h2
      exact ⟨h1.symm, Or.inr ⟨session, rfl, h2.symm⟩⟩

/-- With no writer holding the lock, `Get` returns. -/
theorem Get_of_reader (r : Registry S) (gameID : String) (h : r.mu.writer = false) :
    Get r gameID = Blocking.returns (r,
      match r.sessions.get? gameID with
      | none => Except.error ("session " ++ gameID ++ " not found")
      | some session => Except.ok session) := by
  have hl := rlock_of_reader r.mu h
  have hmu := rlock_runlock _ _ hl
  unfold Get
  rw [hl]
  simp only [hmu]
  cases r.sessions.get? gameID <;> rfl

/-- While a writer holds the lock, `Get` cannot proceed. -/
theorem Get_of_writer (r : Registry S) (gameID : String) (h : r.mu.writer = true) :
    Get r gameID = Blocking.blocks := by
  simp [Get, RWMutex.RLock, h]

/-- The method `Remove` never returns: either its `Lock` cannot be taken, or the `RLock` of
the `Get` it calls waits for the write lock `Remove` itself holds. -/
theorem Remove_blocks (r : Registry S) (gameID : String) :
    Remove r gameID = Blocking.blocks := by
  unfold Remove
  cases hl : r.mu.Lock with
  | none => rfl
  | some mu =>
    have hmu := (lock_eq_some _ _ hl).2
    subst hmu
    simp only []
    rw [Get_of_writer _ _ rfl]

/-- Whenever `Create` returns, the lock is free again, and the map either is unchanged (the
id was taken) or has the new session stored under the id. -/
theorem Create_returns (r r2 : Registry S) (gameID : String) (session : S)
    (res : Except String S) (h : Create r gameID session = Blocking.returns (r2, res)) :
    r2.mu = RWMutex.free ∧
      ((r.sessions.contains gameID = true ∧ r2.sessions = r.sessions ∧
          res = Except.error ("session " ++ gameID ++ " already exists")) ∨
        (r.sessions.contains gameID = false ∧ r2.sessions = r.sessions.set gameID session ∧
          res = Except.ok session)) := by
  unfold Create at h
  cases hl : r.mu.Lock with
  | none => rw [hl] at h; exact Blocking.noConfusion h
  | some mu =>
    rw [hl] at h
    have hmu := (lock_eq_some _ _ hl).2
    subst hmu
    cases hc : r.sessions.contains gameID with
    | true =>
      simp only [hc, if_true] at h
      injection h with h
      injection h with h1 h2
      subst h1
      exact ⟨rfl, Or.inl ⟨rfl, rfl, h2.symm⟩⟩
    | false =>
      simp only [hc, Bool.false_eq_true, if_false] at h
      injection h with h
      injection h with h1 h2
      subst h1
      exact ⟨rfl, Or.inr ⟨rfl, rfl, h2.symm⟩⟩

end Registry

/-- C11. `Registry.Get` returns an error exactly when the id is no key of the session map
(and it does return when no writer holds the lock); after a successful `Create(id, ...)` it
returns the very session `Create` returned, also after further `Create` calls, which never
overwrite or drop an entry; and whenever `Get` returns, the registry is unchanged. -/
theorem C11_get_finds_exactly_the_registered_sessions {S : Type} (r : Registry S)
    (gameID : String) :
    (r.mu.writer = false →
      ∃ res, Registry.Get r gameID = Blocking.returns (r, res) ∧
        ((∃ text, res = Except.error text) ↔ r.sessions.get? gameID = none)) ∧
    (∀ (session : S) (r1 : Registry S) (res : S),
      Registry.Create r gameID session = Blocking.returns (r1, Except.ok res) →
      res = session ∧ Registry.Get r1 gameID = Blocking.returns (r1, Except.ok session)) ∧
    (∀ (session : S), r.sessions.get? gameID = some session →
      ∀ (other : String) (new : S) (r2 : Registry S) (res : Except String S),
        Registry.Create r other new = Blocking.returns (r2, res) →
        r2.sessions.get? gameID = some session) ∧
    (∀ (r2 : Registry S) (res : Except String S),
      Registry.Get r gameID = Blocking.returns (r2, res) → r2 = r) := by
  refine ⟨?_, ?_, ?_, ?_⟩
  · intro hw
    refine ⟨_, Registry.Get_of_reader r gameID hw, ?_⟩
    cases r.sessions.get? gameID with
    | none => simp
    | some s => simp
  · intro session r1 res h
    obtain ⟨hmu, hcase⟩ := Registry.Create_returns _ _ _ _ _ h
    rcases hcase with ⟨_, _, he⟩ | ⟨_, hs, he⟩
    · exact Except.noConfusion he
    · have hres : res = session := Except.ok.inj he
      refine ⟨hres, ?_⟩
      have hw : r1.mu.writer = false := by rw [hmu]; rfl
      rw [Registry.Get_of_reader r1 gameID hw, hs, GoMap.get?_set_self]
  · intro session hpresent other new r2 res h
    obtain ⟨_, hcase⟩ := Registry.Create_returns _ _ _ _ _ h
    rcases hcase with ⟨_, hs, _⟩ | ⟨hc, hs, _⟩
    · rw [hs]; exact hpresent
    · rw [hs]
      have hne : gameID ≠ other := by
        intro e
        subst e
        simp [GoMap.contains, hpresent] at hc
      rw [GoMap.get?_set_ne _ _ _ _ hne]
      exact hpresent
  · intro r2 res h
    exact (Registry.Get_returns _ _ _ _ h).1

/-- Witness of C11: a lookup of the one registered id and of another id. -/
theorem C11_witness :
    (∃ res, Registry.Get (⟨⟨[("ABCDE", 1)]⟩, RWMutex.free⟩ : Registry Nat) "ABCDE"
        = Blocking.returns (⟨⟨[("ABCDE", 1)]⟩, RWMutex.free⟩, res) ∧
      ((∃ text, res = Except.error text) ↔
        (⟨[("ABCDE", 1)]⟩ : GoMap String Nat).get? "ABCDE" = none)) ∧
    Registry.Get (⟨⟨[("ABCDE", 1)]⟩, RWMutex.free⟩ : Registry Nat) "QQQQQ"
      = Blocking.returns (⟨⟨[("ABCDE", 1)]⟩, RWMutex.free⟩,
          Except.error "session QQQQQ not found") :=
  ⟨(C11_get_finds_exactly_the_registered_sessions
      (⟨⟨[("ABCDE", 1)]⟩, RWMutex.free⟩ : Registry Nat) "ABCDE").1 rfl, rfl⟩

/-- C12 (the code at the failing input). `Remove` of the one registered id does not return:
no session is shut down and the entry stays. -/
theorem C12_remove_present_id_blocks :
    (⟨[("ABCDE", 1)]⟩ : GoMap String Nat).get? "ABCDE" = some 1 ∧
    Registry.Remove (⟨⟨[("ABCDE", 1)]⟩, RWMutex.free⟩ : Registry Nat) "ABCDE"
      = Blocking.blocks ∧
    ∀ (r : Registry Nat) (gameID : String), Registry.Remove r gameID = Blocking.blocks :=
  ⟨rfl, rfl, Registry.Remove_blocks⟩

/-- C13 (the code at the failing input). `Remove` of an id that is not registered does not
return either: it holds the write lock and waits for it again inside `Get`. -/
theorem C13_remove_absent_id_blocks :
    (⟨[("ABCDE", 1)]⟩ : GoMap String Nat).get? "QQQQQ" = none ∧
    Registry.Remove (⟨⟨[("ABCDE", 1)]⟩, RWMutex.free⟩ : Registry Nat) "QQQQQ"
      = Blocking.blocks ∧
    Registry.Remove (Registry.NewRegistry : Registry Nat) "QQQQQ" = Blocking.blocks ∧
    Registry.Get (⟨⟨[("ABCDE", 1)]⟩, (⟨true, 0⟩ : RWMutex)⟩ : Registry Nat) "QQQQQ"
      = Blocking.blocks :=
  ⟨rfl, rfl, rfl, rfl⟩

namespace Registry
variable {S : Type}

/-- An id the loop returns is the candidate of some round, and no key of the map. -/
theorem loop_some (sessions : GoMap String S) (rand : Nat → Nat) (fuel k : Nat) (id : String)
    (h : GenerateUniqueGameID.loop sessions rand fuel k = some id) :
    sessions.contains id = false ∧ ∃ j, id = candidate rand j := by
  induction fuel generalizing k with
  | zero => exact Option.noConfusion h
  | succ n ih =>
    unfold GenerateUniqueGameID.loop at h
    simp only [] at h
    split_ifs at h with hc
    · exact ih (k + 1) h
    · have he : candidate rand k = id := Option.some.inj h
      subst he
      exact ⟨by simpa using hc, k, rfl⟩

/-- The loop returns once a round draws a free id, given fuel for that round. -/
theorem loop_returns (sessions : GoMap String S) (rand : Nat → Nat) (j k : Nat)
    (h : sessions.contains (candidate rand (k + j)) = false) :
    ∃ id, GenerateUniqueGameID.loop sessions rand (j + 1) k = some id := by
  induction j generalizing k with
  | zero =>
    unfold GenerateUniqueGameID.loop
    simp only [Nat.add_zero] at h
    simp [h]
  | succ n ih =>
    unfold GenerateUniqueGameID.loop
    simp only []
    split_ifs with hc
    · have h2 : sessions.contains (candidate rand (k + 1 + n)) = false := by
        have e : k + 1 + n = k + (n + 1) := by omega
        rw [e]; exact h
      exact ih (k + 1) h2
    · exact ⟨_, rfl⟩

theorem letterOf_mem (b : Nat) : letterOf b ∈ letters.data :=
  List.get_mem _ _ _

theorem letters_upper : ∀ c ∈ letters.data, 'A' ≤ c ∧ c ≤ 'Z' := by decide

theorem candidate_length (rand : Nat → Nat) (k : Nat) : (candidate rand k).length = 5 := by
  simp [candidate, String.length, idLength]

theorem candidate_letters (rand : Nat → Nat) (k : Nat) :
    ∀ c ∈ (candidate rand k).data, c ∈ letters.data := by
  intro c hc
  simp only [candidate, List.mem_map] at hc
  obtain ⟨i, _, e⟩ := hc
  rw [← e]
  exact letterOf_mem _

theorem GenerateUniqueGameID_returns (r r2 : Registry S) (rand : Nat → Nat) (fuel : Nat)
    (res : Option String)
    (h : GenerateUniqueGameID r rand fuel = Blocking.returns (r2, res)) :
    r2 = r ∧ res = GenerateUniqueGameID.loop r.sessions rand fuel 0 := by
  unfold GenerateUniqueGameID at h
  cases hl : r.mu.RLock with
  | none => rw [hl] at h; exact Blocking.noConfusion h
  | some mu =>
    rw [hl] at h
    have hmu := rlock_runlock _ _ hl
    simp only [hmu] at h
    injection h with h
    injection h with h1 h2
    exact ⟨h1.symm, h2.symm⟩

end Registry

/-- C14. Whenever `GenerateUniqueGameID` returns an id, on any byte stream, the id is no key
of the session map, which the call leaves as it was; and it does return as soon as some round
draws an id that is free, when no writer holds the lock. -/
theorem C14_generated_id_is_unused {S : Type} (r : Registry S) (rand : Nat → Nat) :
    (∀ (fuel : Nat) (r2 : Registry S) (id : String),
      Registry.GenerateUniqueGameID r rand fuel = Blocking.returns (r2, some id) →
      r2 = r ∧ r2.sessions.get? id = none) ∧
    (∀ k : Nat, r.mu.writer = false →
      r.sessions.contains (Registry.candidate rand k) = false →
      ∃ id, Registry.GenerateUniqueGameID r rand (k + 1) = Blocking.returns (r, some id) ∧
        r.sessions.get? id = none) := by
  constructor
  · intro fuel r2 id h
    obtain ⟨h1, h2⟩ := Registry.GenerateUniqueGameID_returns _ _ _ _ _ h
    subst h1
    have := (Registry.loop_some _ _ _ _ _ h2.symm).1
    refine ⟨rfl, ?_⟩
    cases hg : r2.sessions.get? id with
    | none => rfl
    | some s => simp [GoMap.contains, hg] at this
  · intro k hw hfree
    obtain ⟨id, hid⟩ := Registry.loop_returns r.sessions rand k 0 (by simpa using hfree)
    have hl := Registry.rlock_of_reader r.mu hw
    have hmu := Registry.rlock_runlock _ _ hl
    refine ⟨id, ?_, ?_⟩
    · unfold Registry.GenerateUniqueGameID
      rw [hl]
      simp only [hmu, hid]
    · have := (Registry.loop_some _ _ _ _ _ hid).1
      cases hg : r.sessions.get? id with
      | none => rfl
      | some s => simp [GoMap.contains, hg] at this

/-- Witness of C14: the first round draws the registered id, the second a free one. -/
theorem C14_witness :
    Registry.GenerateUniqueGameID (⟨⟨[("AAAAA", 1)]⟩, RWMutex.free⟩ : Registry Nat)
        (fun n => if n < 5 then 0 else 1) 2
      = Blocking.returns (⟨⟨[("AAAAA", 1)]⟩, RWMutex.free⟩, some "BBBBB") ∧
    (⟨⟨[("AAAAA", 1)]⟩, RWMutex.free⟩ : Registry Nat) =
        (⟨⟨[("AAAAA", 1)]⟩, RWMutex.free⟩ : Registry Nat) ∧
    (⟨[("AAAAA", 1)]⟩ : GoMap String Nat).get? "BBBBB" = none :=
  ⟨rfl, (C14_generated_id_is_unused (⟨⟨[("AAAAA", 1)]⟩, RWMutex.free⟩ : Registry Nat)
    (fun n => if n < 5 then 0 else 1)).1 2 _ "BBBBB" (by rfl)⟩

/-- C15. Every id `GenerateUniqueGameID` returns has length 5, and each of its characters
is one of the 26 letters of `letters`, that is an upper-case letter from A to Z, whatever the
random bytes are. -/
theorem C15_generated_id_is_five_capitals {S : Type} (r r2 : Registry S) (rand : Nat → Nat)
    (fuel : Nat) (id : String)
    (h : Registry.GenerateUniqueGameID r rand fuel = Blocking.returns (r2, some id)) :
    id.length = 5 ∧ ∀ c ∈ id.data, c ∈ Registry.letters.data ∧ 'A' ≤ c ∧ c ≤ 'Z' := by
  obtain ⟨_, h2⟩ := Registry.GenerateUniqueGameID_returns _ _ _ _ _ h
  obtain ⟨j, hj⟩ := (Registry.loop_some _ _ _ _ _ h2.symm).2
  subst hj
  refine ⟨Registry.candidate_length rand j, fun c hc => ?_⟩
  have hm := Registry.candidate_letters rand j c hc
  exact ⟨hm, Registry.letters_upper c hm⟩

/-- Witness of C15: the id drawn from the bytes 255, 254, 253, 252, 251. -/
theorem C15_witness :
    Registry.GenerateUniqueGameID (Registry.NewRegistry : Registry Nat)
        (fun n => 255 - n) 1
      = Blocking.returns (Registry.NewRegistry, some "VUTSR") ∧
    ("VUTSR" : String).length = 5 ∧
    ∀ c ∈ ("VUTSR" : String).data, c ∈ Registry.letters.data ∧ 'A' ≤ c ∧ c ≤ 'Z' :=
  ⟨rfl, C15_generated_id_is_five_capitals (Registry.NewRegistry : Registry Nat)
    Registry.NewRegistry (fun n => 255 - n) 1 "VUTSR" (by rfl)⟩

/-- C16 (counterexample). The byte values are not spread evenly over the 26 letters: ten
of them select the letter A and nine select the letter Z, so a candidate id is not uniform. -/
theorem C16_counterexample :
    ¬ (∀ k : Fin 26, ∀ j : Fin 26,
        (Registry.bytesFor k.val).length = (Registry.bytesFor j.val).length) ∧
    (Registry.bytesFor 0).length = 10 ∧ (Registry.bytesFor 25).length = 9 ∧
    Registry.letterOf 0 = 'A' ∧ Registry.letterOf 25 = 'Z' := by
  refine ⟨fun h => ?_, by decide, by decide, by decide, by decide⟩
  have := h 0 25
  revert this
  decide

/-- C16 (amended). Of the 256 byte values, ten select each of the letters of index 0..21
(A to V) and nine select each of the letters of index 22..25 (W to Z); every byte selects
the letter of index `b mod 26`. -/
theorem C16_letter_counts :
    (∀ k : Fin 26, (Registry.bytesFor k.val).length = if k.val < 22 then 10 else 9) ∧
    (∀ b : Fin 256, Registry.letterIndex b.val < 26 ∧
      b.val ∈ Registry.bytesFor (Registry.letterIndex b.val)) := by
  constructor
  · decide
  · intro b
    refine ⟨Nat.mod_lt _ (by decide), ?_⟩
    unfold Registry.bytesFor
    rw [List.mem_filter]
    exact ⟨List.mem_range.mpr b.isLt, by simp⟩

/-! ## The write loops on the outgoing channel -/

namespace Outgoing

theorem receive_written_le (Marshal : Response → Except String String) (c : Connection)
    (m : StateMessage) : (c.receive Marshal m).written.length ≤ c.written.length + 1 := by
  unfold Connection.receive
  cases WebSocketHandler.writeLoop.round Marshal c.userID m <;> simp

theorem handTo_written_le (Marshal : Response → Except String String) (m : StateMessage)
    (i : Nat) (cs : List Connection) :
    ((handTo Marshal m i cs).map (fun c => c.written.length)).sum
      ≤ (cs.map (fun c => c.written.length)).sum + 1 := by
  induction cs generalizing i with
  | nil => simp [handTo]
  | cons c rest ih =>
    cases i with
    | zero =>
      have := receive_written_le Marshal c m
      simp only [handTo, List.map_cons, List.sum_cons]
      omega
    | succ j =>
      have := ih j
      simp only [handTo, List.map_cons, List.sum_cons]
      omega

/-- A receive moves at most one message from the channel to one connection. -/
theorem step_written_le (Marshal : Response → Except String String) (o : Outgoing) (i : Nat) :
    (step Marshal o i).totalWritten + (step Marshal o i).outgoingChan.length
      ≤ o.totalWritten + o.outgoingChan.length := by
  obtain ⟨chan, cs⟩ := o
  cases chan with
  | nil => simp [step]
  | cons m rest =>
    unfold step
    simp only []
    split_ifs
    · have := handTo_written_le Marshal m i cs
      simp only [totalWritten, List.length_cons]
      omega
    · exact le_refl _

/-- All texts written come off the channel: the connections together never write more
texts than messages were sent. -/
theorem run_written_le (Marshal : Response → Except String String) (schedule : List Nat)
    (o : Outgoing) :
    (run Marshal o schedule).totalWritten + (run Marshal o schedule).outgoingChan.length
      ≤ o.totalWritten + o.outgoingChan.length := by
  induction schedule generalizing o with
  | nil => exact le_refl _
  | cons i rest ih =>
    have h1 := ih (step Marshal o i)
    have h2 := step_written_le Marshal o i
    simp only [run, List.foldl_cons] at h1 ⊢
    omega

/-- On an empty channel every receive waits. -/
theorem run_empty (Marshal : Response → Except String String) (schedule : List Nat)
    (o : Outgoing) (h : o.outgoingChan = []) : run Marshal o schedule = o := by
  induction schedule with
  | nil => rfl
  | cons i rest ih =>
    have hs : step Marshal o i = o := by
      unfold step
      rw [h]
    simp only [run, List.foldl_cons, hs]
    exact ih

end Outgoing

/-- C17. The write loop of the connection of `u` passes a received message `m` to the
transport exactly when `m.PlayerID` is empty or equals `u` and `json.Marshal` gives its text;
so, `json.Marshal` succeeding as it does on the responses of the backend, exactly when
`m.PlayerID` is empty or equals `u`; and a message addressed to another player is never
written to the connection of `u`. -/
theorem C17_write_loop_writes_iff_addressed (Marshal : Response → Except String String)
    (u : String) (m : StateMessage) :
    (∀ text, WebSocketHandler.writeLoop.round Marshal u m = some text ↔
      ((m.PlayerID = "" ∨ m.PlayerID = u) ∧ Marshal m.Response = Except.ok text)) ∧
    ((∃ text, Marshal m.Response = Except.ok text) →
      ((WebSocketHandler.writeLoop.round Marshal u m).isSome = true ↔
        (m.PlayerID = "" ∨ m.PlayerID = u))) ∧
    (m.PlayerID ≠ "" → m.PlayerID ≠ u → WebSocketHandler.writeLoop.round Marshal u m = none) := by
  refine ⟨?_, ?_, ?_⟩
  · intro text
    unfold WebSocketHandler.writeLoop.round
    by_cases h : m.PlayerID = "" ∨ m.PlayerID = u
    · simp only [if_pos h, h, true_and]
      cases Marshal m.Response with
      | error e => simp
      | ok j => simp
    · simp [if_neg h, h]
  · rintro ⟨text, ht⟩
    unfold WebSocketHandler.writeLoop.round
    by_cases h : m.PlayerID = "" ∨ m.PlayerID = u
    · simp [if_pos h, h, ht]
    · simp [if_neg h, h]
  · intro h1 h2
    unfold WebSocketHandler.writeLoop.round
    rw [if_neg (by rintro (h | h); exact h1 h; exact h2 h)]

/-- Witness of C17: the connection of `user-a` writes a broadcast and skips an error for
`user-b`. -/
theorem C17_witness :
    (∃ text, demoMarshal demoBroadcast.Response = Except.ok text) ∧
    ((WebSocketHandler.writeLoop.round demoMarshal "user-a" demoBroadcast).isSome = true ↔
      (demoBroadcast.PlayerID = "" ∨ demoBroadcast.PlayerID = "user-a")) ∧
    demoErrorForB.PlayerID ≠ "" ∧ demoErrorForB.PlayerID ≠ "user-a" ∧
    WebSocketHandler.writeLoop.round demoMarshal "user-a" demoErrorForB = none :=
  ⟨⟨_, rfl⟩,
   (C17_write_loop_writes_iff_addressed demoMarshal "user-a" demoBroadcast).2.1 ⟨_, rfl⟩,
   by decide, by decide,
   (C17_write_loop_writes_iff_addressed demoMarshal "user-a" demoErrorForB).2.2
     (by decide) (by decide)⟩

/-- C18 (the code at the failing input). With the connections of `user-a` and `user-b` on
one session and one broadcast on its outgoing channel, in whatever order the two write loops
run, at most one text is written in all: the broadcast reaches one connection, not both. -/
theorem C18_broadcast_reaches_one_connection_only
    (Marshal : Response → Except String String) (schedule : List Nat) :
    (Outgoing.run Marshal { outgoingChan := [demoBroadcast], connections := twoConnections }
      schedule).totalWritten ≤ 1 ∧
    (Outgoing.run demoMarshal { outgoingChan := [demoBroadcast], connections := twoConnections }
      [0, 1]).connections.map (fun c => (c.userID, c.written))
      = [("user-a", ["session_state"]), ("user-b", [])] := by
  constructor
  · have := Outgoing.run_written_le Marshal schedule
      { outgoingChan := [demoBroadcast], connections := twoConnections }
    have h0 : (Outgoing.totalWritten
        { outgoingChan := [demoBroadcast], connections := twoConnections }) = 0 := rfl
    simp only [h0, List.length_singleton] at this
    omega
  · rfl

/-- C19 (the code at the failing input). With the connections of `user-a` and `user-b` on
one session and an error addressed to `user-b` on its outgoing channel: when the write loop
of `user-a` receives it first, it is dropped, the channel is empty, and whatever happens next
neither connection writes anything, so `user-b` never gets the error. When the loop of
`user-b` receives it first, `user-b` does get it. -/
theorem C19_error_for_b_is_lost_when_a_receives_it
    (Marshal : Response → Except String String) (schedule : List Nat) :
    Outgoing.run Marshal { outgoingChan := [demoErrorForB], connections := twoConnections }
        (0 :: schedule)
      = { outgoingChan := [], connections := twoConnections } ∧
    (Outgoing.run demoMarshal { outgoingChan := [demoErrorForB], connections := twoConnections }
      [1, 0]).connections.map (fun c => (c.userID, c.written))
      = [("user-a", []), ("user-b", ["error"])] := by
  constructor
  · have hs : Outgoing.step Marshal
        { outgoingChan := [demoErrorForB], connections := twoConnections } 0
        = { outgoingChan := [], connections := twoConnections } := rfl
    simp only [Outgoing.run, List.foldl_cons, hs]
    exact Outgoing.run_empty Marshal schedule _ rfl
  · rfl

/-! ## The clock is never observed -/

namespace GoMap
variable {κ ν ρ : Type} [DecidableEq κ]

theorem lookup_mapValues (f : ν → ρ) (k : κ) (l : List (κ × ν)) :
    lookup k (l.map (fun e => (e.1, f e.2))) = (lookup k l).map f := by
  induction l with
  | nil => rfl
  | cons e rest ih =>
    simp only [List.map_cons, lookup]
    split_ifs
    · rfl
    · exact ih

theorem get?_mapValues (f : ν → ρ) (m : GoMap κ ν) (k : κ) :
    (m.mapValues f).get? k = (m.get? k).map f :=
  lookup_mapValues f k m.entries

theorem delete_mapValues (f : ν → ρ) (m : GoMap κ ν) (k : κ) :
    (m.mapValues f).delete k = (m.delete k).mapValues f := by
  simp only [delete, mapValues, List.filter_map]
  rfl

theorem set_mapValues (f : ν → ρ) (m : GoMap κ ν) (k : κ) (v : ν) :
    (m.mapValues f).set k (f v) = (m.set k v).mapValues f := by
  simp only [set, delete_mapValues]
  rfl

end GoMap

namespace PlayerPositionMapping

theorem noClock_get? (m : PlayerPositionMapping) (p : Int) :
    m.noClock.slots.get? p = (m.slots.get? p).map PlayerSlot.noClock :=
  GoMap.get?_mapValues _ _ _

theorem noClock_joinPosition (w : World) (m : PlayerPositionMapping) (userID : String)
    (position : Int) :
    joinPosition w.noClock m.noClock userID position
      = ((joinPosition w m userID position).1.noClock, (joinPosition w m userID position).2) := by
  by_cases h1 : position < 0 ∨ position ≥ m.maxPlayers
  · have h1b : position < 0 ∨ position ≥ m.noClock.maxPlayers := h1
    simp only [joinPosition, if_pos h1, if_pos h1b]
    rfl
  · have h1b : ¬ (position < 0 ∨ position ≥ m.noClock.maxPlayers) := h1
    have hu : m.noClock.userToPos = m.userToPos := rfl
    simp only [joinPosition, if_neg h1, if_neg h1b, hu]
    cases m.userToPos.get? userID with
    | some ex =>
      simp only []
      split_ifs <;> rfl
    | none =>
      simp only [noClock_get?, Option.isSome_map']
      split_ifs
      · rfl
      · simp only [Prod.mk.injEq, and_true]
        show _ = PlayerPositionMapping.noClock _
        simp only [noClock, ← GoMap.set_mapValues]
        rfl

theorem noClock_leavePosition (m : PlayerPositionMapping) (userID : String) :
    leavePosition m.noClock userID
      = ((leavePosition m userID).1.noClock, (leavePosition m userID).2) := by
  have hu : m.noClock.userToPos = m.userToPos := rfl
  simp only [leavePosition, hu]
  cases m.userToPos.get? userID with
  | none => rfl
  | some position =>
    simp only [Prod.mk.injEq, and_true]
    show _ = PlayerPositionMapping.noClock _
    simp only [noClock, GoMap.delete_mapValues]

theorem noClock_removeAI (m : PlayerPositionMapping) (position : Int) :
    removeAI m.noClock position
      = ((removeAI m position).1.noClock, (removeAI m position).2) := by
  by_cases h1 : position < 0 ∨ position ≥ m.maxPlayers
  · have h1b : position < 0 ∨ position ≥ m.noClock.maxPlayers := h1
    simp only [removeAI, if_pos h1, if_pos h1b]
    rfl
  · have h1b : ¬ (position < 0 ∨ position ≥ m.noClock.maxPlayers) := h1
    simp only [removeAI, if_neg h1, if_neg h1b, noClock_get?]
    cases m.slots.get? position with
    | none => rfl
    | some slot =>
      simp only [Option.map_some']
      have hi : slot.noClock.IsAI = slot.IsAI := rfl
      have hid : slot.noClock.UserID = slot.UserID := rfl
      simp only [hi, hid]
      split_ifs
      · simp only [Prod.mk.injEq, and_true]
        show _ = PlayerPositionMapping.noClock _
        simp only [noClock, GoMap.delete_mapValues]
      · rfl

theorem noClock_generateAIName (w : World) (m : PlayerPositionMapping) :
    generateAIName w.noClock m.noClock = generateAIName w m := by
  have hused : m.noClock.slots.entries.filterMap (fun e =>
        if e.2.IsAI ∧ strings.HasPrefix e.2.DisplayName "AI-" then
          some (strings.TrimPrefix e.2.DisplayName "AI-")
        else none)
      = m.slots.entries.filterMap (fun e =>
        if e.2.IsAI ∧ strings.HasPrefix e.2.DisplayName "AI-" then
          some (strings.TrimPrefix e.2.DisplayName "AI-")
        else none) := by
    show (m.slots.entries.map _).filterMap _ = _
    rw [List.filterMap_map]
    rfl
  unfold generateAIName
  simp only [hused]
  rfl

theorem noClock_addAI (w : World) (m : PlayerPositionMapping) (position : Int)
    (aiType : String) :
    addAI w.noClock m.noClock position aiType
      = (addAI w m position aiType).map (fun r => (r.1.noClock, r.2)) := by
  by_cases h1 : position < 0 ∨ position ≥ m.maxPlayers
  · have h1b : position < 0 ∨ position ≥ m.noClock.maxPlayers := h1
    simp only [addAI, if_pos h1, if_pos h1b]
    rfl
  · have h1b : ¬ (position < 0 ∨ position ≥ m.noClock.maxPlayers) := h1
    simp only [addAI, if_neg h1, if_neg h1b, noClock_get?, Option.isSome_map',
      noClock_generateAIName]
    split_ifs
    · rfl
    · cases generateAIName w m with
      | error e => rfl
      | ok name =>
        simp only [bind, Except.bind, pure, Except.pure, Except.map]
        congr 1
        simp only [Prod.mk.injEq, and_true]
        show _ = PlayerPositionMapping.noClock _
        simp only [noClock, ← GoMap.set_mapValues]
        rfl

theorem noClock_HandleSessionEvent (w : World) (m : PlayerPositionMapping) (userID : String)
    (request : Request) :
    HandleSessionEvent w.noClock m.noClock userID request
      = (HandleSessionEvent w m userID request).map (fun r => (r.1.noClock, r.2)) := by
  unfold HandleSessionEvent
  split_ifs
  · cases request.float64Param "position" with
    | none => rfl
    | some v =>
      simp only [noClock_joinPosition]
      rfl
  · simp only [noClock_leavePosition]
    rfl
  · cases request.float64Param "position" with
    | none => rfl
    | some v =>
      cases request.stringParam "ai_type" with
      | none => rfl
      | some t => exact noClock_addAI _ _ _ _
  · cases request.float64Param "position" with
    | none => rfl
    | some v =>
      simp only [noClock_removeAI]
      rfl
  · rfl

theorem noClock_step (m : PlayerPositionMapping) (acc : GoMap Int (Option PlayerInfo))
    (pos : Int) : buildSessionState.step m.noClock acc pos = buildSessionState.step m acc pos := by
  simp only [buildSessionState.step, noClock_get?]
  cases m.slots.get? pos <;> rfl

theorem noClock_GetSessionStateForAll (m : PlayerPositionMapping) :
    GetSessionStateForAll m.noClock = GetSessionStateForAll m := by
  have hb : buildSessionState m.noClock = buildSessionState m := by
    unfold buildSessionState
    simp only [noClock_step]
    rfl
  simp only [GetSessionStateForAll, hb]

end PlayerPositionMapping


namespace GameSession

/-- Handling an action commutes with forgetting the clock: `LastSeen` is stored, and read
by nothing that decides or is sent. -/
theorem noClock_handleAction {σ : Type} (G : Game σ) (w : World)
    (s : GameSession σ PlayerPositionMapping) (msg : ActionMessage) :
    handleAction G PlayerPositionMapping.asPlayerMapping w.noClock s.noClock msg
      = (handleAction G PlayerPositionMapping.asPlayerMapping w s msg).map
          (fun r => (r.1.noClock, r.2)) := by
  have hev : PlayerPositionMapping.asPlayerMapping.HandleSessionEvent w.noClock
      s.noClock.playerMapping msg.PlayerID msg.Request
      = (PlayerPositionMapping.asPlayerMapping.HandleSessionEvent w s.playerMapping
          msg.PlayerID msg.Request).map (fun r => (r.1.noClock, r.2)) :=
    PlayerPositionMapping.noClock_HandleSessionEvent _ _ _ _
  have hst : ∀ pm : PlayerPositionMapping,
      PlayerPositionMapping.asPlayerMapping.GetSessionStateForAll pm.noClock
        = PlayerPositionMapping.asPlayerMapping.GetSessionStateForAll pm :=
    PlayerPositionMapping.noClock_GetSessionStateForAll
  have hg : s.noClock.game = s.game := rfl
  by_cases h1 : msg.Request.RequestType = RequestTypeSession
  · rw [handleAction_session _ _ _ _ msg h1, handleAction_session _ _ _ _ msg h1, hev]
    cases PlayerPositionMapping.asPlayerMapping.HandleSessionEvent w s.playerMapping
        msg.PlayerID msg.Request with
    | error e => rfl
    | ok r =>
      obtain ⟨pm, err⟩ := r
      cases err with
      | some e => rfl
      | none =>
        simp only [Except.map, hst]
        rfl
  · by_cases h2 : msg.Request.RequestType = RequestTypeAI
    · rw [handleAction_ai _ _ _ _ msg h2, handleAction_ai _ _ _ _ msg h2, hev, hg]
      cases msg.Request.stringParam "ai_type" with
      | none => rfl
      | some t =>
        simp only []
        split_ifs
        · rfl
        · cases PlayerPositionMapping.asPlayerMapping.HandleSessionEvent w s.playerMapping
              msg.PlayerID msg.Request with
          | error e => rfl
          | ok r =>
            obtain ⟨pm, err⟩ := r
            cases err with
            | some e => rfl
            | none =>
              simp only [Except.map, hst]
              rfl
    · by_cases h3 : msg.Request.RequestType = RequestTypeGame
      · rw [handleAction_game _ _ _ _ msg h3, handleAction_game _ _ _ _ msg h3, hg]
        have hp : PlayerPositionMapping.asPlayerMapping.GetPlayerPosition
            s.noClock.playerMapping msg.PlayerID
            = PlayerPositionMapping.asPlayerMapping.GetPlayerPosition s.playerMapping
                msg.PlayerID := rfl
        rw [hp]
        cases PlayerPositionMapping.asPlayerMapping.GetPlayerPosition s.playerMapping
            msg.PlayerID with
        | mk pos ok =>
          cases ok with
          | false => rfl
          | true =>
            simp only []
            cases G.HandleAction s.game pos msg.Request with
            | error e => rfl
            | ok r =>
              obtain ⟨g, err⟩ := r
              cases err <;> rfl
      · have hv := (isValid_false_iff _).mpr ⟨h1, h2, h3⟩
        rw [handleAction_unknown _ _ _ _ msg hv, handleAction_unknown _ _ _ _ msg hv]
        rfl

theorem noClock_runActions {σ : Type} (G : Game σ) (l : List (World × ActionMessage))
    (s : GameSession σ PlayerPositionMapping) :
    runActions G PlayerPositionMapping.asPlayerMapping s.noClock (l.map noClockAction)
      = (runActions G PlayerPositionMapping.asPlayerMapping s l).map
          (fun r => (r.1.noClock, r.2)) := by
  induction l generalizing s with
  | nil => rfl
  | cons a rest ih =>
    obtain ⟨w, msg⟩ := a
    simp only [List.map_cons, noClockAction, runActions, noClock_handleAction]
    cases handleAction G PlayerPositionMapping.asPlayerMapping w s msg with
    | error e => rfl
    | ok r =>
      obtain ⟨s1, out1⟩ := r
      simp only [Except.map, bind, Except.bind]
      have := ih s1
      simp only [noClockAction] at this
      rw [this]
      cases runActions G PlayerPositionMapping.asPlayerMapping s1 rest with
      | error e => rfl
      | ok r2 => rfl

theorem sentBy_noClock {σ : Type}
    (r : Go (GameSession σ PlayerPositionMapping × List StateMessage)) :
    sentBy (r.map (fun r => (r.1.noClock, r.2))) = sentBy r := by
  cases r with
  | error e => rfl
  | ok v => rfl

end GameSession

/-! ## Two runs of one action sequence -/

/-- With the tic-tac-toe game and the position mapping, the loop returns on every sequence
of actions. -/
theorem GameSession.runActions_total (l : List (World × ActionMessage))
    (s : GameSession TicTacToeGame PlayerPositionMapping) :
    ∃ s2 out, GameSession.runActions TicTacToeGame.asGame
      PlayerPositionMapping.asPlayerMapping s l = Except.ok (s2, out) := by
  induction l generalizing s with
  | nil => exact ⟨s, [], rfl⟩
  | cons a rest ih =>
    obtain ⟨w, msg⟩ := a
    obtain ⟨s1, out1, h1⟩ := GameSession.handleAction_total w s msg
    obtain ⟨s2, out2, h2⟩ := ih s1
    exact ⟨s2, out1 ++ out2, by
      simp only [GameSession.runActions, h1, h2, bind, Except.bind, pure, Except.pure]⟩

/-- C20 (counterexample). The one accepted action `add_ai` at seat 0, handled from the same
new session in two runs that differ in the random draw only, is broadcast with the AI name
`AI-carol` in one run and `AI-bob` in the other. -/
theorem C20_counterexample :
    GameSession.rejects TicTacToeGame.asGame PlayerPositionMapping.asPlayerMapping demoWorld
      demoSession addAIAction = false ∧
    GameSession.rejects TicTacToeGame.asGame PlayerPositionMapping.asPlayerMapping
      otherDrawWorld demoSession addAIAction = false ∧
    (sentBy (GameSession.runActions TicTacToeGame.asGame PlayerPositionMapping.asPlayerMapping
        demoSession [(demoWorld, addAIAction)])).map broadcasts
      ≠ (sentBy (GameSession.runActions TicTacToeGame.asGame
        PlayerPositionMapping.asPlayerMapping demoSession
        [(otherDrawWorld, addAIAction)])).map broadcasts ∧
    (sentBy (GameSession.runActions TicTacToeGame.asGame PlayerPositionMapping.asPlayerMapping
        demoSession [(demoWorld, addAIAction)])).map
        (fun out => (broadcasts out).map (seatName 0)) = some [some "AI-carol"] ∧
    (sentBy (GameSession.runActions TicTacToeGame.asGame PlayerPositionMapping.asPlayerMapping
        demoSession [(otherDrawWorld, addAIAction)])).map
        (fun out => (broadcasts out).map (seatName 0)) = some [some "AI-bob"] := by
  refine ⟨by decide, by decide, fun h => ?_, by decide, by decide⟩
  have h2 := congrArg (Option.map (List.map (seatName 0))) h
  revert h2
  decide

/-- C20 (amended). Two runs that handle the same actions in the same order from the same
session, in worlds that are equal but for the clock (same random draws for the AI names, same
AI name table, same display names), send the same messages, hence the same broadcasts; and
each run returns. -/
theorem C20_same_draws_give_same_broadcasts
    (s : GameSession TicTacToeGame PlayerPositionMapping)
    (l1 l2 : List (World × ActionMessage))
    (h : l1.map noClockAction = l2.map noClockAction) :
    (∃ out,
      sentBy (GameSession.runActions TicTacToeGame.asGame
        PlayerPositionMapping.asPlayerMapping s l1) = some out ∧
      sentBy (GameSession.runActions TicTacToeGame.asGame
        PlayerPositionMapping.asPlayerMapping s l2) = some out) ∧
    (sentBy (GameSession.runActions TicTacToeGame.asGame
        PlayerPositionMapping.asPlayerMapping s l1)).map broadcasts
      = (sentBy (GameSession.runActions TicTacToeGame.asGame
        PlayerPositionMapping.asPlayerMapping s l2)).map broadcasts := by
  have key : sentBy (GameSession.runActions TicTacToeGame.asGame
        PlayerPositionMapping.asPlayerMapping s l1)
      = sentBy (GameSession.runActions TicTacToeGame.asGame
        PlayerPositionMapping.asPlayerMapping s l2) := by
    rw [← GameSession.sentBy_noClock (GameSession.runActions _ _ s l1),
      ← GameSession.sentBy_noClock (GameSession.runActions _ _ s l2),
      ← GameSession.noClock_runActions, ← GameSession.noClock_runActions, h]
  obtain ⟨s2, out, ho⟩ := GameSession.runActions_total l1 s
  have h1 : sentBy (GameSession.runActions TicTacToeGame.asGame
      PlayerPositionMapping.asPlayerMapping s l1) = some out := by rw [ho]; rfl
  exact ⟨⟨out, h1, key ▸ h1⟩, by rw [key]⟩

/-- Witness of C20: the same `add_ai` handled at two different times with the same draw. -/
theorem C20_witness :
    [(demoWorld, addAIAction)].map noClockAction = [(laterWorld, addAIAction)].map noClockAction ∧
    (sentBy (GameSession.runActions TicTacToeGame.asGame
        PlayerPositionMapping.asPlayerMapping demoSession [(demoWorld, addAIAction)])).map
        broadcasts
      = (sentBy (GameSession.runActions TicTacToeGame.asGame
        PlayerPositionMapping.asPlayerMapping demoSession [(laterWorld, addAIAction)])).map
        broadcasts :=
  ⟨rfl, (C20_same_draws_give_same_broadcasts demoSession [(demoWorld, addAIAction)]
    [(laterWorld, addAIAction)] rfl).2⟩

/-! ## The session actor -/

namespace SessionActor
variable {σ μ : Type}

/-- What one event does, case by case. -/
theorem step_cases (G : Game σ) (P : PlayerMapping μ) (x y : SessionActor σ μ)
    (e : ActorEvent) (h : step G P x e = some y) :
    (∃ a, e = ActorEvent.submit a ∧ x.panicked = none ∧
        x.actionChan.length < actionChanCapacity ∧
        y = { x with actionChan := x.actionChan ++ [a], submitted := x.submitted ++ [a] }) ∨
    (∃ w action rest, e = ActorEvent.receive w ∧ x.panicked = none ∧ x.doneClosed = false ∧
        x.actionChan = action :: rest ∧ y.actionChan = rest ∧
        y.handled = x.handled ++ [action] ∧ y.submitted = x.submitted ∧
        y.doneClosed = x.doneClosed ∧ y.quitClosed = x.quitClosed ∧
        ((∃ s out, GameSession.handleAction G P w x.session action = Except.ok (s, out) ∧
            y.session = s ∧ y.outgoing = x.outgoing ++ out ∧ y.panicked = none) ∨
          (∃ p, GameSession.handleAction G P w x.session action = Except.error p ∧
            y.session = x.session ∧ y.outgoing = x.outgoing ∧ y.panicked = some p))) ∨
    (e = ActorEvent.closeQuit ∧ x.panicked = none ∧
        ((x.quitClosed = true ∧
            y = { x with panicked := some GoPanic.closeOfClosedChannel }) ∨
          (x.quitClosed = false ∧ y = { x with quitClosed := true }))) ∨
    (e = ActorEvent.quit ∧ x.panicked = none ∧ x.doneClosed = false ∧ x.quitClosed = true ∧
        y = { x with doneClosed := true }) := by
  cases e with
  | submit a =>
    left
    simp only [step] at h
    split_ifs at h with h1 h2
    have hpn : x.panicked = none := by
      cases hx : x.panicked with
      | none => rfl
      | some p => simp [hx] at h1
    exact ⟨a, rfl, hpn, h2, (Option.some.inj h).symm⟩
  | receive w =>
    right; left
    simp only [step] at h
    split_ifs at h with h1
    have hpn : x.panicked = none := by
      cases hx : x.panicked with
      | none => rfl
      | some p => simp [hx] at h1
    have hd : x.doneClosed = false := by
      cases hx : x.doneClosed with
      | false => rfl
      | true => simp [hx] at h1
    cases hq : x.actionChan with
    | nil => simp [hq] at h
    | cons action rest =>
      simp only [hq] at h
      cases hh : GameSession.handleAction G P w x.session action with
      | error p =>
        simp only [hh] at h
        have hy := (Option.some.inj h).symm
        subst hy
        exact ⟨w, action, rest, rfl, hpn, hd, rfl, rfl, rfl, rfl, rfl, rfl,
          Or.inr ⟨p, hh, rfl, rfl, rfl⟩⟩
      | ok r =>
        obtain ⟨s, out⟩ := r
        simp only [hh] at h
        have hy := (Option.some.inj h).symm
        subst hy
        exact ⟨w, action, rest, rfl, hpn, hd, rfl, rfl, rfl, rfl, rfl, rfl,
          Or.inl ⟨s, out, hh, rfl, rfl, hpn⟩⟩
  | closeQuit =>
    right; right; left
    simp only [step] at h
    split_ifs at h with h1 h2
    · have hpn : x.panicked = none := by
        cases hx : x.panicked with
        | none => rfl
        | some p => simp [hx] at h1
      exact ⟨rfl, hpn, Or.inl ⟨h2, (Option.some.inj h).symm⟩⟩
    · have hpn : x.panicked = none := by
        cases hx : x.panicked with
        | none => rfl
        | some p => simp [hx] at h1
      exact ⟨rfl, hpn, Or.inr ⟨by simpa using h2, (Option.some.inj h).symm⟩⟩
  | quit =>
    right; right; right
    simp only [step] at h
    split_ifs at h with h1 h2
    have hpn : x.panicked = none := by
      cases hx : x.panicked with
      | none => rfl
      | some p => simp [hx] at h1
    have hd : x.doneClosed = false := by
      cases hx : x.doneClosed with
      | false => rfl
      | true => simp [hx] at h1
    exact ⟨rfl, hpn, hd, h2, (Option.some.inj h).symm⟩

/-- The actions handled, followed by the actions waiting, are the actions submitted; and
never more than 16 are waiting. -/
theorem step_fifo (G : Game σ) (P : PlayerMapping μ) (x y : SessionActor σ μ)
    (e : ActorEvent) (h : step G P x e = some y)
    (hx : x.handled ++ x.actionChan = x.submitted ∧ x.actionChan.length ≤ actionChanCapacity) :
    y.handled ++ y.actionChan = y.submitted ∧ y.actionChan.length ≤ actionChanCapacity := by
  obtain ⟨h1, h2⟩ := hx
  rcases step_cases G P x y e h with ⟨a, _, _, hl, hy⟩ |
      ⟨w, action, rest, _, _, _, hq, hyq, hyh, hys, _, _, _⟩ | ⟨_, _, hc⟩ | ⟨_, _, _, _, hy⟩
  · subst hy
    simp only [List.length_append, List.length_singleton]
    exact ⟨by rw [← List.append_assoc, h1], hl⟩
  · rw [hyq, hyh, hys, ← h1, hq]
    rw [hq] at h2
    simp only [List.length_cons] at h2
    exact ⟨by simp, by omega⟩
  · rcases hc with ⟨_, hy⟩ | ⟨_, hy⟩ <;> subst hy <;> exact ⟨h1, h2⟩
  · subst hy
    exact ⟨h1, h2⟩

theorem run_fifo (G : Game σ) (P : PlayerMapping μ) (events : List ActorEvent)
    (x : SessionActor σ μ)
    (hx : x.handled ++ x.actionChan = x.submitted ∧ x.actionChan.length ≤ actionChanCapacity) :
    (run G P x events).handled ++ (run G P x events).actionChan = (run G P x events).submitted ∧
      (run G P x events).actionChan.length ≤ actionChanCapacity := by
  induction events generalizing x with
  | nil => exact hx
  | cons e rest ih =>
    simp only [run, List.foldl_cons]
    cases hs : step G P x e with
    | none => exact ih x hx
    | some y => exact ih y (step_fifo G P x y e hs hx)

/-- Once `Run` has returned, no event sends a message or touches the session. -/
theorem step_after_done (G : Game σ) (P : PlayerMapping μ) (x y : SessionActor σ μ)
    (e : ActorEvent) (h : step G P x e = some y) (hd : x.doneClosed = true) :
    y.doneClosed = true ∧ y.outgoing = x.outgoing ∧ y.session = x.session ∧
      y.handled = x.handled := by
  rcases step_cases G P x y e h with ⟨a, _, _, _, hy⟩ |
      ⟨w, action, rest, _, _, hf, _⟩ | ⟨_, _, hc⟩ | ⟨_, _, hf, _, _⟩
  · subst hy; exact ⟨hd, rfl, rfl, rfl⟩
  · rw [hd] at hf; exact Bool.noConfusion hf
  · rcases hc with ⟨_, hy⟩ | ⟨_, hy⟩ <;> subst hy <;> exact ⟨hd, rfl, rfl, rfl⟩
  · rw [hd] at hf; exact Bool.noConfusion hf

theorem run_after_done (G : Game σ) (P : PlayerMapping μ) (events : List ActorEvent)
    (x : SessionActor σ μ) (hd : x.doneClosed = true) :
    (run G P x events).doneClosed = true ∧ (run G P x events).outgoing = x.outgoing ∧
      (run G P x events).session = x.session ∧ (run G P x events).handled = x.handled := by
  induction events generalizing x with
  | nil => exact ⟨hd, rfl, rfl, rfl⟩
  | cons e rest ih =>
    simp only [run, List.foldl_cons]
    cases hs : step G P x e with
    | none => exact ih x hd
    | some y =>
      obtain ⟨h1, h2, h3, h4⟩ := step_after_done G P x y e hs hd
      obtain ⟨k1, k2, k3, k4⟩ := ih y h1
      exact ⟨k1, k2.trans h2, k3.trans h3, k4.trans h4⟩

end SessionActor

namespace SessionActor
variable {σ μ : Type}

/-- With `Run` returned and 16 actions waiting, nothing changes the queue any more. -/
theorem step_full_after_done (G : Game σ) (P : PlayerMapping μ) (x y : SessionActor σ μ)
    (e : ActorEvent) (h : step G P x e = some y) (hd : x.doneClosed = true)
    (hf : x.actionChan.length = actionChanCapacity) :
    y.doneClosed = true ∧ y.actionChan = x.actionChan := by
  rcases step_cases G P x y e h with ⟨a, _, _, hl, _⟩ |
      ⟨w, action, rest, _, _, hn, _⟩ | ⟨_, _, hc⟩ | ⟨_, _, hn, _, _⟩
  · omega
  · rw [hd] at hn; exact Bool.noConfusion hn
  · rcases hc with ⟨_, hy⟩ | ⟨_, hy⟩ <;> subst hy <;> exact ⟨hd, rfl⟩
  · rw [hd] at hn; exact Bool.noConfusion hn

theorem run_full_after_done (G : Game σ) (P : PlayerMapping μ) (events : List ActorEvent)
    (x : SessionActor σ μ) (hd : x.doneClosed = true)
    (hf : x.actionChan.length = actionChanCapacity) :
    (run G P x events).doneClosed = true ∧ (run G P x events).actionChan = x.actionChan := by
  induction events generalizing x with
  | nil => exact ⟨hd, rfl⟩
  | cons e rest ih =>
    simp only [run, List.foldl_cons]
    cases hs : step G P x e with
    | none => exact ih x hd hf
    | some y =>
      obtain ⟨h1, h2⟩ := step_full_after_done G P x y e hs hd hf
      obtain ⟨k1, k2⟩ := ih y h1 (by rw [h2]; exact hf)
      exact ⟨k1, k2.trans h2⟩

/-- A send on the full `actionChan` cannot complete. -/
theorem submit_full (G : Game σ) (P : PlayerMapping μ) (x : SessionActor σ μ)
    (a : ActionMessage) (hf : x.actionChan.length = actionChanCapacity) :
    step G P x (ActorEvent.submit a) = none := by
  simp only [step]
  split_ifs with h1 h2
  · rfl
  · omega
  · rfl

/-- With `Run` returned and 16 actions waiting, a submission never completes. -/
theorem blocked_forever (G : Game σ) (P : PlayerMapping μ) (x : SessionActor σ μ)
    (hd : x.doneClosed = true) (hf : x.actionChan.length = actionChanCapacity)
    (events : List ActorEvent) (a : ActionMessage) :
    step G P (run G P x events) (ActorEvent.submit a) = none := by
  obtain ⟨_, h2⟩ := run_full_after_done G P events x hd hf
  exact submit_full G P _ a (by rw [h2]; exact hf)

/-- The submissions that complete are the first ones, as many as the queue has room for. -/
theorem run_submits (G : Game σ) (P : PlayerMapping μ) (as : List ActionMessage)
    (x : SessionActor σ μ) (hp : x.panicked = none) :
    (run G P x (as.map ActorEvent.submit)).panicked = none ∧
    (run G P x (as.map ActorEvent.submit)).actionChan
      = x.actionChan ++ as.take (actionChanCapacity - x.actionChan.length) ∧
    (run G P x (as.map ActorEvent.submit)).submitted
      = x.submitted ++ as.take (actionChanCapacity - x.actionChan.length) ∧
    (run G P x (as.map ActorEvent.submit)).outgoing = x.outgoing := by
  induction as generalizing x with
  | nil => simp [run, hp]
  | cons a rest ih =>
    simp only [List.map_cons, run, List.foldl_cons]
    by_cases hl : x.actionChan.length < actionChanCapacity
    · have hs : step G P x (ActorEvent.submit a)
          = some { x with actionChan := x.actionChan ++ [a],
                          submitted := x.submitted ++ [a] } := by
        simp [step, hp, hl]
      rw [hs]
      simp only [Option.getD_some]
      obtain ⟨k1, k2, k3, k4⟩ := ih
        { x with actionChan := x.actionChan ++ [a], submitted := x.submitted ++ [a] } hp
      simp only [run] at k1 k2 k3 k4
      refine ⟨k1, ?_, ?_, k4⟩
      · rw [k2]
        simp only [List.length_append, List.length_singleton, List.append_assoc,
          List.singleton_append]
        have : actionChanCapacity - x.actionChan.length
            = (actionChanCapacity - (x.actionChan.length + 1)) + 1 := by omega
        rw [this, List.take_succ_cons]
      · rw [k3]
        simp only [List.length_append, List.length_singleton, List.append_assoc,
          List.singleton_append]
        have : actionChanCapacity - x.actionChan.length
            = (actionChanCapacity - (x.actionChan.length + 1)) + 1 := by omega
        rw [this, List.take_succ_cons]
    · have hs : step G P x (ActorEvent.submit a) = none := by
        simp [step, hp, hl]
      rw [hs]
      simp only [Option.getD_none]
      have hz : actionChanCapacity - x.actionChan.length = 0 := by omega
      obtain ⟨k1, k2, k3, k4⟩ := ih x hp
      simp only [run, hz, List.take_zero] at k1 k2 k3 k4 ⊢
      exact ⟨k1, k2, k3, k4⟩

end SessionActor

/-- C21. In every run of a new session, the actions `Run` has passed to `handleAction`,
followed by the actions still waiting in the action channel, are exactly the actions whose
submission completed, in order: the handled actions are a prefix of the submitted ones, so
none is handled before an earlier one, twice, or skipped. -/
theorem C21_actions_are_handled_in_submission_order {σ μ : Type} (G : Game σ)
    (P : PlayerMapping μ) (gameID : String) (game : σ) (playerMapping : μ)
    (events : List ActorEvent) :
    (SessionActor.run G P (SessionActor.NewGameSession gameID game playerMapping) events).handled
        ++ (SessionActor.run G P (SessionActor.NewGameSession gameID game playerMapping)
            events).actionChan
      = (SessionActor.run G P (SessionActor.NewGameSession gameID game playerMapping)
          events).submitted ∧
    (SessionActor.run G P (SessionActor.NewGameSession gameID game playerMapping) events).handled
      <+: (SessionActor.run G P (SessionActor.NewGameSession gameID game playerMapping)
          events).submitted := by
  have h := (SessionActor.run_fifo G P events
    (SessionActor.NewGameSession gameID game playerMapping) ⟨rfl, Nat.zero_le _⟩).1
  exact ⟨h, ⟨_, h⟩⟩

/-- C22. Once `Shutdown` has returned, whatever happens next (actions still waiting in the
queue, new submissions, attempts of the loop), the messages sent on the outgoing channel stay
the ones sent before, and no further action is handled. -/
theorem C22_nothing_is_sent_after_shutdown {σ μ : Type} (G : Game σ) (P : PlayerMapping μ)
    (x : SessionActor σ μ) (h : SessionActor.ShutdownReturned x) (events : List ActorEvent) :
    (SessionActor.run G P x events).outgoing = x.outgoing ∧
      (SessionActor.run G P x events).handled = x.handled ∧
      (SessionActor.run G P x events).session = x.session := by
  obtain ⟨_, h2, h3, h4⟩ := SessionActor.run_after_done G P events x h.2
  exact ⟨h2, h4, h3⟩

/-- Witness of C22: a session shut down with one action waiting; a later submission and
later attempts of the loop send nothing. -/
theorem C22_witness :
    SessionActor.ShutdownReturned
      (SessionActor.run TicTacToeGame.asGame PlayerPositionMapping.asPlayerMapping
        (SessionActor.NewGameSession "ABCDE" TicTacToeGame.NewTicTacToeGame
          (PlayerPositionMapping.NewPlayerPositionMapping 2))
        [ActorEvent.submit centreMove, ActorEvent.closeQuit, ActorEvent.quit]) ∧
    (SessionActor.run TicTacToeGame.asGame PlayerPositionMapping.asPlayerMapping
        (SessionActor.run TicTacToeGame.asGame PlayerPositionMapping.asPlayerMapping
          (SessionActor.NewGameSession "ABCDE" TicTacToeGame.NewTicTacToeGame
            (PlayerPositionMapping.NewPlayerPositionMapping 2))
          [ActorEvent.submit centreMove, ActorEvent.closeQuit, ActorEvent.quit])
        [ActorEvent.submit centreMove, ActorEvent.receive demoWorld,
          ActorEvent.receive demoWorld]).outgoing
      = [] :=
  ⟨⟨rfl, rfl⟩, (C22_nothing_is_sent_after_shutdown TicTacToeGame.asGame
    PlayerPositionMapping.asPlayerMapping _ ⟨rfl, rfl⟩ _).1⟩

/-- C23 (counterexample). On a session whose loop has exited after `Shutdown`, the first
sixteen submissions complete and fill the action channel; the seventeenth cannot complete,
then or after any further events: it blocks for ever. -/
theorem C23_counterexample :
    SessionActor.ShutdownReturned shutDownActor ∧
    fullActor.actionChan.length = 16 ∧
    (SessionActor.run TicTacToeGame.asGame PlayerPositionMapping.asPlayerMapping shutDownActor
      (List.replicate 17 (ActorEvent.submit centreMove))).submitted.length = 16 ∧
    (SessionActor.step TicTacToeGame.asGame PlayerPositionMapping.asPlayerMapping fullActor
      (ActorEvent.submit centreMove)).isNone = true ∧
    ∀ events : List ActorEvent,
      (SessionActor.step TicTacToeGame.asGame PlayerPositionMapping.asPlayerMapping
        (SessionActor.run TicTacToeGame.asGame PlayerPositionMapping.asPlayerMapping
          fullActor events)
        (ActorEvent.submit centreMove)).isNone = true := by
  refine ⟨⟨rfl, rfl⟩, rfl, rfl, rfl, fun events => ?_⟩
  rw [SessionActor.blocked_forever TicTacToeGame.asGame PlayerPositionMapping.asPlayerMapping
    fullActor rfl rfl events centreMove]
  rfl

/-- C23 (amended). On a session whose loop has exited, submissions never panic, and they
complete exactly while fewer than 16 actions are waiting: of a sequence of submissions the
first ones are queued, as many as the channel has room for, and nothing is sent; once 16
actions are waiting, no submission completes, whatever happens. -/
theorem C23_submissions_after_shutdown {σ μ : Type} (G : Game σ) (P : PlayerMapping μ)
    (x : SessionActor σ μ) (hd : x.doneClosed = true) (hp : x.panicked = none)
    (actions : List ActionMessage) :
    (SessionActor.run G P x (actions.map ActorEvent.submit)).panicked = none ∧
    (SessionActor.run G P x (actions.map ActorEvent.submit)).actionChan
      = x.actionChan ++ actions.take (actionChanCapacity - x.actionChan.length) ∧
    (SessionActor.run G P x (actions.map ActorEvent.submit)).outgoing = x.outgoing ∧
    (x.actionChan.length = actionChanCapacity →
      ∀ (events : List ActorEvent) (a : ActionMessage),
        SessionActor.step G P (SessionActor.run G P x events) (ActorEvent.submit a) = none) := by
  obtain ⟨h1, h2, _, h4⟩ := SessionActor.run_submits G P actions x hp
  exact ⟨h1, h2, h4, fun hf events a => SessionActor.blocked_forever G P x hd hf events a⟩

/-- Witness of C23: three submissions to the shut-down session are queued. -/
theorem C23_witness :
    shutDownActor.doneClosed = true ∧ shutDownActor.panicked = none ∧
    (SessionActor.run TicTacToeGame.asGame PlayerPositionMapping.asPlayerMapping shutDownActor
      ([centreMove, centreMove, centreMove].map ActorEvent.submit)).actionChan
      = shutDownActor.actionChan ++ [centreMove, centreMove, centreMove].take
          (actionChanCapacity - shutDownActor.actionChan.length) :=
  ⟨rfl, rfl, (C23_submissions_after_shutdown TicTacToeGame.asGame
    PlayerPositionMapping.asPlayerMapping shutDownActor rfl rfl
    [centreMove, centreMove, centreMove]).2.1⟩

/-- C24. In every run of a new session at most 16 actions wait in the action channel; every
action whose submission completed has been handled once, in its turn, or is still waiting;
a submission made while 16 actions wait does not complete and changes nothing; and once the
loop has taken one action, a submission completes and joins the end of the queue. -/
theorem C24_action_queue_holds_at_most_16 {σ μ : Type} (G : Game σ) (P : PlayerMapping μ)
    (gameID : String) (game : σ) (playerMapping : μ) (events : List ActorEvent) :
    (SessionActor.run G P (SessionActor.NewGameSession gameID game playerMapping)
      events).actionChan.length ≤ 16 ∧
    (SessionActor.run G P (SessionActor.NewGameSession gameID game playerMapping) events).handled
        ++ (SessionActor.run G P (SessionActor.NewGameSession gameID game playerMapping)
            events).actionChan
      = (SessionActor.run G P (SessionActor.NewGameSession gameID game playerMapping)
          events).submitted ∧
    ((SessionActor.run G P (SessionActor.NewGameSession gameID game playerMapping)
        events).actionChan.length = 16 →
      ∀ a : ActionMessage,
        SessionActor.step G P
          (SessionActor.run G P (SessionActor.NewGameSession gameID game playerMapping) events)
          (ActorEvent.submit a) = none ∧
        SessionActor.run G P
          (SessionActor.run G P (SessionActor.NewGameSession gameID game playerMapping) events)
          [ActorEvent.submit a]
          = SessionActor.run G P (SessionActor.NewGameSession gameID game playerMapping)
              events) ∧
    (∀ (w : World) (a : ActionMessage) (y : SessionActor σ μ),
      SessionActor.step G P
        (SessionActor.run G P (SessionActor.NewGameSession gameID game playerMapping) events)
        (ActorEvent.receive w) = some y →
      y.panicked = none →
      ∃ z, SessionActor.step G P y (ActorEvent.submit a) = some z ∧
        z.actionChan = y.actionChan ++ [a] ∧ z.handled = y.handled) := by
  obtain ⟨h1, h2⟩ := SessionActor.run_fifo G P events
    (SessionActor.NewGameSession gameID game playerMapping) ⟨rfl, Nat.zero_le _⟩
  refine ⟨h2, h1, fun hf a => ?_, fun w a y hs hp => ?_⟩
  · have hn := SessionActor.submit_full G P _ a hf
    refine ⟨hn, ?_⟩
    show (SessionActor.step G P _ (ActorEvent.submit a)).getD _ = _
    rw [hn]
    rfl
  · rcases SessionActor.step_cases G P _ y _ hs with ⟨a2, he, _⟩ |
        ⟨w2, action, rest, _, _, _, hq, hyq, _⟩ | ⟨he, _⟩ | ⟨he, _⟩
    · exact ActorEvent.noConfusion he
    · have hlen : y.actionChan.length < actionChanCapacity := by
        rw [hq] at h2
        simp only [List.length_cons] at h2
        rw [hyq]
        omega
      refine ⟨{ y with actionChan := y.actionChan ++ [a], submitted := y.submitted ++ [a] },
        ?_, rfl, rfl⟩
      simp [SessionActor.step, hp, hlen]
    · exact ActorEvent.noConfusion he
    · exact ActorEvent.noConfusion he

/-! ## The auth service: WebSocket tokens -/

namespace GoMap
variable {κ ν : Type} [DecidableEq κ]

theorem lookup_filter_self (k : κ) (l : List (κ × ν)) :
    lookup k (l.filter (fun e => decide (e.1 ≠ k))) = none := by
  induction l with
  | nil => rfl
  | cons e rest ih =>
    rw [List.filter_cons]
    by_cases he : e.1 = k
    · have hd : decide (e.1 ≠ k) = false := by simp [he]
      rw [hd]
      simp only [Bool.false_eq_true, if_false]
      exact ih
    · have hd : decide (e.1 ≠ k) = true := by simp [he]
      rw [hd]
      simp only [if_true, lookup, if_neg he]
      exact ih

theorem get?_delete_self (m : GoMap κ ν) (k : κ) : (m.delete k).get? k = none :=
  lookup_filter_self k m.entries

theorem get?_delete_ne (m : GoMap κ ν) (k j : κ) (h : j ≠ k) :
    (m.delete k).get? j = m.get? j :=
  lookup_filter_ne k j m.entries h

end GoMap

namespace Service

/-- A round of the token loop leaves the variable the loop tests as it was. -/
theorem round_keeps_exists (now : Nat) (generated : String) (existsOuter : Bool)
    (wsTokens : GoMap String WSTokenData) :
    (GenerateWSToken.round now generated existsOuter wsTokens).1 = existsOuter := by
  unfold GenerateWSToken.round
  simp only []
  cases wsTokens.get? ("ws-" ++ generated) with
  | none => rfl
  | some c =>
    simp only []
    split_ifs <;> rfl

/-- The token loop, entered with `exists` true, never ends. -/
theorem loop_never_ends (now : Nat) (tokens : Nat → String) (fuel k : Nat) (token : String)
    (wsTokens : GoMap String WSTokenData) :
    GenerateWSToken.loop now tokens fuel k true token wsTokens = none := by
  induction fuel generalizing k token wsTokens with
  | zero => rfl
  | succ n ih =>
    unfold GenerateWSToken.loop
    simp only [if_true, round_keeps_exists]
    exact ih _ _ _

/-- For a registered user `GenerateWSToken` does not return, whatever the fuel. -/
theorem GenerateWSToken_never_returns (s : Service) (userID gameID : String) (now : Nat)
    (tokens : Nat → String) (fuel : Nat) (h : s.usersByID.contains userID = true) :
    GenerateWSToken s userID gameID now tokens fuel = none := by
  unfold GenerateWSToken
  simp only [h, not_true_eq_false, if_false, loop_never_ends]

/-- What `ValidateWSToken` returns and leaves, by the stored entry. -/
theorem ValidateWSToken_ok_iff (s : Service) (token g : String) (now : Nat) (uid : String) :
    (ValidateWSToken s token g now).2 = Except.ok uid ↔
      ∃ d, s.wsTokens.get? token = some d ∧ d.Used = false ∧ ¬ (now > d.ExpiresAt) ∧
        d.GameID = g ∧ d.UserID = uid := by
  unfold ValidateWSToken
  cases hg : s.wsTokens.get? token with
  | none => simp
  | some d =>
    simp only []
    by_cases h1 : d.Used = true
    · simp [h1]
    · by_cases h2 : now > d.ExpiresAt
      · simp [h1, h2]
      · by_cases h3 : d.GameID = g
        · simp only [h1, h2, h3]
          simp
          have hu : d.Used = false := by simpa using h1
          exact ⟨fun e => ⟨hu, by omega, h3, e⟩, fun e => e.2.2.2⟩
        · simp [h1, h2, h3]

/-- A validation stores nothing: a token that is not stored is not stored afterwards. -/
theorem ValidateWSToken_keeps_absent (s : Service) (token other g : String) (now : Nat)
    (h : s.wsTokens.get? token = none) :
    (ValidateWSToken s other g now).1.wsTokens.get? token = none := by
  have hdel : (s.wsTokens.delete other).get? token = none := by
    by_cases e : token = other
    · rw [e]; exact GoMap.get?_delete_self _ _
    · rw [GoMap.get?_delete_ne _ _ _ e]; exact h
  unfold ValidateWSToken
  cases s.wsTokens.get? other with
  | none => exact h
  | some d =>
    simp only []
    split_ifs <;> exact hdel

/-- A validation that succeeds deletes the token. -/
theorem ValidateWSToken_ok_deletes (s : Service) (token g : String) (now : Nat) (uid : String)
    (h : (ValidateWSToken s token g now).2 = Except.ok uid) :
    (ValidateWSToken s token g now).1.wsTokens.get? token = none := by
  unfold ValidateWSToken at h ⊢
  cases hg : s.wsTokens.get? token with
  | none => rw [hg] at h; exact Except.noConfusion h
  | some d =>
    simp only []
    split_ifs <;> exact GoMap.get?_delete_self _ _

theorem validations_keep_absent (calls : List (String × String × Nat)) (s : Service)
    (token : String) (h : s.wsTokens.get? token = none) :
    (validations s calls).wsTokens.get? token = none := by
  induction calls generalizing s with
  | nil => exact h
  | cons c rest ih =>
    simp only [validations, List.foldl_cons]
    exact ih _ (ValidateWSToken_keeps_absent s token c.1 c.2.1 c.2.2 h)

theorem ValidateWSToken_absent (s : Service) (token g : String) (now : Nat)
    (h : s.wsTokens.get? token = none) :
    ValidateWSToken s token g now = (s, Except.error "invalid or expired WebSocket token") := by
  unfold ValidateWSToken
  rw [h]

end Service

/-- C25 (the code at the failing input). For the registered user `user-a`,
`GenerateWSToken` has not returned after any number of rounds of its loop, whatever the
tokens drawn and the time: the loop tests a variable that its body never assigns. The
statements after the loop, which are never reached, store a token that a first validation
within 10 seconds gives the user for. -/
theorem C25_generate_ws_token_never_returns (now : Nat) (tokens : Nat → String) (fuel : Nat) :
    demoService.usersByID.contains "user-a" = true ∧
    Service.GenerateWSToken demoService "user-a" "ABCDE" now tokens fuel = none ∧
    (Service.GenerateWSToken.round now (tokens 0) true demoService.wsTokens).1 = true ∧
    (∀ (t : String) (ws : GoMap String WSTokenData) (later : Nat),
      later ≤ now + 10 * Second →
      (Service.ValidateWSToken
        (Service.GenerateWSToken.store demoService "user-a" "ABCDE" now t ws).1 t "ABCDE"
        later).2 = Except.ok "user-a") :=
  ⟨rfl, Service.GenerateWSToken_never_returns demoService "user-a" "ABCDE" now tokens fuel rfl,
    Service.round_keeps_exists _ _ _ _,
    fun t _ later hl => (Service.ValidateWSToken_ok_iff _ t "ABCDE" later "user-a").2
      ⟨_, GoMap.get?_set_self _ _ _, rfl, by simp only [gt_iff_lt, not_lt]; exact hl, rfl,
        rfl⟩⟩

/-- C26. `ValidateWSToken(t, g)` at time `now` succeeds exactly when `t` is stored, its
entry is not marked used, `now` is not after its `ExpiresAt`, and its `GameID` is `g`; the
user id returned is then the stored `UserID`. The entry that the last statements of
`GenerateWSToken` store for a token has the time of issue plus 10 seconds as `ExpiresAt`. -/
theorem C26_validate_ws_token_succeeds_iff (s : Service) (token g : String) (now : Nat) :
    (∀ uid, (Service.ValidateWSToken s token g now).2 = Except.ok uid ↔
      ∃ d, s.wsTokens.get? token = some d ∧ d.Used = false ∧ ¬ (now > d.ExpiresAt) ∧
        d.GameID = g ∧ d.UserID = uid) ∧
    (∀ (u : String) (issued : Nat) (ws : GoMap String WSTokenData),
      (Service.GenerateWSToken.store s u g issued token ws).1.wsTokens.get? token
        = some { UserID := u, GameID := g, ExpiresAt := issued + 10 * Second, Used := false }) :=
  ⟨fun uid => Service.ValidateWSToken_ok_iff s token g now uid,
    fun _ _ _ => GoMap.get?_set_self _ _ _⟩

/-- C27. Once a call `ValidateWSToken(t, g)` has succeeded, `t` is no longer stored, and it
stays so through any further validations, of any tokens; and every later
`ValidateWSToken(t, g2)` fails, at any time and for any game id. -/
theorem C27_ws_token_is_single_use (s : Service) (token g : String) (now : Nat)
    (uid : String) (h : (Service.ValidateWSToken s token g now).2 = Except.ok uid) :
    (Service.ValidateWSToken s token g now).1.wsTokens.get? token = none ∧
    ∀ (calls : List (String × String × Nat)) (g2 : String) (later : Nat),
      (Service.validations (Service.ValidateWSToken s token g now).1 calls).wsTokens.get? token
        = none ∧
      (Service.ValidateWSToken
          (Service.validations (Service.ValidateWSToken s token g now).1 calls)
          token g2 later).2
        = Except.error "invalid or expired WebSocket token" := by
  have h0 := Service.ValidateWSToken_ok_deletes s token g now uid h
  refine ⟨h0, fun calls g2 later => ?_⟩
  have h1 := Service.validations_keep_absent calls _ token h0
  exact ⟨h1, by rw [Service.ValidateWSToken_absent _ token g2 later h1]⟩

/-- Witness of C27: the stored token validates once and not twice. -/
theorem C27_witness :
    (Service.ValidateWSToken demoService "ws-t1" "ABCDE" 50).2 = Except.ok "user-a" ∧
    (Service.ValidateWSToken demoService "ws-t1" "ABCDE" 50).1.wsTokens.get? "ws-t1" = none ∧
    (Service.ValidateWSToken
        (Service.validations (Service.ValidateWSToken demoService "ws-t1" "ABCDE" 50).1 [])
        "ws-t1" "ABCDE" 50).2
      = Except.error "invalid or expired WebSocket token" :=
  ⟨rfl, (C27_ws_token_is_single_use demoService "ws-t1" "ABCDE" 50 "user-a" rfl).1,
    ((C27_ws_token_is_single_use demoService "ws-t1" "ABCDE" 50 "user-a" rfl).2 [] "ABCDE"
      50).2⟩

/-! ## The rules of tic-tac-toe -/

theorem cellOf_inRange (board : Fin 9 → Int) (i : Int) (h : 0 ≤ i ∧ i < 9) :
    cellOf board i = board ⟨i.toNat, by omega⟩ := by
  simp only [cellOf, boardAt_ok board i h]

theorem tmod_two_of_nonneg (a : Int) (h : 0 ≤ a) : a.tmod 2 = a % 2 :=
  Int.tmod_eq_emod h (by decide)

/-- One round of the loop of `CheckWinner` against the words of its specification. -/
theorem CheckWinner_loop_round (a b c : Int) (ha : a = -1 ∨ 0 ≤ a) (hb : b = -1 ∨ 0 ≤ b)
    (hc : c = -1 ∨ 0 ≤ c) (L R : Go (Option (List Int))) :
    (if a = -1 then L else if b = -1 then L else if c = -1 then L
      else if a.tmod 2 = b.tmod 2 ∧ b.tmod 2 = c.tmod 2 then R else L)
      = if decide (a ≠ -1 ∧ b ≠ -1 ∧ c ≠ -1 ∧ a % 2 = b % 2 ∧ b % 2 = c % 2) = true then R
        else L := by
  by_cases h1 : a = -1
  · simp [h1]
  · by_cases h2 : b = -1
    · simp [h1, h2]
    · by_cases h3 : c = -1
      · simp [h1, h2, h3]
      · have pa : 0 ≤ a := by rcases ha with h | h; exact absurd h h1; exact h
        have pb : 0 ≤ b := by rcases hb with h | h; exact absurd h h2; exact h
        have pc : 0 ≤ c := by rcases hc with h | h; exact absurd h h3; exact h
        simp only [if_neg h1, if_neg h2, if_neg h3, tmod_two_of_nonneg a pa,
          tmod_two_of_nonneg b pb, tmod_two_of_nonneg c pc]
        by_cases h4 : a % 2 = b % 2 ∧ b % 2 = c % 2
        · simp [h1, h2, h3, h4]
        · have : ¬ (a ≠ -1 ∧ b ≠ -1 ∧ c ≠ -1 ∧ a % 2 = b % 2 ∧ b % 2 = c % 2) :=
            fun k => h4 k.2.2.2
          simp only [if_neg h4, this, decide_False, Bool.false_eq_true, if_false]

theorem CheckWinner_loop_cons (board : Fin 9 → Int) (hb : ∀ i, board i = -1 ∨ 0 ≤ board i)
    (line : Int × Int × Int) (rest : List (Int × Int × Int)) (h : LineInRange line) :
    CheckWinner.loop board (line :: rest)
      = if lineWon board line = true then Except.ok (some [line.1, line.2.1, line.2.2])
        else CheckWinner.loop board rest := by
  obtain ⟨h0, h1, h2⟩ := h
  simp only [CheckWinner.loop, boardAt_ok board _ h0, boardAt_ok board _ h1,
    boardAt_ok board _ h2, bind, Except.bind, pure, Except.pure]
  rw [CheckWinner_loop_round _ _ _ (hb _) (hb _) (hb _)]
  simp only [lineWon, cellOf_inRange board _ h0, cellOf_inRange board _ h1,
    cellOf_inRange board _ h2]

theorem CheckWinner_loop_spec (board : Fin 9 → Int) (hb : ∀ i, board i = -1 ∨ 0 ≤ board i)
    (lines : List (Int × Int × Int)) (h : ∀ line ∈ lines, LineInRange line) :
    CheckWinner.loop board lines
      = Except.ok ((lines.find? (lineWon board)).map
          (fun line => [line.1, line.2.1, line.2.2])) := by
  induction lines with
  | nil => rfl
  | cons line rest ih =>
    have ih2 := ih (fun l hl => h l (List.mem_cons_of_mem _ hl))
    rw [CheckWinner_loop_cons board hb line rest (h line (List.mem_cons_self _ _)),
      List.find?_cons]
    cases hw : lineWon board line with
    | true => simp
    | false => simpa using ih2

/-- C30. On a board whose cells hold -1 or a move number that is not negative,
`CheckWinner` returns the first line of `WinningLines` whose three cells are not empty and
hold move numbers of the same parity, as the list of its cells, and nil when there is no such
line; so its result is not nil exactly when some line of `WinningLines` is such a line. -/
theorem C30_check_winner_returns_first_won_line (board : Fin 9 → Int)
    (hb : ∀ i, board i = -1 ∨ 0 ≤ board i) :
    CheckWinner board = Except.ok (CheckWinner.spec board) ∧
    ((∃ cells, CheckWinner board = Except.ok (some cells)) ↔
      ∃ line ∈ WinningLines, lineWon board line = true) ∧
    (∀ cells, CheckWinner board = Except.ok (some cells) →
      ∃ before line after, WinningLines = before ++ line :: after ∧
        cells = [line.1, line.2.1, line.2.2] ∧ lineWon board line = true ∧
        ∀ earlier ∈ before, lineWon board earlier = false) := by
  have hs : CheckWinner board = Except.ok (CheckWinner.spec board) :=
    CheckWinner_loop_spec board hb WinningLines WinningLines_inRange
  refine ⟨hs, ?_, ?_⟩
  · rw [hs]
    unfold CheckWinner.spec
    constructor
    · rintro ⟨cells, hc⟩
      cases hf : WinningLines.find? (lineWon board) with
      | none => rw [hf] at hc; simp at hc
      | some line => exact ⟨line, List.mem_of_find?_eq_some hf, List.find?_some hf⟩
    · rintro ⟨line, hm, hw⟩
      cases hf : WinningLines.find? (lineWon board) with
      | none =>
        have := List.find?_eq_none.mp hf line hm
        rw [hw] at this
        exact absurd rfl this
      | some l => exact ⟨_, rfl⟩
  · intro cells hc
    rw [hs] at hc
    unfold CheckWinner.spec at hc
    cases hf : WinningLines.find? (lineWon board) with
    | none => rw [hf] at hc; simp at hc
    | some line =>
      rw [hf] at hc
      simp only [Option.map_some', Except.ok.injEq, Option.some.injEq] at hc
      obtain ⟨hw, before, after, hsplit, hbefore⟩ := List.find?_eq_some.mp hf
      exact ⟨before, line, after, hsplit, hc.symm, hw, fun e he => by simpa using hbefore e he⟩

/-- Witness of C30: the first player holds the top row and the second the middle row; the
top row comes first in `WinningLines`. -/
theorem C30_witness :
    (∀ i : Fin 9, (![0, 2, 4, 1, 3, 5, -1, -1, -1] : Fin 9 → Int) i = -1 ∨
      0 ≤ (![0, 2, 4, 1, 3, 5, -1, -1, -1] : Fin 9 → Int) i) ∧
    CheckWinner (![0, 2, 4, 1, 3, 5, -1, -1, -1] : Fin 9 → Int) = Except.ok (some [0, 1, 2]) :=
  ⟨by decide, (C30_check_winner_returns_first_won_line _ (by decide)).1.trans (by rfl)⟩

/-! ## Moves of tic-tac-toe -/

theorem Float64.toInt_ofInt (q : Int) :
    (Float64.ofInt q).toInt = if -(2 ^ 63 : Int) ≤ q ∧ q < 2 ^ 63 then q else -(2 ^ 63 : Int) := by
  simp [Float64.toInt, Float64.trunc, Float64.ofInt]

/-- The conversion `int(v)` of a float64 that holds the integer `q` is on the board exactly
when `q` is, and is `q` then. -/
theorem Float64.toInt_ofInt_onBoard (q : Int) :
    ((0 ≤ (Float64.ofInt q).toInt ∧ (Float64.ofInt q).toInt ≤ 8) ↔ (0 ≤ q ∧ q ≤ 8)) ∧
      ((0 ≤ q ∧ q ≤ 8) → (Float64.ofInt q).toInt = q) := by
  rw [Float64.toInt_ofInt]
  constructor
  · split_ifs with h
    · exact Iff.rfl
    · constructor
      · intro h2; omega
      · intro h2; omega
  · intro h
    rw [if_pos (by omega)]

namespace TicTacToeGame

/-- The method `checkWinner` changes neither the board nor the move number. -/
theorem checkWinner_frame (g g2 : TicTacToeGame) (h : checkWinner g = Except.ok g2) :
    g2.board = g.board ∧ g2.moveNumber = g.moveNumber := by
  rcases CheckWinner_ok g.board with hc | ⟨line, hm, hc⟩
  · simp [checkWinner, hc, bind, Except.bind, pure, Except.pure] at h
    subst h
    exact ⟨rfl, rfl⟩
  · have hr := (WinningLines_inRange line hm).1
    simp only [checkWinner, hc, bind, Except.bind, sliceAt] at h
    simp [boardAt_ok g.board _ hr, pure, Except.pure] at h
    subst h
    exact ⟨rfl, rfl⟩

/-- A move that meets the four conditions is made: the cell takes the move number, the move
number goes up by one, and `checkWinner` runs on the result. -/
theorem makeMove_accepts (g : TicTacToeGame) (p q : Int) (hr : 0 ≤ q ∧ q < 9)
    (hw : g.winner = none) (ht : p = g.moveNumber.tmod 2)
    (hc : g.board ⟨q.toNat, by omega⟩ = -1) :
    ∃ g2, makeMove g p q = Except.ok (g2, none) ∧
      g2.board = Function.update g.board ⟨q.toNat, by omega⟩ g.moveNumber ∧
      g2.moveNumber = g.moveNumber + 1 := by
  have h1 : ¬ (q < 0 ∨ q > 8) := by omega
  have hs : g.winner.isSome = false := by simp [hw]
  cases hcw : checkWinner
      { g with board := Function.update g.board ⟨q.toNat, by omega⟩ g.moveNumber,
               moveNumber := g.moveNumber + 1 } with
  | error e => exact absurd hcw (checkWinner_ok _ _)
  | ok g2 =>
    obtain ⟨f1, f2⟩ := checkWinner_frame _ _ hcw
    refine ⟨g2, ?_, f1, f2⟩
    simp only [makeMove, if_neg h1, hs, boardAt_ok g.board _ hr, boardStore_ok g.board _ _ hr,
      bind, Except.bind, ← ht, hc]
    simp only [Bool.false_eq_true, if_false, ne_eq, not_true_eq_false, hcw]
    rfl

/-- A move that misses one of the four conditions is refused. -/
theorem makeMove_refuses (g : TicTacToeGame) (p q : Int)
    (h : ¬ (0 ≤ q ∧ q ≤ 8 ∧ g.winner = none ∧ p = g.moveNumber.tmod 2 ∧
      boardAt g.board q = Except.ok (-1))) :
    ∃ e, makeMove g p q = Except.ok (g, some e) := by
  by_cases h1 : q < 0 ∨ q > 8
  · exact ⟨_, by simp only [makeMove, if_pos h1]; rfl⟩
  · have hr : 0 ≤ q ∧ q < 9 := by omega
    cases hw : g.winner with
    | some v =>
      exact ⟨_, by
        simp only [makeMove, if_neg h1, hw, Option.isSome_some, if_true, deref, bind,
          Except.bind, pure, Except.pure]
        rfl⟩
    | none =>
      have hs : g.winner.isSome = false := by simp [hw]
      by_cases h3 : g.moveNumber.tmod 2 = p
      · by_cases h4 : g.board ⟨q.toNat, by omega⟩ = -1
        · exfalso
          apply h
          refine ⟨hr.1, by omega, hw, h3.symm, ?_⟩
          rw [boardAt_ok g.board q hr, h4]
        · exact ⟨_, by
            simp only [makeMove, if_neg h1, hs, boardAt_ok g.board _ hr, bind, Except.bind, h3,
              Bool.false_eq_true, if_false, ne_eq, not_true_eq_false, h4, not_false_eq_true,
              if_true, pure, Except.pure]
            rfl⟩
      · exact ⟨_, by
          simp only [makeMove, if_neg h1, hs, Bool.false_eq_true, if_false, ne_eq, h3,
            not_false_eq_true, if_true, pure, Except.pure]
          rfl⟩

/-- A move is made exactly under the four conditions. -/
theorem makeMove_ok_iff (g : TicTacToeGame) (p q : Int) :
    (∃ g2, makeMove g p q = Except.ok (g2, none)) ↔
      (0 ≤ q ∧ q ≤ 8 ∧ g.winner = none ∧ p = g.moveNumber.tmod 2 ∧
        boardAt g.board q = Except.ok (-1)) := by
  constructor
  · rintro ⟨g2, h⟩
    by_contra hn
    obtain ⟨e, he⟩ := makeMove_refuses g p q hn
    rw [he] at h
    simp at h
  · rintro ⟨h0, h8, hw, ht, hc⟩
    have hr : 0 ≤ q ∧ q < 9 := by omega
    rw [boardAt_ok g.board q hr] at hc
    obtain ⟨g2, h, _⟩ := makeMove_accepts g p q hr hw ht (Except.ok.inj hc)
    exact ⟨g2, h⟩

/-- The move `HandleAction` makes for a `make_move` request whose position is the integer
`q`, as a float64 or as an int: `makeMove` at a cell that is `q` when `q` is on the board and
is off the board otherwise. -/
theorem HandleAction_make_move (g : TicTacToeGame) (p q : Int) (message : Request)
    (hf : message.FunctionName = "make_move")
    (hq : message.Parameters.get? "position" = some (JVal.float64 (Float64.ofInt q)) ∨
      message.Parameters.get? "position" = some (JVal.int q)) :
    ∃ q2, HandleAction g p message = makeMove g p q2 ∧
      ((0 ≤ q2 ∧ q2 ≤ 8) ↔ (0 ≤ q ∧ q ≤ 8)) ∧ ((0 ≤ q ∧ q ≤ 8) → q2 = q) := by
  have hne : ¬ message.FunctionName ≠ "make_move" := by simp [hf]
  rcases hq with h | h
  · refine ⟨(Float64.ofInt q).toInt, ?_, Float64.toInt_ofInt_onBoard q⟩
    simp only [HandleAction, if_neg hne, h]
  · exact ⟨q, by simp only [HandleAction, if_neg hne, h], Iff.rfl, fun _ => rfl⟩

end TicTacToeGame

namespace TicTacToeGame

/-- The state after a move that was made: the cell holds the old move number, the other
cells are as before, and the move number is one more. -/
theorem makeMove_frame (g g2 : TicTacToeGame) (p q : Int)
    (h : makeMove g p q = Except.ok (g2, none)) :
    (0 ≤ q ∧ q ≤ 8) ∧ boardAt g2.board q = Except.ok g.moveNumber ∧
      (∀ i : Int, i ≠ q → boardAt g2.board i = boardAt g.board i) ∧
      g2.moveNumber = g.moveNumber + 1 := by
  obtain ⟨h0, h8, hw, ht, hc⟩ := (makeMove_ok_iff g p q).1 ⟨g2, h⟩
  have hr : 0 ≤ q ∧ q < 9 := by omega
  rw [boardAt_ok g.board q hr] at hc
  obtain ⟨g3, h3, hb, hm⟩ := makeMove_accepts g p q hr hw ht (Except.ok.inj hc)
  rw [h] at h3
  have e : g2 = g3 := by
    have := Except.ok.inj h3
    exact (Prod.mk.inj this).1
  subst e
  refine ⟨⟨h0, h8⟩, ?_, ?_, hm⟩
  · rw [boardAt_ok g2.board q hr, hb, Function.update_same]
  · intro i hi
    by_cases hir : 0 ≤ i ∧ i < 9
    · rw [boardAt_ok g2.board i hir, boardAt_ok g.board i hir, hb]
      rw [Function.update_noteq]
      intro hf
      apply hi
      have := congrArg Fin.val hf
      simp only at this
      omega
    · simp [boardAt, hir]

end TicTacToeGame

/-- Claim C28: for every tic-tac-toe state, seat `p` and `make_move` request whose position
is the integer `q` (a JSON number or an int), `HandleAction` accepts the move (returns no
error) exactly when `0 ≤ q ≤ 8`, no winner is recorded, `p` is `moveNumber % 2` and cell `q`
is empty (holds -1); the remainder is the one of Go, which is the mathematical one on the move
numbers from 0 on; and whenever the move is not accepted, in particular out of turn, an error
is returned and the state (board, moveNumber, winner, winningLine) is the one before. -/
theorem C28_make_move_succeeds_iff (g : TicTacToeGame) (p q : Int) (message : Request)
    (hf : message.FunctionName = "make_move")
    (hq : message.Parameters.get? "position" = some (JVal.float64 (Float64.ofInt q)) ∨
      message.Parameters.get? "position" = some (JVal.int q)) :
    ((∃ g2, TicTacToeGame.HandleAction g p message = Except.ok (g2, none)) ↔
        (0 ≤ q ∧ q ≤ 8 ∧ g.winner = none ∧ p = g.moveNumber.tmod 2 ∧
          boardAt g.board q = Except.ok (-1))) ∧
      (0 ≤ g.moveNumber → g.moveNumber.tmod 2 = g.moveNumber % 2) ∧
      (p ≠ g.moveNumber.tmod 2 →
        ∃ e, TicTacToeGame.HandleAction g p message = Except.ok (g, some e)) ∧
      ((¬ ∃ g2, TicTacToeGame.HandleAction g p message = Except.ok (g2, none)) →
        ∃ e, TicTacToeGame.HandleAction g p message = Except.ok (g, some e)) := by
  obtain ⟨q2, hh, hb, he⟩ := TicTacToeGame.HandleAction_make_move g p q message hf hq
  have hiff : (∃ g2, TicTacToeGame.HandleAction g p message = Except.ok (g2, none)) ↔
      (0 ≤ q ∧ q ≤ 8 ∧ g.winner = none ∧ p = g.moveNumber.tmod 2 ∧
        boardAt g.board q = Except.ok (-1)) := by
    rw [hh, TicTacToeGame.makeMove_ok_iff]
    constructor
    · rintro ⟨h0, h8, hw, ht, hc⟩
      have hq0 := hb.1 ⟨h0, h8⟩
      rw [he hq0] at hc
      exact ⟨hq0.1, hq0.2, hw, ht, hc⟩
    · rintro ⟨h0, h8, hw, ht, hc⟩
      rw [he ⟨h0, h8⟩]
      exact ⟨h0, h8, hw, ht, hc⟩
  have hrej : (¬ ∃ g2, TicTacToeGame.HandleAction g p message = Except.ok (g2, none)) →
      ∃ e, TicTacToeGame.HandleAction g p message = Except.ok (g, some e) := by
    intro hn
    rw [hh] at hn ⊢
    exact TicTacToeGame.makeMove_refuses g p q2
      (fun hc => hn ((TicTacToeGame.makeMove_ok_iff g p q2).2 hc))
  refine ⟨hiff, fun h => Int.tmod_eq_emod h (by decide), ?_, hrej⟩
  intro hp
  exact hrej (fun hs => hp (hiff.1 hs).2.2.2.1)

/-- Witness of C28: on the new game the centre move of seat 0 is accepted, and the same
move of seat 1, out of turn, is refused with the state unchanged. -/
theorem C28_witness :
    centreMove.Request.FunctionName = "make_move" ∧
    (∃ g2, TicTacToeGame.HandleAction TicTacToeGame.NewTicTacToeGame 0 centreMove.Request
      = Except.ok (g2, none)) ∧
    (∃ e, TicTacToeGame.HandleAction TicTacToeGame.NewTicTacToeGame 1 centreMove.Request
      = Except.ok (TicTacToeGame.NewTicTacToeGame, some e)) :=
  ⟨by decide,
    (C28_make_move_succeeds_iff TicTacToeGame.NewTicTacToeGame 0 4 centreMove.Request
      (by decide) (Or.inl rfl)).1.2 ⟨by decide, by decide, rfl, by decide, rfl⟩,
    (C28_make_move_succeeds_iff TicTacToeGame.NewTicTacToeGame 1 4 centreMove.Request
      (by decide) (Or.inl rfl)).2.2.1 (by decide)⟩

/-- Claim C29: after a `make_move` at the integer position `q` that `HandleAction` accepts,
`GetStateForAll` returns one broadcast `game_state` whose board has cell `q` equal to the move
number before the move and every other cell equal to its previous value, and the move number
of the game is the previous one plus one. -/
theorem C29_successful_move_updates_one_cell (g g2 : TicTacToeGame) (p q : Int)
    (message : Request) (hf : message.FunctionName = "make_move")
    (hq : message.Parameters.get? "position" = some (JVal.float64 (Float64.ofInt q)) ∨
      message.Parameters.get? "position" = some (JVal.int q))
    (h : TicTacToeGame.HandleAction g p message = Except.ok (g2, none)) :
    (∃ board winner line,
        TicTacToeGame.GetStateForAll g2 =
          [{ PlayerID := "",
             Response :=
              { MessageType := MessageTypeGameState,
                Parameters := ResponseParameters.ticTacToeState
                  { Board := board, Winner := winner, WinningLine := line } } }] ∧
        boardAt board q = Except.ok g.moveNumber ∧
        ∀ i : Int, i ≠ q → boardAt board i = boardAt g.board i) ∧
      g2.moveNumber = g.moveNumber + 1 := by
  obtain ⟨q2, hh, hb, he⟩ := TicTacToeGame.HandleAction_make_move g p q message hf hq
  rw [hh] at h
  obtain ⟨hr, hc, ho, hm⟩ := TicTacToeGame.makeMove_frame g g2 p q2 h
  have e : q2 = q := he (hb.1 hr)
  subst e
  exact ⟨⟨g2.board, g2.winner, g2.winningLine, rfl, hc, ho⟩, hm⟩

/-- Witness of C29: the centre move of seat 0 on the new game gives `afterCentreMove`, whose
broadcast board holds 0 at cell 4 and -1 elsewhere, at move number 1. -/
theorem C29_witness :
    TicTacToeGame.HandleAction TicTacToeGame.NewTicTacToeGame 0 centreMove.Request
      = Except.ok (afterCentreMove, none) ∧
    ((∃ board winner line,
        TicTacToeGame.GetStateForAll afterCentreMove =
          [{ PlayerID := "",
             Response :=
              { MessageType := MessageTypeGameState,
                Parameters := ResponseParameters.ticTacToeState
                  { Board := board, Winner := winner, WinningLine := line } } }] ∧
        boardAt board 4 = Except.ok TicTacToeGame.NewTicTacToeGame.moveNumber ∧
        ∀ i : Int, i ≠ 4 →
          boardAt board i = boardAt TicTacToeGame.NewTicTacToeGame.board i) ∧
      afterCentreMove.moveNumber = TicTacToeGame.NewTicTacToeGame.moveNumber + 1) :=
  ⟨by rfl,
    C29_successful_move_updates_one_cell TicTacToeGame.NewTicTacToeGame afterCentreMove 0 4
      centreMove.Request (by decide) (Or.inl rfl) (by rfl)⟩

/-! ## Games of tic-tac-toe -/

namespace TicTacToeGame

/-- With a winner recorded `HandleAction` refuses every call and keeps the game. -/
theorem HandleAction_won (g : TicTacToeGame) (p : Int) (message : Request) (w : Int)
    (h : g.winner = some w) : ∃ e, HandleAction g p message = Except.ok (g, some e) := by
  have hm : ∀ q, ∃ e, makeMove g p q = Except.ok (g, some e) := fun q =>
    makeMove_refuses g p q (fun hc => by rw [h] at hc; exact Option.noConfusion hc.2.2.1)
  unfold HandleAction
  split_ifs
  · exact ⟨_, rfl⟩
  · split
    · exact ⟨_, rfl⟩
    · exact hm _
    · exact hm _
    · exact ⟨_, rfl⟩

theorem play_won (g : TicTacToeGame) (w : Int) (h : g.winner = some w)
    (calls : List (Int × Request)) : play g calls = Except.ok g := by
  induction calls with
  | nil => rfl
  | cons call rest ih =>
    obtain ⟨e, he⟩ := HandleAction_won g call.1 call.2 w h
    simp only [play, he, bind, Except.bind]
    exact ih

/-- A call that `HandleAction` accepts is a move of `makeMove`. -/
theorem HandleAction_accepted (g g2 : TicTacToeGame) (p : Int) (message : Request)
    (h : HandleAction g p message = Except.ok (g2, none)) :
    ∃ q, makeMove g p q = Except.ok (g2, none) := by
  unfold HandleAction at h
  split_ifs at h
  · simp [pure, Except.pure] at h
  · split at h
    · simp [pure, Except.pure] at h
    · exact ⟨_, h⟩
    · exact ⟨_, h⟩
    · simp [pure, Except.pure] at h

/-- A move that `makeMove` makes: the conditions it has met, and the call of `checkWinner`
on the game with the cell stored and the move number raised. -/
theorem makeMove_made (g g2 : TicTacToeGame) (p q : Int)
    (h : makeMove g p q = Except.ok (g2, none)) :
    ∃ hr : 0 ≤ q ∧ q < 9, g.winner = none ∧ p = g.moveNumber.tmod 2 ∧
      g.board ⟨q.toNat, by omega⟩ = -1 ∧
      checkWinner { g with board := Function.update g.board ⟨q.toNat, by omega⟩ g.moveNumber,
                           moveNumber := g.moveNumber + 1 } = Except.ok g2 := by
  obtain ⟨h0, h8, hw, ht, hc⟩ := (makeMove_ok_iff g p q).1 ⟨g2, h⟩
  have hr : 0 ≤ q ∧ q < 9 := by omega
  rw [boardAt_ok g.board q hr] at hc
  have hc2 := Except.ok.inj hc
  refine ⟨hr, hw, ht, hc2, ?_⟩
  have h1 : ¬ (q < 0 ∨ q > 8) := by omega
  have hs : g.winner.isSome = false := by simp [hw]
  simp only [makeMove, if_neg h1, hs, boardAt_ok g.board _ hr, boardStore_ok g.board _ _ hr,
    bind, Except.bind, ← ht, hc2] at h
  simp only [Bool.false_eq_true, if_false, ne_eq, not_true_eq_false] at h
  cases hcw : checkWinner
      { g with board := Function.update g.board ⟨q.toNat, by omega⟩ g.moveNumber,
               moveNumber := g.moveNumber + 1 } with
  | error e => exact absurd hcw (checkWinner_ok _ _)
  | ok g3 =>
    rw [hcw] at h
    simp only [pure, Except.pure, Except.ok.injEq, Prod.mk.injEq, and_true] at h
    rw [h]

/-- One call of `HandleAction`: the game is kept, or one empty cell takes the move number,
the move number goes up by one and `checkWinner` runs. -/
theorem HandleAction_step (g g2 : TicTacToeGame) (p : Int) (message : Request)
    (e : Option ErrorResponse) (h : HandleAction g p message = Except.ok (g2, e)) :
    g2 = g ∨ ∃ q : Int, ∃ hr : 0 ≤ q ∧ q < 9, g.winner = none ∧ p = g.moveNumber.tmod 2 ∧
      g.board ⟨q.toNat, by omega⟩ = -1 ∧
      checkWinner { g with board := Function.update g.board ⟨q.toNat, by omega⟩ g.moveNumber,
                           moveNumber := g.moveNumber + 1 } = Except.ok g2 := by
  cases e with
  | some e2 => exact Or.inl (HandleAction_refused g g2 p message e2 h)
  | none =>
    obtain ⟨q, hq⟩ := HandleAction_accepted g g2 p message h
    exact Or.inr ⟨q, makeMove_made g g2 p q hq⟩

end TicTacToeGame

namespace TicTacToeGame

theorem Numbered_new : Numbered NewTicTacToeGame := by
  refine ⟨le_refl _, fun i => Or.inl rfl, ?_⟩
  intro k h0 h1
  simp only [NewTicTacToeGame] at h1
  omega

/-- The numbering of the moves is kept by a call of `HandleAction`. -/
theorem Numbered_step (g g2 : TicTacToeGame) (p : Int) (message : Request)
    (e : Option ErrorResponse) (h : HandleAction g p message = Except.ok (g2, e))
    (hn : Numbered g) : Numbered g2 := by
  rcases HandleAction_step g g2 p message e h with h1 | ⟨q, hr, _, _, hc, hcw⟩
  · rw [h1]; exact hn
  · obtain ⟨hb, hm⟩ := checkWinner_frame _ _ hcw
    simp only at hb hm
    obtain ⟨n0, n1, n2⟩ := hn
    refine ⟨by rw [hm]; omega, ?_, ?_⟩
    · intro i
      rw [hb, hm]
      by_cases hi : i = ⟨q.toNat, by omega⟩
      · rw [hi, Function.update_same]
        exact Or.inr ⟨n0, by omega⟩
      · rw [Function.update_noteq hi]
        rcases n1 i with h3 | h3
        · exact Or.inl h3
        · exact Or.inr ⟨h3.1, by omega⟩
    · intro k k0 k1
      rw [hm] at k1
      rw [hb]
      by_cases hk : k = g.moveNumber
      · refine ⟨⟨q.toNat, by omega⟩, by rw [Function.update_same, hk], ?_⟩
        intro j hj
        by_contra hne
        rw [Function.update_noteq hne] at hj
        rcases n1 j with h3 | h3
        · omega
        · omega
      · obtain ⟨i, hi, hu⟩ := n2 k k0 (by omega)
        have hiq : i ≠ ⟨q.toNat, by omega⟩ := by
          intro hiq
          rw [hiq, hc] at hi
          omega
        refine ⟨i, by rw [Function.update_noteq hiq]; exact hi, ?_⟩
        intro j hj
        by_cases hjq : j = ⟨q.toNat, by omega⟩
        · rw [hjq, Function.update_same] at hj
          exact absurd hj.symm hk
        · rw [Function.update_noteq hjq] at hj
          exact hu j hj

/-- Every sequence of calls ends, in a game whose moves are numbered when they were at the
start. -/
theorem play_numbered (calls : List (Int × Request)) (g : TicTacToeGame) (hn : Numbered g) :
    ∃ g2, play g calls = Except.ok g2 ∧ Numbered g2 := by
  induction calls generalizing g with
  | nil => exact ⟨g, rfl, hn⟩
  | cons call rest ih =>
    cases hh : HandleAction g call.1 call.2 with
    | error e => exact absurd hh (HandleAction_ok _ _ _ _)
    | ok r =>
      obtain ⟨g1, e⟩ := r
      obtain ⟨g2, h2, n2⟩ := ih g1 (Numbered_step g g1 call.1 call.2 e hh hn)
      refine ⟨g2, ?_, n2⟩
      simp only [play, hh, bind, Except.bind]
      exact h2

/-- On a game whose moves are numbered the cells that are not empty are as many as the move
number says. -/
theorem Numbered_card (g : TicTacToeGame) (hn : Numbered g) :
    (Finset.univ.filter (fun i : Fin 9 => g.board i ≠ -1)).card = g.moveNumber.toNat := by
  obtain ⟨n0, n1, n2⟩ := hn
  rw [← Finset.card_range g.moveNumber.toNat]
  apply Finset.card_bij (fun i _ => (g.board i).toNat)
  · intro i hi
    simp only [Finset.mem_filter, Finset.mem_univ, true_and] at hi
    rcases n1 i with h3 | h3
    · exact absurd h3 hi
    · simp only [Finset.mem_range]
      omega
  · intro i hi j hj hij
    simp only [Finset.mem_filter, Finset.mem_univ, true_and] at hi hj
    have hi2 : 0 ≤ g.board i ∧ g.board i < g.moveNumber := by
      rcases n1 i with h3 | h3
      · exact absurd h3 hi
      · exact h3
    have hj2 : 0 ≤ g.board j ∧ g.board j < g.moveNumber := by
      rcases n1 j with h3 | h3
      · exact absurd h3 hj
      · exact h3
    have hij2 : g.board i = g.board j := by omega
    obtain ⟨c, _, hu⟩ := n2 (g.board j) hj2.1 hj2.2
    rw [hu i hij2, hu j rfl]
  · intro k hk
    simp only [Finset.mem_range] at hk
    obtain ⟨i, hi, _⟩ := n2 (k : Int) (by omega) (by omega)
    refine ⟨i, ?_, by rw [hi]; rfl⟩
    simp only [Finset.mem_filter, Finset.mem_univ, true_and, hi]
    omega

end TicTacToeGame

/-- Claim C32: every sequence of `HandleAction` calls on the new game ends in a game with
`0 ≤ moveNumber ≤ 9` in which exactly `moveNumber` cells are not empty, every cell that is not
empty holds a number from `0` to `moveNumber - 1`, and each of these numbers stands in
exactly one cell. -/
theorem C32_reachable_boards_are_numbered (calls : List (Int × Request)) :
    ∃ g, TicTacToeGame.play TicTacToeGame.NewTicTacToeGame calls = Except.ok g ∧
      0 ≤ g.moveNumber ∧ g.moveNumber ≤ 9 ∧
      ((Finset.univ.filter (fun i : Fin 9 => g.board i ≠ -1)).card : Int) = g.moveNumber ∧
      (∀ i, g.board i ≠ -1 → 0 ≤ g.board i ∧ g.board i < g.moveNumber) ∧
      ∀ k, 0 ≤ k → k < g.moveNumber → ∃! i, g.board i = k := by
  obtain ⟨g, hg, hn⟩ := TicTacToeGame.play_numbered calls _ TicTacToeGame.Numbered_new
  have hc := TicTacToeGame.Numbered_card g hn
  have h9 : (Finset.univ.filter (fun i : Fin 9 => g.board i ≠ -1)).card ≤ 9 := by
    have := Finset.card_le_univ (Finset.univ.filter (fun i : Fin 9 => g.board i ≠ -1))
    simpa using this
  obtain ⟨n0, n1, n2⟩ := hn
  refine ⟨g, hg, n0, by omega, by omega, ?_, ?_⟩
  · intro i hi
    rcases n1 i with h3 | h3
    · exact absurd h3 hi
    · exact h3
  · intro k k0 k1
    obtain ⟨i, hi, hu⟩ := n2 k k0 k1
    exact ⟨i, hi, hu⟩

/-- Claim C34: once a tic-tac-toe game has a recorded winner, `HandleAction` returns an error
for every seat and every request and keeps the game as it is, so after any sequence of calls
the board, the move number, the winner and the winning line are what they were. -/
theorem C34_won_game_never_changes (g : TicTacToeGame) (w : Int) (h : g.winner = some w) :
    (∀ (p : Int) (message : Request),
      ∃ e, TicTacToeGame.HandleAction g p message = Except.ok (g, some e)) ∧
    ∀ calls : List (Int × Request), TicTacToeGame.play g calls = Except.ok g :=
  ⟨fun p message => TicTacToeGame.HandleAction_won g p message w h,
    fun calls => TicTacToeGame.play_won g w h calls⟩

/-- Witness of C34: the game seat 0 has won by the top row refuses the move of seat 1 to the
empty cell 5. -/
theorem C34_witness :
    wonGame.winner = some 0 ∧
    TicTacToeGame.play wonGame [(1, moveTo 5), (0, moveTo 8)] = Except.ok wonGame :=
  ⟨by rfl, (C34_won_game_never_changes wonGame 0 (by rfl)).2 _⟩

theorem cellOf_update (board : Fin 9 → Int) (q x v : Int) (hq : 0 ≤ q ∧ q < 9) :
    cellOf (Function.update board ⟨q.toNat, by omega⟩ v) x
      = if x = q then v else cellOf board x := by
  by_cases hx : 0 ≤ x ∧ x < 9
  · rw [cellOf_inRange _ x hx, cellOf_inRange _ x hx]
    by_cases hxq : x = q
    · subst hxq
      simp
    · rw [if_neg hxq, Function.update_noteq]
      intro hf
      apply hxq
      have := congrArg Fin.val hf
      simp only at this
      omega
  · have hxq : x ≠ q := by intro hxq; rw [hxq] at hx; exact hx hq
    rw [if_neg hxq]
    simp [cellOf, boardAt, hx]

theorem lineWon_iff (board : Fin 9 → Int) (line : Int × Int × Int) :
    lineWon board line = true ↔
      (cellOf board line.1 ≠ -1 ∧ cellOf board line.2.1 ≠ -1 ∧ cellOf board line.2.2 ≠ -1 ∧
        cellOf board line.1 % 2 = cellOf board line.2.1 % 2 ∧
        cellOf board line.2.1 % 2 = cellOf board line.2.2 % 2) := by
  simp [lineWon]

namespace TicTacToeGame

/-- The method `checkWinner` on a board of move numbers: no line is won and the game is
kept, or the first won line and the seat of its first cell are recorded. -/
theorem checkWinner_spec (g g2 : TicTacToeGame) (hb : ∀ i, g.board i = -1 ∨ 0 ≤ g.board i)
    (h : checkWinner g = Except.ok g2) :
    ((∀ line ∈ WinningLines, lineWon g.board line = false) ∧ g2 = g) ∨
    ∃ line ∈ WinningLines, lineWon g.board line = true ∧
      g2.winningLine = [line.1, line.2.1, line.2.2] ∧
      g2.winner = some (cellOf g.board line.1 % 2) := by
  have hs : CheckWinner g.board = Except.ok (CheckWinner.spec g.board) :=
    CheckWinner_loop_spec g.board hb WinningLines WinningLines_inRange
  unfold CheckWinner.spec at hs
  cases hf : WinningLines.find? (lineWon g.board) with
  | none =>
    rw [hf] at hs
    left
    refine ⟨?_, ?_⟩
    · intro line hl
      have := List.find?_eq_none.1 hf line hl
      simpa using this
    · simp only [checkWinner, hs, Option.map, bind, Except.bind, pure, Except.pure] at h
      exact (Except.ok.inj h).symm
  | some line =>
    rw [hf] at hs
    right
    have hm := List.mem_of_find?_eq_some hf
    have hw := List.find?_some hf
    have hr := (WinningLines_inRange line hm).1
    refine ⟨line, hm, hw, ?_⟩
    simp only [checkWinner, hs, Option.map, bind, Except.bind, sliceAt] at h
    simp [boardAt_ok g.board _ hr, pure, Except.pure] at h
    subst h
    refine ⟨rfl, ?_⟩
    simp only [cellOf_inRange g.board _ hr]
    have hne : cellOf g.board line.1 ≠ -1 := ((lineWon_iff _ _).1 hw).1
    rw [cellOf_inRange g.board _ hr] at hne
    have h0 : 0 ≤ g.board ⟨line.1.toNat, by omega⟩ := by
      rcases hb ⟨line.1.toNat, by omega⟩ with h3 | h3
      · exact absurd h3 hne
      · exact h3
    rw [tmod_two_of_nonneg _ h0]

theorem Recorded_new : Recorded (NewTicTacToeGame, fun _ => none) := by
  refine ⟨le_refl _, ?_, fun i => Or.inl ⟨rfl, rfl⟩⟩
  intro _
  decide

end TicTacToeGame

namespace TicTacToeGame

theorem moveLog_ok (g g2 : TicTacToeGame) (log log2 : Fin 9 → Option Int) (p : Int)
    (message : Request) (h : moveLog (g, log) p message = Except.ok (g2, log2)) :
    (∃ e, HandleAction g p message = Except.ok (g2, e)) ∧
      log2 = fun i => if g2.board i ≠ g.board i then some p else log i := by
  unfold moveLog at h
  cases hh : HandleAction g p message with
  | error e => exact absurd hh (HandleAction_ok _ _ _ _)
  | ok r =>
    obtain ⟨g3, e⟩ := r
    simp only [hh, bind, Except.bind, pure, Except.pure, Except.ok.injEq, Prod.mk.injEq] at h
    obtain ⟨h1, h2⟩ := h
    subst h1
    exact ⟨⟨e, rfl⟩, h2.symm⟩

/-- What a move that records a winner does, on a game whose record agrees with its board. -/
theorem winning_move (g g2 : TicTacToeGame) (log log2 : Fin 9 → Option Int) (p : Int)
    (message : Request) (hx : Recorded (g, log))
    (h : moveLog (g, log) p message = Except.ok (g2, log2)) (hw0 : g.winner = none) (w : Int)
    (hw : g2.winner = some w) :
    w = p ∧ ∃ a b c, (a, b, c) ∈ WinningLines ∧ g2.winningLine = [a, b, c] ∧
      (∃ q ∈ [a, b, c], boardAt g.board q = Except.ok (-1) ∧
        boardAt g2.board q = Except.ok g.moveNumber) ∧
      ∀ x ∈ [a, b, c], playerAt log2 x = some p := by
  obtain ⟨⟨e, he⟩, hl⟩ := moveLog_ok g g2 log log2 p message h
  obtain ⟨k0, k3, k4⟩ := hx
  simp only at k0 k3 k4
  rcases HandleAction_step g g2 p message e he with h1 | ⟨q, hr, _, hp, hc, hcw⟩
  · rw [h1, hw0] at hw
    exact Option.noConfusion hw
  · have hb1 : ∀ i, (Function.update g.board ⟨q.toNat, by omega⟩ g.moveNumber) i = -1 ∨
        0 ≤ (Function.update g.board ⟨q.toNat, by omega⟩ g.moveNumber) i := by
      intro i
      by_cases hi : i = ⟨q.toNat, by omega⟩
      · rw [hi, Function.update_same]; exact Or.inr k0
      · rw [Function.update_noteq hi]
        rcases k4 i with h3 | h3
        · exact Or.inl h3.1
        · exact Or.inr h3.1
    obtain ⟨fb, fm⟩ := checkWinner_frame _ _ hcw
    simp only at fb fm
    rcases checkWinner_spec _ g2 hb1 hcw with ⟨_, h2⟩ | ⟨line, hm, hwon, hline, hwin⟩
    · rw [h2] at hw
      simp only [hw0] at hw
      exact Option.noConfusion hw
    · simp only at hwon hwin
      obtain ⟨a, b, c⟩ := line
      simp only at hline hwin
      have hold := k3 hw0 (a, b, c) hm
      obtain ⟨ra, rb, rc⟩ := WinningLines_inRange (a, b, c) hm
      simp only at ra rb rc
      have hw1 := (lineWon_iff _ _).1 hwon
      simp only [cellOf_update g.board q _ g.moveNumber hr] at hw1 hwin
      have hold2 : ¬ (cellOf g.board a ≠ -1 ∧ cellOf g.board b ≠ -1 ∧ cellOf g.board c ≠ -1 ∧
          cellOf g.board a % 2 = cellOf g.board b % 2 ∧
          cellOf g.board b % 2 = cellOf g.board c % 2) := by
        intro hcon
        have := (lineWon_iff g.board (a, b, c)).2 hcon
        rw [hold] at this
        exact Bool.noConfusion this
      have hpn : p = g.moveNumber % 2 := by rw [hp, tmod_two_of_nonneg _ k0]
      have hq : a = q ∨ b = q ∨ c = q := by
        by_contra hnot
        simp only [not_or] at hnot
        obtain ⟨na, nb, nc⟩ := hnot
        simp only [if_neg na, if_neg nb, if_neg nc] at hw1
        exact hold2 hw1
      have hcq : cellOf g.board q = -1 := by rw [cellOf_inRange g.board q hr]; exact hc
      -- the three cells of the line after the move have the parity of the move number
      have hpar : ∀ x, (x = a ∨ x = b ∨ x = c) →
          (if x = q then g.moveNumber else cellOf g.board x) % 2 = g.moveNumber % 2 := by
        obtain ⟨_, _, _, e1, e2⟩ := hw1
        intro x hx
        rcases hq with h5 | h5 | h5 <;> rcases hx with h6 | h6 | h6 <;> subst h5 <;> subst h6 <;>
          simp only [if_true] at e1 e2 ⊢ <;> omega
      have hwp : w = p := by
        rw [hw] at hwin
        have := Option.some.inj hwin
        rw [this, hpn]
        exact hpar a (Or.inl rfl)
      refine ⟨hwp, a, b, c, hm, hline, ?_, ?_⟩
      · have hqm : q ∈ [a, b, c] := by
          simp only [List.mem_cons, List.mem_singleton, List.not_mem_nil, or_false]
          rcases hq with h5 | h5 | h5
          · exact Or.inl h5.symm
          · exact Or.inr (Or.inl h5.symm)
          · exact Or.inr (Or.inr h5.symm)
        refine ⟨q, hqm, ?_, ?_⟩
        · rw [boardAt_ok g.board q hr, hc]
        · rw [boardAt_ok g2.board q hr, fb, Function.update_same]
      · intro x hx
        simp only [List.mem_cons, List.mem_singleton, List.not_mem_nil, or_false] at hx
        have rx : 0 ≤ x ∧ x < 9 := by
          rcases hx with h6 | h6 | h6 <;> rw [h6] <;> assumption
        have hne1 : (if x = q then g.moveNumber else cellOf g.board x) ≠ -1 := by
          obtain ⟨n1, n2, n3, _, _⟩ := hw1
          rcases hx with h6 | h6 | h6 <;> rw [h6] <;> assumption
        have hpx := hpar x hx
        simp only [playerAt, rx, and_self, dif_pos, hl, fb]
        by_cases hxq : x = q
        · subst hxq
          rw [Function.update_same, hc, if_pos (by omega)]
        · rw [if_neg hxq] at hne1 hpx
          have hfin : (⟨x.toNat, by omega⟩ : Fin 9) ≠ ⟨q.toNat, by omega⟩ := by
            intro hf
            apply hxq
            have := congrArg Fin.val hf
            simp only at this
            omega
          rw [Function.update_noteq hfin, if_neg (by simp)]
          rw [cellOf_inRange g.board x rx] at hne1 hpx
          rcases k4 ⟨x.toNat, by omega⟩ with h3 | h3
          · exact absurd h3.1 hne1
          · rw [h3.2, hpx, hpn]

end TicTacToeGame

namespace TicTacToeGame

/-- The agreement of the record with the board is kept by a call. -/
theorem Recorded_step (g g2 : TicTacToeGame) (log log2 : Fin 9 → Option Int) (p : Int)
    (message : Request) (hx : Recorded (g, log))
    (h : moveLog (g, log) p message = Except.ok (g2, log2)) : Recorded (g2, log2) := by
  obtain ⟨⟨e, he⟩, hl⟩ := moveLog_ok g g2 log log2 p message h
  obtain ⟨k0, k3, k4⟩ := hx
  simp only at k0 k3 k4
  rcases HandleAction_step g g2 p message e he with h1 | ⟨q, hr, _, hp, hc, hcw⟩
  · subst h1
    refine ⟨k0, k3, ?_⟩
    intro i
    simp only [hl, ne_eq, not_true_eq_false, if_false]
    exact k4 i
  · have hb1 : ∀ i, (Function.update g.board ⟨q.toNat, by omega⟩ g.moveNumber) i = -1 ∨
        0 ≤ (Function.update g.board ⟨q.toNat, by omega⟩ g.moveNumber) i := by
      intro i
      by_cases hi : i = ⟨q.toNat, by omega⟩
      · rw [hi, Function.update_same]; exact Or.inr k0
      · rw [Function.update_noteq hi]
        rcases k4 i with h3 | h3
        · exact Or.inl h3.1
        · exact Or.inr h3.1
    obtain ⟨fb, fm⟩ := checkWinner_frame _ _ hcw
    simp only at fb fm
    refine ⟨by simp only [fm]; omega, ?_, ?_⟩
    · intro hw
      simp only at hw ⊢
      rcases checkWinner_spec _ g2 hb1 hcw with ⟨hall, _⟩ | ⟨line, _, _, _, hwin⟩
      · rw [fb]; exact hall
      · rw [hw] at hwin
        exact Option.noConfusion hwin
    · intro i
      simp only [hl, fb]
      by_cases hi : i = ⟨q.toNat, by omega⟩
      · subst hi
        rw [Function.update_same, hc, if_pos (by omega)]
        exact Or.inr ⟨k0, by rw [hp, tmod_two_of_nonneg _ k0]⟩
      · rw [Function.update_noteq hi, if_neg (by simp)]
        exact k4 i

/-- Every sequence of calls with the record ends, and the record agrees with the board at
the end when it did at the start. -/
theorem playLog_recorded (calls : List (Int × Request))
    (x : TicTacToeGame × (Fin 9 → Option Int)) (hx : Recorded x) :
    ∃ y, playLog x calls = Except.ok y ∧ Recorded y := by
  induction calls generalizing x with
  | nil => exact ⟨x, rfl, hx⟩
  | cons call rest ih =>
    obtain ⟨g, log⟩ := x
    cases hh : moveLog (g, log) call.1 call.2 with
    | error e =>
      exfalso
      unfold moveLog at hh
      cases h2 : HandleAction g call.1 call.2 with
      | error e2 => exact absurd h2 (HandleAction_ok _ _ _ _)
      | ok r => simp [h2, bind, Except.bind, pure, Except.pure] at hh
    | ok y =>
      obtain ⟨g1, log1⟩ := y
      obtain ⟨z, hz, rz⟩ := ih (g1, log1) (Recorded_step g g1 log log1 call.1 call.2 hx hh)
      refine ⟨z, ?_, rz⟩
      simp only [playLog, hh, bind, Except.bind]
      exact hz

/-- The game of `playLog` is the game of `play`. -/
theorem playLog_play (calls : List (Int × Request))
    (x y : TicTacToeGame × (Fin 9 → Option Int)) (h : playLog x calls = Except.ok y) :
    play x.1 calls = Except.ok y.1 := by
  induction calls generalizing x with
  | nil =>
    simp only [playLog, pure, Except.pure, Except.ok.injEq] at h
    rw [h]; rfl
  | cons call rest ih =>
    obtain ⟨g, log⟩ := x
    cases hh : moveLog (g, log) call.1 call.2 with
    | error e => simp [playLog, hh, bind, Except.bind] at h
    | ok z =>
      obtain ⟨g1, log1⟩ := z
      obtain ⟨⟨e, he⟩, _⟩ := moveLog_ok g g1 log log1 call.1 call.2 hh
      simp only [playLog, hh, bind, Except.bind] at h
      simp only [play, he, bind, Except.bind]
      exact ih (g1, log1) h

end TicTacToeGame

/-- Claim C33: in a game reached from the new game by `HandleAction` calls, with the seat of
every accepted move recorded at the cell it played, a call of seat `p` that causes a winner to
be recorded records `p` as the winner and a line of `WinningLines` as the winning line; the
line contains the cell just played (empty before, holding the move number after), and all
three cells of the line were played by seat `p`. -/
theorem C33_recorded_winner_made_the_winning_move (calls : List (Int × Request))
    (g g2 : TicTacToeGame) (log log2 : Fin 9 → Option Int) (p : Int) (message : Request)
    (w : Int)
    (hplay : TicTacToeGame.playLog (TicTacToeGame.NewTicTacToeGame, fun _ => none) calls
      = Except.ok (g, log))
    (hmove : TicTacToeGame.moveLog (g, log) p message = Except.ok (g2, log2))
    (hbefore : g.winner = none) (hafter : g2.winner = some w) :
    TicTacToeGame.play TicTacToeGame.NewTicTacToeGame (calls ++ [(p, message)])
        = Except.ok g2 ∧
      w = p ∧ ∃ a b c, (a, b, c) ∈ WinningLines ∧ g2.winningLine = [a, b, c] ∧
      (∃ q ∈ [a, b, c], boardAt g.board q = Except.ok (-1) ∧
        boardAt g2.board q = Except.ok g.moveNumber) ∧
      ∀ x ∈ [a, b, c], playerAt log2 x = some p := by
  obtain ⟨y, hy, ry⟩ := TicTacToeGame.playLog_recorded calls _ TicTacToeGame.Recorded_new
  rw [hplay] at hy
  have hyy := Except.ok.inj hy
  subst hyy
  refine ⟨?_, TicTacToeGame.winning_move g g2 log log2 p message ry hmove hbefore w hafter⟩
  have h2 : TicTacToeGame.playLog (TicTacToeGame.NewTicTacToeGame, fun _ => none)
      (calls ++ [(p, message)]) = Except.ok (g2, log2) := by
    have : ∀ (cs : List (Int × Request)) (x y : TicTacToeGame × (Fin 9 → Option Int)),
        TicTacToeGame.playLog x cs = Except.ok y →
        TicTacToeGame.playLog x (cs ++ [(p, message)])
          = TicTacToeGame.moveLog y p message := by
      intro cs
      induction cs with
      | nil =>
        intro x y hxy
        simp only [TicTacToeGame.playLog, pure, Except.pure, Except.ok.injEq] at hxy
        subst hxy
        simp only [List.nil_append, TicTacToeGame.playLog, bind, Except.bind]
        cases TicTacToeGame.moveLog x p message <;> rfl
      | cons c rest ih =>
        intro x y hxy
        cases hm : TicTacToeGame.moveLog x c.1 c.2 with
        | error e => simp [TicTacToeGame.playLog, hm, bind, Except.bind] at hxy
        | ok z =>
          simp only [TicTacToeGame.playLog, hm, bind, Except.bind] at hxy
          simp only [List.cons_append, TicTacToeGame.playLog, hm, bind, Except.bind]
          exact ih z y hxy
    rw [this calls _ _ hplay, hmove]
  exact TicTacToeGame.playLog_play _ _ _ h2

/-- Witness of C33: after cells 0, 3, 1, 4 played in turn, the move of seat 0 to cell 2
records seat 0 as the winner, with the top row as the winning line. -/
theorem C33_witness :
    wonLogged.1.winner = some 0 ∧ wonLogged.1.winningLine = [0, 1, 2] ∧
    ((0 : Int) = 0 ∧ ∃ a b c, (a, b, c) ∈ WinningLines ∧ wonLogged.1.winningLine = [a, b, c] ∧
      (∃ q ∈ [a, b, c], boardAt openingLogged.1.board q = Except.ok (-1) ∧
        boardAt wonLogged.1.board q = Except.ok openingLogged.1.moveNumber) ∧
      ∀ x ∈ [a, b, c], playerAt wonLogged.2 x = some 0) :=
  ⟨by rfl, by rfl,
    (C33_recorded_winner_made_the_winning_move openingCalls openingLogged.1 wonLogged.1
      openingLogged.2 wonLogged.2 0 (moveTo 2) 0 (by rfl) (by rfl) (by rfl) (by rfl)).2⟩

/-! ## The user ids of AI players -/

theorem digitChar_ne_underscore (d : Nat) (h : d < 10) : Nat.digitChar d ≠ '_' := by
  interval_cases d <;> decide

theorem digitChar_value (d : Nat) (h : d < 10) : (Nat.digitChar d).toNat - 48 = d := by
  interval_cases d <;> rfl

/-- The digits `Nat.toDigitsCore` puts before its accumulator: none is an underscore, and
they spell the number. -/
theorem toDigitsCore_spec (fuel : Nat) : ∀ (n : Nat) (ds : List Char), n < fuel →
    ∃ pre : List Char, Nat.toDigitsCore 10 fuel n ds = pre ++ ds ∧ (∀ c ∈ pre, c ≠ '_') ∧
      pre.foldl (fun a c => a * 10 + (c.toNat - 48)) 0 = n := by
  induction fuel with
  | zero => intro n ds h; omega
  | succ fuel ih =>
    intro n ds h
    unfold Nat.toDigitsCore
    simp only
    by_cases hz : n / 10 = 0
    · rw [if_pos hz]
      refine ⟨[Nat.digitChar (n % 10)], rfl, ?_, ?_⟩
      · intro c hc
        simp only [List.mem_singleton] at hc
        rw [hc]
        exact digitChar_ne_underscore _ (Nat.mod_lt _ (by decide))
      · simp only [List.foldl_cons, List.foldl_nil, Nat.zero_mul, Nat.zero_add]
        rw [digitChar_value _ (Nat.mod_lt _ (by decide))]
        omega
    · rw [if_neg hz]
      obtain ⟨pre, h1, h2, h3⟩ := ih (n / 10) (Nat.digitChar (n % 10) :: ds) (by omega)
      refine ⟨pre ++ [Nat.digitChar (n % 10)], ?_, ?_, ?_⟩
      · rw [h1]; simp
      · intro c hc
        simp only [List.mem_append, List.mem_singleton] at hc
        rcases hc with hc | hc
        · exact h2 c hc
        · rw [hc]
          exact digitChar_ne_underscore _ (Nat.mod_lt _ (by decide))
      · rw [List.foldl_append, h3]
        simp only [List.foldl_cons, List.foldl_nil]
        rw [digitChar_value _ (Nat.mod_lt _ (by decide))]
        omega

/-- The text of `%d` for a number that is not negative: digits without an underscore that
spell the number. -/
theorem fmtInt_spec (p : Int) (h : 0 ≤ p) :
    (∀ c ∈ (fmtInt p).data, c ≠ '_') ∧
      (fmtInt p).data.foldl (fun a c => a * 10 + (c.toNat - 48)) 0 = p.toNat := by
  obtain ⟨n, rfl⟩ := Int.eq_ofNat_of_zero_le h
  have hd : (fmtInt (n : Int)).data = Nat.toDigits 10 n := rfl
  rw [hd]
  obtain ⟨pre, h1, h2, h3⟩ := toDigitsCore_spec (n + 1) n [] (by omega)
  have : Nat.toDigits 10 n = pre := by
    unfold Nat.toDigits
    rw [h1, List.append_nil]
  rw [this]
  exact ⟨h2, by simpa using h3⟩

/-- Two texts that end in an underscore and a tail without underscores have the same
tail. -/
theorem tail_after_underscore (xs ys ds es : List Char) (hd : ∀ c ∈ ds, c ≠ '_')
    (he : ∀ c ∈ es, c ≠ '_') (h : xs ++ '_' :: ds = ys ++ '_' :: es) : ds = es := by
  have hr := congrArg List.reverse h
  simp only [List.reverse_append, List.reverse_cons, List.append_assoc, List.singleton_append]
    at hr
  have key : ∀ (a b r s : List Char), (∀ c ∈ a, c ≠ '_') → (∀ c ∈ b, c ≠ '_') →
      a ++ '_' :: r = b ++ '_' :: s → a = b := by
    intro a
    induction a with
    | nil =>
      intro b r s _ hb hab
      cases b with
      | nil => rfl
      | cons c b =>
        simp only [List.nil_append, List.cons_append, List.cons.injEq] at hab
        exact absurd hab.1.symm (hb c (List.mem_cons_self _ _))
    | cons c a ih =>
      intro b r s ha hb hab
      cases b with
      | nil =>
        simp only [List.nil_append, List.cons_append, List.cons.injEq] at hab
        exact absurd hab.1 (ha c (List.mem_cons_self _ _))
      | cons d b =>
        simp only [List.cons_append, List.cons.injEq] at hab
        rw [hab.1, ih b r s (fun x hx => ha x (List.mem_cons_of_mem _ hx))
          (fun x hx => hb x (List.mem_cons_of_mem _ hx)) hab.2]
  have := key ds.reverse es.reverse xs.reverse ys.reverse
    (fun c hc => hd c (List.mem_reverse.1 hc)) (fun c hc => he c (List.mem_reverse.1 hc)) hr
  exact List.reverse_injective this

/-- The user id `ai_<type>_<position>` of an AI tells its position. -/
theorem aiUserID_position (t1 t2 : String) (p1 p2 : Int) (h1 : 0 ≤ p1) (h2 : 0 ≤ p2)
    (h : "ai_" ++ t1 ++ "_" ++ fmtInt p1 = "ai_" ++ t2 ++ "_" ++ fmtInt p2) : p1 = p2 := by
  have hdata := congrArg String.data h
  simp only [String.data_append] at hdata
  simp only [List.append_assoc, List.singleton_append] at hdata
  obtain ⟨d1, v1⟩ := fmtInt_spec p1 h1
  obtain ⟨d2, v2⟩ := fmtInt_spec p2 h2
  have ht := tail_after_underscore (['a', 'i', '_'] ++ t1.data) (['a', 'i', '_'] ++ t2.data)
    _ _ d1 d2 (by simpa only [List.append_assoc] using hdata)
  rw [ht, v2] at v1
  omega

/-- A user id that does not start with `ai_` is not the user id of an AI. -/
theorem aiUserID_starts (t : String) (p : Int) :
    strings.HasPrefix ("ai_" ++ t ++ "_" ++ fmtInt p) "ai_" = true := by
  simp only [strings.HasPrefix, String.data_append, List.append_assoc]
  exact List.isPrefixOf_iff_prefix.2 ⟨_, rfl⟩

/-! ## The seats of the player mapping -/

namespace PlayerPositionMapping

/-- Seating a user without a seat at an empty seat keeps the two maps inverse. -/
theorem MutuallyInverse_seat (m : PlayerPositionMapping) (u : String) (p : Int)
    (slot : PlayerSlot) (hm : m.MutuallyInverse) (hu : m.userToPos.get? u = none)
    (hp : m.slots.get? p = none) (hs : slot.UserID = u) :
    MutuallyInverse { m with slots := m.slots.set p slot, userToPos := m.userToPos.set u p } := by
  intro u2 p2
  simp only
  by_cases h1 : u2 = u
  · subst h1
    rw [GoMap.get?_set_self]
    by_cases h2 : p2 = p
    · subst h2
      rw [GoMap.get?_set_self]
      exact ⟨fun _ => ⟨slot, rfl, hs⟩, fun _ => rfl⟩
    · rw [GoMap.get?_set_ne _ _ _ _ h2]
      constructor
      · intro h; exact absurd (Option.some.inj h).symm h2
      · intro h
        rw [(hm u2 p2).2 h] at hu
        exact Option.noConfusion hu
  · rw [GoMap.get?_set_ne _ _ _ _ h1]
    by_cases h2 : p2 = p
    · subst h2
      rw [GoMap.get?_set_self]
      constructor
      · intro h
        obtain ⟨s2, h3, _⟩ := (hm u2 p2).1 h
        rw [hp] at h3
        exact Option.noConfusion h3
      · rintro ⟨s2, h3, h4⟩
        rw [← Option.some.inj h3, hs] at h4
        exact absurd h4.symm h1
    · rw [GoMap.get?_set_ne _ _ _ _ h2]
      exact hm u2 p2

/-- Taking the occupant of a seat out of both maps keeps them inverse. -/
theorem MutuallyInverse_unseat (m : PlayerPositionMapping) (p : Int) (slot : PlayerSlot)
    (hm : m.MutuallyInverse) (hp : m.slots.get? p = some slot) :
    MutuallyInverse
      { m with slots := m.slots.delete p, userToPos := m.userToPos.delete slot.UserID } := by
  intro u2 p2
  simp only
  have hup : m.userToPos.get? slot.UserID = some p := (hm _ _).2 ⟨slot, hp, rfl⟩
  by_cases h1 : u2 = slot.UserID
  · subst h1
    rw [GoMap.get?_delete_self]
    constructor
    · intro h; exact Option.noConfusion h
    · rintro ⟨s2, h3, h4⟩
      by_cases h2 : p2 = p
      · subst h2
        rw [GoMap.get?_delete_self] at h3
        exact Option.noConfusion h3
      · rw [GoMap.get?_delete_ne _ _ _ h2] at h3
        have := (hm slot.UserID p2).2 ⟨s2, h3, h4⟩
        rw [hup] at this
        exact absurd (Option.some.inj this).symm h2
  · rw [GoMap.get?_delete_ne _ _ _ h1]
    by_cases h2 : p2 = p
    · subst h2
      rw [GoMap.get?_delete_self]
      constructor
      · intro h
        obtain ⟨s2, h3, h4⟩ := (hm u2 p2).1 h
        rw [hp] at h3
        rw [← Option.some.inj h3] at h4
        exact absurd h4.symm h1
      · rintro ⟨s2, h3, _⟩
        exact Option.noConfusion h3
    · rw [GoMap.get?_delete_ne _ _ _ h2]
      exact hm u2 p2

/-- In a well-seated mapping the user id of an AI for an empty seat is not in use. -/
theorem WellSeated_ai_free (m : PlayerPositionMapping) (hm : m.WellSeated) (p : Int)
    (h0 : 0 ≤ p) (hp : m.slots.get? p = none) (t : String) :
    m.userToPos.get? ("ai_" ++ t ++ "_" ++ fmtInt p) = none := by
  cases hu : m.userToPos.get? ("ai_" ++ t ++ "_" ++ fmtInt p) with
  | none => rfl
  | some p2 =>
    exfalso
    obtain ⟨s2, h3, h4⟩ := (hm.1 _ _).1 hu
    obtain ⟨r0, _, hk⟩ := hm.2 p2 s2 h3
    rcases hk with ⟨_, hid⟩ | ⟨_, hpre⟩
    · rw [hid] at h4
      have := aiUserID_position _ _ _ _ r0 h0 h4
      rw [this, hp] at h3
      exact Option.noConfusion h3
    · rw [h4, aiUserID_starts] at hpre
      exact Bool.noConfusion hpre

theorem WellSeated_new (maxPlayers : Int) : (NewPlayerPositionMapping maxPlayers).WellSeated := by
  refine ⟨?_, ?_⟩
  · intro u p
    constructor
    · intro h; exact Option.noConfusion h
    · rintro ⟨s, h, _⟩; exact Option.noConfusion h
  · intro p s h
    exact Option.noConfusion h

theorem WellSeated_seat (m : PlayerPositionMapping) (u : String) (p : Int)
    (slot : PlayerSlot) (hm : m.WellSeated) (hu : m.userToPos.get? u = none)
    (hp : m.slots.get? p = none) (hs : slot.UserID = u) (h0 : 0 ≤ p) (h1 : p < m.maxPlayers)
    (hk : (slot.IsAI = true ∧ slot.UserID = "ai_" ++ slot.AIType ++ "_" ++ fmtInt p) ∨
      (slot.IsAI = false ∧ strings.HasPrefix slot.UserID "ai_" = false)) :
    WellSeated { m with slots := m.slots.set p slot, userToPos := m.userToPos.set u p } := by
  refine ⟨MutuallyInverse_seat m u p slot hm.1 hu hp hs, ?_⟩
  intro p2 s2 h2
  simp only at h2 ⊢
  by_cases h3 : p2 = p
  · subst h3
    rw [GoMap.get?_set_self] at h2
    rw [← Option.some.inj h2]
    exact ⟨h0, h1, hk⟩
  · rw [GoMap.get?_set_ne _ _ _ _ h3] at h2
    exact hm.2 p2 s2 h2

theorem WellSeated_unseat (m : PlayerPositionMapping) (p : Int) (slot : PlayerSlot)
    (hm : m.WellSeated) (hp : m.slots.get? p = some slot) :
    WellSeated
      { m with slots := m.slots.delete p, userToPos := m.userToPos.delete slot.UserID } := by
  refine ⟨MutuallyInverse_unseat m p slot hm.1 hp, ?_⟩
  intro p2 s2 h2
  simp only at h2 ⊢
  by_cases h3 : p2 = p
  · subst h3
    rw [GoMap.get?_delete_self] at h2
    exact Option.noConfusion h2
  · rw [GoMap.get?_delete_ne _ _ _ h3] at h2
    exact hm.2 p2 s2 h2

/-- The method `joinPosition` by a user whose id does not start with `ai_` keeps the
mapping well seated. -/
theorem WellSeated_joinPosition (w : World) (m : PlayerPositionMapping) (u : String) (p : Int)
    (hm : m.WellSeated) (hu : strings.HasPrefix u "ai_" = false) :
    (joinPosition w m u p).1.WellSeated := by
  by_cases h1 : p < 0 ∨ p ≥ m.maxPlayers
  · simp only [joinPosition, if_pos h1]; exact hm
  · cases hg : m.userToPos.get? u with
    | some ex =>
      by_cases h2 : ex = p
      · simp only [joinPosition, if_neg h1, hg, if_pos h2]; exact hm
      · simp only [joinPosition, if_neg h1, hg, if_neg h2]; exact hm
    | none =>
      cases hs : m.slots.get? p with
      | some s =>
        simp only [joinPosition, if_neg h1, hg, hs, Option.isSome_some, if_true]; exact hm
      | none =>
        simp only [joinPosition, if_neg h1, hg, hs, Option.isSome_none, Bool.false_eq_true,
          if_false]
        exact WellSeated_seat m u p _ hm hg hs rfl (by omega) (by omega) (Or.inr ⟨rfl, hu⟩)

theorem WellSeated_leavePosition (m : PlayerPositionMapping) (u : String) (hm : m.WellSeated) :
    (leavePosition m u).1.WellSeated := by
  cases hg : m.userToPos.get? u with
  | none => simp only [leavePosition, hg]; exact hm
  | some p =>
    simp only [leavePosition, hg]
    obtain ⟨s, h1, h2⟩ := (hm.1 u p).1 hg
    have := WellSeated_unseat m p s hm h1
    rw [h2] at this
    exact this

theorem WellSeated_removeAI (m : PlayerPositionMapping) (p : Int) (hm : m.WellSeated) :
    (removeAI m p).1.WellSeated := by
  by_cases h1 : p < 0 ∨ p ≥ m.maxPlayers
  · simp only [removeAI, if_pos h1]; exact hm
  · cases hs : m.slots.get? p with
    | none => simp only [removeAI, if_neg h1, hs]; exact hm
    | some s =>
      by_cases h2 : s.IsAI = true
      · simp only [removeAI, if_neg h1, hs, h2, not_true_eq_false, if_false]
        exact WellSeated_unseat m p s hm hs
      · simp only [removeAI, if_neg h1, hs, h2, not_false_eq_true, if_true]
        exact hm

theorem WellSeated_addAI (w : World) (m m2 : PlayerPositionMapping) (p : Int) (t : String)
    (e : Option String) (hm : m.WellSeated) (h : addAI w m p t = Except.ok (m2, e)) :
    m2.WellSeated := by
  unfold addAI at h
  by_cases h1 : p < 0 ∨ p ≥ m.maxPlayers
  · simp only [if_pos h1, pure, Except.pure, Except.ok.injEq, Prod.mk.injEq] at h
    rw [← h.1]; exact hm
  · cases hs : m.slots.get? p with
    | some s =>
      simp only [if_neg h1, hs, Option.isSome_some, if_true, pure, Except.pure, Except.ok.injEq,
        Prod.mk.injEq] at h
      rw [← h.1]; exact hm
    | none =>
      simp only [if_neg h1, hs, Option.isSome_none, Bool.false_eq_true, if_false] at h
      cases hn : generateAIName w m with
      | error e2 => exact absurd hn (generateAIName_ok w m e2)
      | ok name =>
        simp only [hn, bind, Except.bind, pure, Except.pure, Except.ok.injEq, Prod.mk.injEq] at h
        rw [← h.1]
        exact WellSeated_seat m _ p _ hm (WellSeated_ai_free m hm p (by omega) hs t) hs rfl
          (by omega) (by omega) (Or.inl ⟨rfl, rfl⟩)

/-- A call of `HandleSessionEvent` by a user whose id does not start with `ai_` keeps the
mapping well seated. -/
theorem WellSeated_HandleSessionEvent (w : World) (m m2 : PlayerPositionMapping) (u : String)
    (request : Request) (e : Option String) (hm : m.WellSeated)
    (hu : strings.HasPrefix u "ai_" = false)
    (h : HandleSessionEvent w m u request = Except.ok (m2, e)) : m2.WellSeated := by
  unfold HandleSessionEvent at h
  have pair : ∀ (x : PlayerPositionMapping × Option String),
      (pure x : Go (PlayerPositionMapping × Option String)) = Except.ok (m2, e) →
      x.1 = m2 := by
    intro x hx
    simp only [pure, Except.pure, Except.ok.injEq] at hx
    rw [hx]
  split_ifs at h
  · split at h
    · rw [← pair _ h]; exact hm
    · rw [← pair _ h]; exact WellSeated_joinPosition w m u _ hm hu
  · rw [← pair _ h]; exact WellSeated_leavePosition m u hm
  · split at h
    · rw [← pair _ h]; exact hm
    · split at h
      · rw [← pair _ h]; exact hm
      · exact WellSeated_addAI w m m2 _ _ e hm h
  · split at h
    · rw [← pair _ h]; exact hm
    · rw [← pair _ h]; exact WellSeated_removeAI m _ hm
  · rw [← pair _ h]; exact hm

theorem maxPlayers_joinPosition (w : World) (m : PlayerPositionMapping) (u : String)
    (p : Int) : (joinPosition w m u p).1.maxPlayers = m.maxPlayers := by
  by_cases h1 : p < 0 ∨ p ≥ m.maxPlayers
  · simp only [joinPosition, if_pos h1]
  · cases hg : m.userToPos.get? u with
    | some ex =>
      by_cases h2 : ex = p
      · simp only [joinPosition, if_neg h1, hg, if_pos h2]
      · simp only [joinPosition, if_neg h1, hg, if_neg h2]
    | none =>
      cases hs : m.slots.get? p with
      | some s => simp only [joinPosition, if_neg h1, hg, hs, Option.isSome_some, if_true]
      | none =>
        simp only [joinPosition, if_neg h1, hg, hs, Option.isSome_none, Bool.false_eq_true,
          if_false]

theorem maxPlayers_leavePosition (m : PlayerPositionMapping) (u : String) :
    (leavePosition m u).1.maxPlayers = m.maxPlayers := by
  cases hg : m.userToPos.get? u with
  | none => simp only [leavePosition, hg]
  | some p => simp only [leavePosition, hg]

theorem maxPlayers_removeAI (m : PlayerPositionMapping) (p : Int) :
    (removeAI m p).1.maxPlayers = m.maxPlayers := by
  by_cases h1 : p < 0 ∨ p ≥ m.maxPlayers
  · simp only [removeAI, if_pos h1]
  · cases hs : m.slots.get? p with
    | none => simp only [removeAI, if_neg h1, hs]
    | some s =>
      by_cases h2 : s.IsAI = true
      · simp only [removeAI, if_neg h1, hs, h2, not_true_eq_false, if_false]
      · simp only [removeAI, if_neg h1, hs, h2, not_false_eq_true, if_true]
        rfl

theorem maxPlayers_addAI (w : World) (m m2 : PlayerPositionMapping) (p : Int) (t : String)
    (e : Option String) (h : addAI w m p t = Except.ok (m2, e)) :
    m2.maxPlayers = m.maxPlayers := by
  unfold addAI at h
  by_cases h1 : p < 0 ∨ p ≥ m.maxPlayers
  · simp only [if_pos h1, pure, Except.pure, Except.ok.injEq, Prod.mk.injEq] at h
    rw [← h.1]
  · cases hs : m.slots.get? p with
    | some s =>
      simp only [if_neg h1, hs, Option.isSome_some, if_true, pure, Except.pure, Except.ok.injEq,
        Prod.mk.injEq] at h
      rw [← h.1]
    | none =>
      simp only [if_neg h1, hs, Option.isSome_none, Bool.false_eq_true, if_false] at h
      cases hn : generateAIName w m with
      | error e2 => exact absurd hn (generateAIName_ok w m e2)
      | ok name =>
        simp only [hn, bind, Except.bind, pure, Except.pure, Except.ok.injEq, Prod.mk.injEq] at h
        rw [← h.1]

theorem maxPlayers_HandleSessionEvent (w : World) (m m2 : PlayerPositionMapping) (u : String)
    (request : Request) (e : Option String)
    (h : HandleSessionEvent w m u request = Except.ok (m2, e)) :
    m2.maxPlayers = m.maxPlayers := by
  unfold HandleSessionEvent at h
  have pair : ∀ (x : PlayerPositionMapping × Option String),
      (pure x : Go (PlayerPositionMapping × Option String)) = Except.ok (m2, e) →
      x.1 = m2 := by
    intro x hx
    simp only [pure, Except.pure, Except.ok.injEq] at hx
    rw [hx]
  split_ifs at h
  · split at h
    · rw [← pair _ h]
    · rw [← pair _ h]; exact maxPlayers_joinPosition w m u _
  · rw [← pair _ h]; exact maxPlayers_leavePosition m u
  · split at h
    · rw [← pair _ h]
    · split at h
      · rw [← pair _ h]
      · exact maxPlayers_addAI w m m2 _ _ e h
  · split at h
    · rw [← pair _ h]
    · rw [← pair _ h]; exact maxPlayers_removeAI m _
  · rw [← pair _ h]

/-- Every sequence of session events by users whose ids do not start with `ai_` ends, in a
well-seated mapping with the same number of seats when it started in one. -/
theorem runEvents_wellSeated (events : List (World × String × Request))
    (hu : ∀ ev ∈ events, strings.HasPrefix ev.2.1 "ai_" = false) (m : PlayerPositionMapping)
    (hm : m.WellSeated) :
    ∃ m2, runEvents m events = Except.ok m2 ∧ m2.WellSeated ∧ m2.maxPlayers = m.maxPlayers := by
  induction events generalizing m with
  | nil => exact ⟨m, rfl, hm, rfl⟩
  | cons ev rest ih =>
    cases hh : HandleSessionEvent ev.1 m ev.2.1 ev.2.2 with
    | error e => exact absurd hh (HandleSessionEvent_ok _ _ _ _ _)
    | ok r =>
      obtain ⟨m1, e⟩ := r
      have w1 := WellSeated_HandleSessionEvent ev.1 m m1 ev.2.1 ev.2.2 e hm
        (hu ev (List.mem_cons_self _ _)) hh
      obtain ⟨m2, h2, w2, x2⟩ := ih (fun x hx => hu x (List.mem_cons_of_mem _ hx)) m1 w1
      refine ⟨m2, ?_, w2, ?_⟩
      · simp only [runEvents, hh, bind, Except.bind]
        exact h2
      · rw [x2, maxPlayers_HandleSessionEvent ev.1 m m1 ev.2.1 ev.2.2 e hh]

end PlayerPositionMapping

/-- Claim C31: `joinPosition(u, p)` returns no error exactly when `0 ≤ p < maxPlayers` and
either `userToPos[u]` is `p`, and then the mapping is unchanged, or `u` is not in `userToPos`
and `slots[p]` is empty, and then `GetPlayerPosition(u)` is `(p, true)` and `slots[p]` holds
`u` as a player that is not an AI; it returns an error and keeps the mapping when `u` holds
another seat or when seat `p` is occupied while `u` holds none; and the request
`join_position` of `HandleSessionEvent` is this call at the position it carries. -/
theorem C31_join_position_succeeds_iff (w : World) (m : PlayerPositionMapping) (u : String)
    (p : Int) :
    ((PlayerPositionMapping.joinPosition w m u p).2 = none ↔
      (0 ≤ p ∧ p < m.maxPlayers ∧
        (m.userToPos.get? u = some p ∨
          (m.userToPos.get? u = none ∧ m.slots.get? p = none)))) ∧
    (0 ≤ p → p < m.maxPlayers → m.userToPos.get? u = some p →
      PlayerPositionMapping.joinPosition w m u p = (m, none)) ∧
    (0 ≤ p → p < m.maxPlayers → m.userToPos.get? u = none → m.slots.get? p = none →
      PlayerPositionMapping.GetPlayerPosition
          (PlayerPositionMapping.joinPosition w m u p).1 u = (p, true) ∧
        ∃ slot, (PlayerPositionMapping.joinPosition w m u p).1.slots.get? p = some slot ∧
          slot.UserID = u ∧ slot.IsAI = false) ∧
    (∀ p2, m.userToPos.get? u = some p2 → p2 ≠ p →
      ∃ e, PlayerPositionMapping.joinPosition w m u p = (m, some e)) ∧
    (m.userToPos.get? u = none → (m.slots.get? p).isSome = true →
      ∃ e, PlayerPositionMapping.joinPosition w m u p = (m, some e)) ∧
    (∀ request : Request, request.FunctionName = "join_position" →
      request.float64Param "position" = some (Float64.ofInt p) →
      -(2 ^ 63 : Int) ≤ p → p < 2 ^ 63 →
      PlayerPositionMapping.HandleSessionEvent w m u request
        = Except.ok (PlayerPositionMapping.joinPosition w m u p)) := by
  refine ⟨?_, ?_, ?_, ?_, ?_, ?_⟩
  · by_cases h1 : p < 0 ∨ p ≥ m.maxPlayers
    · simp only [PlayerPositionMapping.joinPosition, if_pos h1]
      constructor
      · intro h; exact Option.noConfusion h
      · rintro ⟨h2, h3, _⟩; omega
    · cases hg : m.userToPos.get? u with
      | some ex =>
        by_cases h2 : ex = p
        · simp only [PlayerPositionMapping.joinPosition, if_neg h1, hg, if_pos h2]
          exact ⟨fun _ => ⟨by omega, by omega, Or.inl (by rw [h2])⟩, fun _ => trivial⟩
        · simp only [PlayerPositionMapping.joinPosition, if_neg h1, hg, if_neg h2]
          constructor
          · intro h; exact Option.noConfusion h
          · rintro ⟨_, _, h3 | h3⟩
            · exact absurd (Option.some.inj h3) h2
            · exact Option.noConfusion h3.1
      | none =>
        cases hs : m.slots.get? p with
        | some s =>
          simp only [PlayerPositionMapping.joinPosition, if_neg h1, hg, hs, Option.isSome_some,
            if_true]
          constructor
          · intro h; exact Option.noConfusion h
          · rintro ⟨_, _, h3 | h3⟩
            · exact Option.noConfusion h3
            · exact Option.noConfusion h3.2
        | none =>
          simp only [PlayerPositionMapping.joinPosition, if_neg h1, hg, hs, Option.isSome_none,
            Bool.false_eq_true, if_false]
          exact ⟨fun _ => ⟨by omega, by omega, Or.inr ⟨trivial, trivial⟩⟩, fun _ => trivial⟩
  · intro h0 h1 hg
    have hn : ¬ (p < 0 ∨ p ≥ m.maxPlayers) := by omega
    simp only [PlayerPositionMapping.joinPosition, if_neg hn, hg, if_true]
  · intro h0 h1 hg hs
    have hn : ¬ (p < 0 ∨ p ≥ m.maxPlayers) := by omega
    simp only [PlayerPositionMapping.joinPosition, if_neg hn, hg, hs, Option.isSome_none,
      Bool.false_eq_true, if_false, PlayerPositionMapping.GetPlayerPosition,
      GoMap.get?_set_self]
    exact ⟨trivial, _, rfl, rfl, rfl⟩
  · intro p2 hg hne
    by_cases h1 : p < 0 ∨ p ≥ m.maxPlayers
    · exact ⟨_, by simp only [PlayerPositionMapping.joinPosition, if_pos h1]; rfl⟩
    · exact ⟨_, by simp only [PlayerPositionMapping.joinPosition, if_neg h1, hg, if_neg hne]; rfl⟩
  · intro hg hs
    by_cases h1 : p < 0 ∨ p ≥ m.maxPlayers
    · exact ⟨_, by simp only [PlayerPositionMapping.joinPosition, if_pos h1]; rfl⟩
    · exact ⟨_, by simp only [PlayerPositionMapping.joinPosition, if_neg h1, hg, hs, if_true]; rfl⟩
  · intro request hf hq h0 h1
    have ht : (Float64.ofInt p).toInt = p := by
      rw [Float64.toInt_ofInt, if_pos ⟨h0, h1⟩]
    simp only [PlayerPositionMapping.HandleSessionEvent, hf, if_true, hq, ht, pure,
      Except.pure]

/-- Claim C35: every sequence of session events on a fresh mapping by users whose ids do not
start with `ai_` ends in a mapping whose two maps are inverse to each other:
`userToPos[u] = p` exactly when `slots[p]` exists with the user id `u`; so no user id stands
in two seats, and every occupied seat lies in `0..maxPlayers-1`. -/
theorem C35_seat_maps_stay_mutually_inverse (maxPlayers : Int)
    (events : List (World × String × Request))
    (hu : ∀ ev ∈ events, strings.HasPrefix ev.2.1 "ai_" = false) :
    ∃ m, PlayerPositionMapping.runEvents
        (PlayerPositionMapping.NewPlayerPositionMapping maxPlayers) events = Except.ok m ∧
      (∀ (u : String) (p : Int),
        m.userToPos.get? u = some p ↔ ∃ slot, m.slots.get? p = some slot ∧ slot.UserID = u) ∧
      (∀ (p1 p2 : Int) (s1 s2 : PlayerSlot), m.slots.get? p1 = some s1 →
        m.slots.get? p2 = some s2 → s1.UserID = s2.UserID → p1 = p2) ∧
      (∀ (p : Int) (slot : PlayerSlot), m.slots.get? p = some slot →
        0 ≤ p ∧ p ≤ maxPlayers - 1) ∧
      (∀ (u : String) (p : Int), m.userToPos.get? u = some p → 0 ≤ p ∧ p ≤ maxPlayers - 1) := by
  obtain ⟨m, h1, hw, hx⟩ := PlayerPositionMapping.runEvents_wellSeated events hu _
    (PlayerPositionMapping.WellSeated_new maxPlayers)
  have hmax : m.maxPlayers = maxPlayers := hx
  have hr : ∀ (p : Int) (slot : PlayerSlot), m.slots.get? p = some slot →
      0 ≤ p ∧ p ≤ maxPlayers - 1 := by
    intro p slot hs
    obtain ⟨r0, r1, _⟩ := hw.2 p slot hs
    rw [hmax] at r1
    exact ⟨r0, by omega⟩
  refine ⟨m, h1, hw.1, ?_, hr, ?_⟩
  · intro p1 p2 s1 s2 g1 g2 hs
    have a1 := (hw.1 s1.UserID p1).2 ⟨s1, g1, rfl⟩
    have a2 := (hw.1 s1.UserID p2).2 ⟨s2, g2, hs.symm⟩
    rw [a1] at a2
    exact Option.some.inj a2
  · intro u p hg
    obtain ⟨slot, hs, _⟩ := (hw.1 u p).1 hg
    exact hr p slot hs

/-- Witness of C35: `user-a` joins seat 0, an AI is added at seat 1 and removed, and
`user-a` leaves; both maps are empty again. -/
theorem C35_witness :
    (∀ ev ∈ demoEvents, strings.HasPrefix ev.2.1 "ai_" = false) ∧
    ∃ m, PlayerPositionMapping.runEvents
        (PlayerPositionMapping.NewPlayerPositionMapping 2) demoEvents = Except.ok m ∧
      ∀ (u : String) (p : Int),
        m.userToPos.get? u = some p ↔ ∃ slot, m.slots.get? p = some slot ∧ slot.UserID = u :=
  have hu : ∀ ev ∈ demoEvents, strings.HasPrefix ev.2.1 "ai_" = false := by
    intro ev hev
    simp only [demoEvents, List.mem_cons, List.mem_singleton, List.not_mem_nil, or_false] at hev
    rcases hev with h | h | h | h <;> rw [h] <;> rfl
  ⟨hu, (C35_seat_maps_stay_mutually_inverse 2 demoEvents hu).imp
    (fun _ h => ⟨h.1, h.2.1⟩)⟩

namespace PlayerPositionMapping

/-- A store at a key that was absent, followed by its delete, leaves every read as it
was. -/
theorem get?_delete_set {κ ν : Type} [DecidableEq κ] (m : GoMap κ ν) (k j : κ) (v : ν)
    (h : m.get? k = none) : ((m.set k v).delete k).get? j = m.get? j := by
  by_cases hj : j = k
  · subst hj
    rw [GoMap.get?_delete_self, h]
  · rw [GoMap.get?_delete_ne _ _ _ hj, GoMap.get?_set_ne _ _ _ _ hj]

/-- The method `leavePosition` undoes a `joinPosition` that seated the user. -/
theorem leave_after_join (w : World) (m : PlayerPositionMapping) (u : String) (p : Int)
    (h0 : 0 ≤ p) (h1 : p < m.maxPlayers) (hs : m.slots.get? p = none)
    (hu : m.userToPos.get? u = none) :
    (joinPosition w m u p).2 = none ∧ (leavePosition (joinPosition w m u p).1 u).2 = none ∧
      (∀ k, (leavePosition (joinPosition w m u p).1 u).1.slots.get? k = m.slots.get? k) ∧
      ∀ v, (leavePosition (joinPosition w m u p).1 u).1.userToPos.get? v
        = m.userToPos.get? v := by
  have hn : ¬ (p < 0 ∨ p ≥ m.maxPlayers) := by omega
  simp only [joinPosition, if_neg hn, hu, hs, Option.isSome_none, Bool.false_eq_true, if_false,
    leavePosition, GoMap.get?_set_self, true_and]
  exact ⟨fun k => get?_delete_set m.slots p k _ hs, fun v => get?_delete_set m.userToPos u v _ hu⟩

/-- The method `removeAI` undoes an `addAI` whose user id was not in use. -/
theorem remove_after_add (w : World) (m : PlayerPositionMapping) (t : String) (p : Int)
    (h0 : 0 ≤ p) (h1 : p < m.maxPlayers) (hs : m.slots.get? p = none)
    (hu : m.userToPos.get? ("ai_" ++ t ++ "_" ++ fmtInt p) = none) :
    ∃ m1, addAI w m p t = Except.ok (m1, none) ∧ (removeAI m1 p).2 = none ∧
      (∀ k, (removeAI m1 p).1.slots.get? k = m.slots.get? k) ∧
      ∀ v, (removeAI m1 p).1.userToPos.get? v = m.userToPos.get? v := by
  have hn : ¬ (p < 0 ∨ p ≥ m.maxPlayers) := by omega
  cases hg : generateAIName w m with
  | error e2 => exact absurd hg (generateAIName_ok w m e2)
  | ok name =>
    refine ⟨{ m with
        slots := m.slots.set p
          { UserID := "ai_" ++ t ++ "_" ++ fmtInt p, DisplayName := name, Connected := true,
            LastSeen := w.now, IsAI := true, AIType := t }
        userToPos := m.userToPos.set ("ai_" ++ t ++ "_" ++ fmtInt p) p }, ?_, ?_, ?_, ?_⟩
    · simp only [addAI, if_neg hn, hs, Option.isSome_none, Bool.false_eq_true, if_false, hg,
        bind, Except.bind, pure, Except.pure]
    · simp only [removeAI, if_neg hn, GoMap.get?_set_self, not_true_eq_false, if_false]
    · intro k
      simp only [removeAI, if_neg hn, GoMap.get?_set_self, not_true_eq_false, if_false]
      exact get?_delete_set m.slots p k _ hs
    · intro v
      simp only [removeAI, if_neg hn, GoMap.get?_set_self, not_true_eq_false, if_false]
      exact get?_delete_set m.userToPos _ v _ hu

/-- The method `removeAI` refuses a seat held by a human and leaves every such seat as it
is. -/
theorem removeAI_keeps_humans (m : PlayerPositionMapping) (q k : Int) (slot : PlayerSlot)
    (hk : m.slots.get? k = some slot) (hh : slot.IsAI = false) :
    (removeAI m q).1.slots.get? k = some slot ∧
      (k = q → ∃ e, removeAI m q = (m, some e)) := by
  by_cases h1 : q < 0 ∨ q ≥ m.maxPlayers
  · simp only [removeAI, if_pos h1]
    exact ⟨hk, fun _ => ⟨_, rfl⟩⟩
  · cases hs : m.slots.get? q with
    | none =>
      simp only [removeAI, if_neg h1, hs]
      exact ⟨hk, fun _ => ⟨_, rfl⟩⟩
    | some s =>
      by_cases h2 : s.IsAI = true
      · have hkq : k ≠ q := by
          intro hkq
          rw [hkq, hs] at hk
          rw [Option.some.inj hk, hh] at h2
          exact Bool.noConfusion h2
        simp only [removeAI, if_neg h1, hs, h2, not_true_eq_false, if_false]
        exact ⟨by rw [GoMap.get?_delete_ne _ _ _ hkq]; exact hk, fun h => absurd h hkq⟩
      · simp only [removeAI, if_neg h1, hs, h2, not_false_eq_true, if_true]
        exact ⟨hk, fun _ => ⟨_, rfl⟩⟩

end PlayerPositionMapping

/-- Claim C37, the code at a state where it fails: a user whose id is `ai_random_0` sits at
seat 1 and seat 0 is empty; `add_ai` of type `random` at seat 0 and `remove_ai` at seat 0
both succeed, and afterwards `userToPos` has lost the entry of the user at seat 1. -/
theorem C37_counterexample :
    impostorMapping.maxPlayers = 2 ∧ impostorMapping.slots.get? 0 = none ∧
    impostorMapping.userToPos.get? "ai_random_0" = some 1 ∧
    ∃ m1, PlayerPositionMapping.addAI demoWorld impostorMapping 0 "random"
        = Except.ok (m1, none) ∧
      (PlayerPositionMapping.removeAI m1 0).2 = none ∧
      (PlayerPositionMapping.removeAI m1 0).1.userToPos.get? "ai_random_0" = none ∧
      ((PlayerPositionMapping.removeAI m1 0).1.slots.get? 1).map (fun slot => slot.UserID)
        = some "ai_random_0" :=
  ⟨rfl, rfl, rfl, _, rfl, rfl, rfl, rfl⟩

/-- Claim C37, amended: at an empty seat `p` in range, `join_position(u, p)` by a user
without a seat followed by `leave_position(u)` succeeds twice and leaves every entry of
`slots` and of `userToPos` as it was; `add_ai` of type `t` at `p` followed by `remove_ai` at
`p` does so too when the user id `ai_<t>_<p>` is not a key of `userToPos`, which holds in
every well-seated mapping, and so in every mapping reached from a fresh one by users whose
ids do not start with `ai_`; and `remove_ai` refuses a seat held by a human and never
removes one. -/
theorem C37_leave_undoes_join_and_remove_ai_undoes_add_ai (w : World)
    (m : PlayerPositionMapping) (u t : String) (p : Int) (h0 : 0 ≤ p) (h1 : p < m.maxPlayers)
    (hs : m.slots.get? p = none) :
    (m.userToPos.get? u = none →
      (PlayerPositionMapping.joinPosition w m u p).2 = none ∧
      (PlayerPositionMapping.leavePosition (PlayerPositionMapping.joinPosition w m u p).1 u).2
        = none ∧
      (∀ k, (PlayerPositionMapping.leavePosition
          (PlayerPositionMapping.joinPosition w m u p).1 u).1.slots.get? k = m.slots.get? k) ∧
      ∀ v, (PlayerPositionMapping.leavePosition
          (PlayerPositionMapping.joinPosition w m u p).1 u).1.userToPos.get? v
        = m.userToPos.get? v) ∧
    (m.userToPos.get? ("ai_" ++ t ++ "_" ++ fmtInt p) = none →
      ∃ m1, PlayerPositionMapping.addAI w m p t = Except.ok (m1, none) ∧
        (PlayerPositionMapping.removeAI m1 p).2 = none ∧
        (∀ k, (PlayerPositionMapping.removeAI m1 p).1.slots.get? k = m.slots.get? k) ∧
        ∀ v, (PlayerPositionMapping.removeAI m1 p).1.userToPos.get? v = m.userToPos.get? v) ∧
    (m.WellSeated → m.userToPos.get? ("ai_" ++ t ++ "_" ++ fmtInt p) = none) ∧
    ((∃ (maxPlayers : Int) (events : List (World × String × Request)),
        (∀ ev ∈ events, strings.HasPrefix ev.2.1 "ai_" = false) ∧
        PlayerPositionMapping.runEvents
          (PlayerPositionMapping.NewPlayerPositionMapping maxPlayers) events = Except.ok m) →
      m.WellSeated) ∧
    (∀ (q k : Int) (slot : PlayerSlot), m.slots.get? k = some slot → slot.IsAI = false →
      (PlayerPositionMapping.removeAI m q).1.slots.get? k = some slot ∧
        (k = q → ∃ e, PlayerPositionMapping.removeAI m q = (m, some e))) := by
  refine ⟨PlayerPositionMapping.leave_after_join w m u p h0 h1 hs,
    PlayerPositionMapping.remove_after_add w m t p h0 h1 hs,
    fun hw => PlayerPositionMapping.WellSeated_ai_free m hw p h0 hs t, ?_,
    fun q k slot => PlayerPositionMapping.removeAI_keeps_humans m q k slot⟩
  rintro ⟨maxPlayers, events, hu, hr⟩
  obtain ⟨m2, h2, hw, _⟩ := PlayerPositionMapping.runEvents_wellSeated events hu _
    (PlayerPositionMapping.WellSeated_new maxPlayers)
  rw [hr] at h2
  rw [Except.ok.inj h2]
  exact hw

/-- Witness of C37: on the fresh two-seat mapping, `user-a` joins seat 0 and leaves, and an
AI of type `random` is added at seat 0 and removed; both pairs succeed. -/
theorem C37_witness :
    (0 : Int) ≤ 0 ∧ (0 : Int) < (PlayerPositionMapping.NewPlayerPositionMapping 2).maxPlayers ∧
    (PlayerPositionMapping.NewPlayerPositionMapping 2).slots.get? 0 = none ∧
    (PlayerPositionMapping.leavePosition
      (PlayerPositionMapping.joinPosition demoWorld
        (PlayerPositionMapping.NewPlayerPositionMapping 2) "user-a" 0).1 "user-a").2 = none ∧
    ∃ m1, PlayerPositionMapping.addAI demoWorld
        (PlayerPositionMapping.NewPlayerPositionMapping 2) 0 "random" = Except.ok (m1, none) ∧
      (PlayerPositionMapping.removeAI m1 0).2 = none :=
  ⟨by decide, by decide, rfl,
    ((C37_leave_undoes_join_and_remove_ai_undoes_add_ai demoWorld
      (PlayerPositionMapping.NewPlayerPositionMapping 2) "user-a" "random" 0 (by decide)
      (by decide) rfl).1 rfl).2.1,
    ((C37_leave_undoes_join_and_remove_ai_undoes_add_ai demoWorld
      (PlayerPositionMapping.NewPlayerPositionMapping 2) "user-a" "random" 0 (by decide)
      (by decide) rfl).2.1 rfl).imp (fun _ h => ⟨h.1, h.2.1⟩)⟩

/-- Claim C36, the code at the failing input: on the fresh tic-tac-toe session the action
`add_ai` with the type `bogus`, sent in the session category, is accepted: seat 1 is then
held by an AI whose `AIType` is `bogus`, which is not a key of `AITypes()`, and the session
state is broadcast. The same request in the ai category is refused. -/
theorem C36_session_add_ai_seats_unadvertised_type :
    ∃ s out,
      GameSession.handleAction TicTacToeGame.asGame PlayerPositionMapping.asPlayerMapping
        demoWorld demoSession bogusAIAction = Except.ok (s, out) ∧
      (∃ slot, s.playerMapping.slots.get? 1 = some slot ∧ slot.IsAI = true ∧
        slot.AIType = "bogus") ∧
      (TicTacToeGame.asGame.AITypes s.game).contains "bogus" = false ∧
      out = PlayerPositionMapping.GetSessionStateForAll s.playerMapping ∧
      GameSession.handleAction TicTacToeGame.asGame PlayerPositionMapping.asPlayerMapping
        demoWorld demoSession
        { PlayerID := "user-a", Request := demoRequest "ai" "add_ai" (positionAndAI 1 "bogus") }
        = Except.ok (demoSession, [GameSession.sendError "user-a" "AI type not supported"]) :=
  ⟨_, _, rfl, ⟨_, rfl, rfl, rfl⟩, rfl, rfl, rfl⟩

/-! ## Registration over HTTP -/

namespace AuthHandler

/-- The response of `HandleRegister` to a decoded POST follows the error of `Login`: the
error of `Register` is not read. -/
theorem HandleRegister_follows_Login (b : Bcrypt) (s s1 s2 : Service) (r : RegisterHTTPRequest)
    (req : RegisterRequestParams) (hexes tokens : Nat → String) (fuel : Nat)
    (userID token loginID : String) (registerErr loginErr : Option String)
    (hm : r.Method = "POST") (hb : r.Body = some req)
    (hr : Service.Register b s req.Username req.Password hexes fuel
      = some (s1, userID, registerErr))
    (hl : Service.Login b s1 req.Username req.Password tokens fuel
      = some (s2, token, loginID, loginErr)) :
    HandleRegister b s r hexes tokens fuel
      = some (s2,
          match loginErr with
          | some e =>
            { StatusCode := StatusBadRequest, Header := [],
              Body := HTTPBody.error
                { MessageType := MessageTypeError, Parameters := { ErrorMessage := e } } }
          | none =>
            { StatusCode := StatusOK, Header := [("Content-Type", "application/json")],
              Body := HTTPBody.auth MessageTypeSimple { Token := token, UserID := userID } }) := by
  simp only [HandleRegister, hm, ne_eq, not_true_eq_false, if_false, hb, hr, hl]
  cases loginErr <;> rfl

end AuthHandler

/-- Claim C38, the code at the failing input: `alice` is registered with the password
`secret`; on a second `POST /auth/register` with the same name and password `Register`
returns the error `username already taken`, and `HandleRegister` answers with the status 200
and a session token that `Login` has stored for the user, with an empty user id. With
another password the answer is the status 400 and no token is stored. For every service and
request, whenever `Register` returns an error and the `Login` that follows returns none, the
answer is the status 200 with the token of `Login`. -/
theorem C38_register_of_taken_name_issues_token :
    Service.Register demoBcrypt aliceRegistered "alice" "secret" demoRandom 2
      = some (aliceRegistered, "", some "username already taken") ∧
    (∃ s2 token,
      AuthHandler.HandleRegister demoBcrypt aliceRegistered registerAlice demoRandom demoRandom 2
        = some (s2,
            { StatusCode := 200, Header := [("Content-Type", "application/json")],
              Body := HTTPBody.auth MessageTypeSimple { Token := token, UserID := "" } }) ∧
      aliceRegistered.sessions.get? token = none ∧
      s2.sessions.get? token = some "user-a") ∧
    AuthHandler.HandleRegister demoBcrypt aliceRegistered
        { Method := "POST", Body := some { Username := "alice", Password := "guess" } }
        demoRandom demoRandom 2
      = some (aliceRegistered,
          { StatusCode := 400, Header := [],
            Body := HTTPBody.error
              { MessageType := MessageTypeError,
                Parameters := { ErrorMessage := "invalid credentials" } } }) ∧
    (∀ (b : Bcrypt) (s s1 s2 : Service) (username password : String)
        (hexes tokens : Nat → String) (fuel : Nat) (userID token loginID e : String),
      Service.Register b s username password hexes fuel = some (s1, userID, some e) →
      Service.Login b s1 username password tokens fuel = some (s2, token, loginID, none) →
      AuthHandler.HandleRegister b s
          { Method := "POST", Body := some { Username := username, Password := password } }
          hexes tokens fuel
        = some (s2,
            { StatusCode := StatusOK, Header := [("Content-Type", "application/json")],
              Body := HTTPBody.auth MessageTypeSimple { Token := token, UserID := userID } })) :=
  ⟨rfl, ⟨_, _, rfl, rfl, rfl⟩, rfl,
    fun b s s1 s2 username password hexes tokens fuel userID token loginID e hr hl =>
      AuthHandler.HandleRegister_follows_Login b s s1 s2 _
        { Username := username, Password := password } hexes tokens fuel userID token loginID
        (some e) none rfl rfl hr hl⟩

end GameSite
